import Mathlib

/-!
# modm: the Paa5100je resumable driver, software GPIO, SocketCAN and fibers

A shallow embedding of

* `src/modm/driver/motion/paa5100je.hpp` and `paa5100je_impl.hpp`
  (the resumable functions of the motion sensor driver),
* `src/modm/platform/gpio/generic/software_gpio.hpp` (`SoftwareGpioPort`,
  `GpioInverted`, `GpioUnused`),
* `src/modm/platform/can/socketcan/socketcan.cpp` (`getMessage`, `sendMessage`), and
* the two fibers of `examples/stm32f4_discovery/temperature_ltc2984/main.cpp`
  under the scheduler of the specification (section 4.4).

The driver is written with the `RF_*` macros of `modm/processing/resumable.hpp`
and uses `modm::SpiDevice`, `modm::Timeout` and `SpiMaster::transfer`, none of
which is part of the sources at hand.  Those parts are modelled from the
specification (sections 4.1 to 4.5 and 6) and are marked as such.

Everything the environment decides (the clock, whether a transfer has finished,
the bytes a transfer receives, the content of a local variable that did not
survive a suspension) is read from an input queue, so that a statement
quantified over all queues covers every suspension pattern.

What a resumed invocation finds in the locals of the call depends on the engine.
The definitions of the driver leave it open (a parameter is what the caller
passes, a loop counter what the input supplies); the section on calls that keep
their frame fixes it to the engine the sources are written for, under which a
suspended call keeps its locals.
-/

namespace Modm

/-! ## Data model -/

/-- Entries of the log of bus activity.  `ctx` identifies the driver instance. -/
inductive Event where
  | acquired (ctx : Nat)
  | released (ctx : Nat)
  | chipSelect (ctx : Nat) (level : Bool)
  | transfer (ctx : Nat) (tx : List Nat) (rxLen : Nat) (rx : List Nat) (finished : Bool)
  deriving DecidableEq, Repr

/-- Modelled from the spec: the resumable result of section 4.2, a completion
flag plus a payload.  `nestingError` is the rejection of a call that exceeds the
configured nesting depth (section 4.1); `wrongState` is what a dispatch on a
step marker that names no step of the function yields. -/
inductive Res (α : Type) where
  | running
  | done (v : α)
  | nestingError
  | wrongState
  deriving DecidableEq, Repr

/-- Modelled from the spec: the deadline object of section 4.5
(`modm::Timeout`, `modm::PreciseTimeout`). -/
structure Timeout where
  armed : Bool
  target : Nat
  deriving DecidableEq, Repr

/-- Modelled from the spec: `restart(duration)` captures start = now,
target = start + duration. -/
def Timeout.restart (now duration : Nat) : Timeout :=
  { armed := true, target := now + duration }

/-- Whether an armed deadline has been reached at time `now`. -/
def Timeout.expired (t : Timeout) (now : Nat) : Bool :=
  t.armed && decide (t.target ≤ now)

/-- Modelled from the spec: `execute()` returns true at most once per restart,
on the first poll at or after the target. -/
def Timeout.execute (t : Timeout) (now : Nat) : Bool × Timeout :=
  if t.expired now then (true, { t with armed := false }) else (false, t)

/-- The state of one driver instance: the step markers of `NestedResumable<Levels>`
(modelled from the spec, section 3: one slot per nesting level, 0 meaning not
started) and the private members of `Paa5100je`. -/
structure Dev where
  /-- The address of the instance, the context it acquires the bus with. -/
  ctx : Nat
  /-- The template argument of `NestedResumable`. -/
  levels : Nat
  /-- Number of resumable calls currently active on the instance. -/
  rfLevel : Nat
  /-- The step marker of each nesting level. -/
  rfState : Nat → Nat
  scratch : Nat → Nat
  wait : Timeout
  cs_timeout : Timeout
  /-- Level of the chip-select pin `Cs`. -/
  cs : Bool

/-- What driver instances share: the arbitration token of the SPI master, the
input queue of the environment and the log of bus activity. -/
structure Bus where
  token : Option Nat
  input : List Nat
  trace : List Event
  deriving DecidableEq, Repr

/-- A driver instance together with the bus it is attached to. -/
structure St where
  dev : Dev
  bus : Bus

/-- A resumable function: one invocation (one poll) maps a state to a result
and a state. -/
abbrev RF (α : Type) := St → Res α × St

/-! ## Environment -/

/-- Next value of the input queue (0 once the queue is empty). -/
def St.peek (s : St) : Nat := s.bus.input.headD 0

/-- Drop the value that was read. -/
def St.advance (s : St) : St :=
  { s with bus := { s.bus with input := s.bus.input.tail } }

/-- Append an entry to the bus log. -/
def St.log (s : St) (e : Event) : St :=
  { s with bus := { s.bus with trace := s.bus.trace ++ [e] } }

/-- The next `n` values of the input queue, reduced to bytes. -/
def St.peekBytes (s : St) (n : Nat) : List Nat :=
  (List.range n).map (fun k => (s.bus.input.getD k 0) % 256)

/-- Drop `n` values of the input queue. -/
def St.advanceBy (s : St) (n : Nat) : St :=
  { s with bus := { s.bus with input := s.bus.input.drop n } }

/-! ## Resumable state engine (modelled from the spec) -/

/-- Modelled from the spec: record step `k` at the current nesting level
(part of `RF_WAIT_UNTIL` and `RF_CALL`, section 4.1 (b)). -/
def setRf (k : Nat) (s : St) : St :=
  { s with dev := { s.dev with
      rfState := fun l => if l = s.dev.rfLevel - 1 then k else s.dev.rfState l } }

/-- Modelled from the spec: leave the current nesting level (the level is
decremented on return, section 4.1). -/
def popRf (s : St) : St :=
  { s with dev := { s.dev with rfLevel := s.dev.rfLevel - 1 } }

/-- Modelled from the spec: `RF_BEGIN`.  A call beyond the configured depth is
rejected; otherwise the nesting level is incremented for the duration of the
call and the body is entered at the step the marker of this level names. -/
def rfBegin {α : Type} (body : Nat → RF α) : RF α := fun s =>
  if s.dev.rfLevel < s.dev.levels then
    body (s.dev.rfState s.dev.rfLevel)
      { s with dev := { s.dev with rfLevel := s.dev.rfLevel + 1 } }
  else (Res.nestingError, s)

/-- Modelled from the spec: `RF_END_RETURN(v)` and `RF_RETURN(v)`.  Completion
resets the marker of this level to not started (section 3) and leaves the level. -/
def rfReturn {α : Type} (v : α) : RF α := fun s =>
  (Res.done v, popRf (setRf 0 s))

/-- Modelled from the spec: the switch default, a marker that names no step. -/
def rfWrongState {α : Type} : RF α := fun s => (Res.wrongState, popRf s)

/-- Modelled from the spec: `RF_WAIT_UNTIL(cond)` as step `k` (section 4.2): the
predicate is checked each time the step is reached; if false the call reports
suspension at this step, if true execution falls through to `rest`. -/
def rfWaitUntil {α : Type} (k : Nat) (cond : St → Bool × St) (rest : RF α) : RF α := fun s =>
  let r := cond (setRf k s)
  if r.1 then rest r.2 else (Res.running, popRf r.2)

/-- Modelled from the spec: `RF_CALL(callee)` as step `k` (section 4.2): call the
inner operation; if it is not complete suspend here, if it is complete extract
the value and continue with `rest`.  A rejected inner call ends this call too. -/
def rfCall {α β : Type} (k : Nat) (callee : RF β) (rest : β → RF α) : RF α := fun s =>
  let r := callee (setRf k s)
  match r.1 with
  | Res.done v => rest v r.2
  | Res.running => (Res.running, popRf r.2)
  | Res.nestingError => (Res.nestingError, popRf r.2)
  | Res.wrongState => (Res.wrongState, popRf r.2)

/-! ## Collaborators (modelled from the spec) -/

/-- Modelled from the spec: `wait.restart(d)`; the clock is read from the input. -/
def waitRestart (d : Nat) (s : St) : St :=
  { s.advance with dev := { s.dev with wait := Timeout.restart s.peek d } }

/-- Modelled from the spec: `wait.execute()`; the clock is read from the input. -/
def waitExecute (s : St) : Bool × St :=
  ((s.dev.wait.execute s.peek).1,
   { s.advance with dev := { s.dev with wait := (s.dev.wait.execute s.peek).2 } })

/-- Modelled from the spec: `cs_timeout.restart(d)`. -/
def csRestart (d : Nat) (s : St) : St :=
  { s.advance with dev := { s.dev with cs_timeout := Timeout.restart s.peek d } }

/-- Modelled from the spec: `cs_timeout.execute()`. -/
def csExecute (s : St) : Bool × St :=
  ((s.dev.cs_timeout.execute s.peek).1,
   { s.advance with dev := { s.dev with cs_timeout := (s.dev.cs_timeout.execute s.peek).2 } })

/-- Modelled from the spec: `SpiDevice::acquireMaster()` (section 4.3): if the
token is free mark it held by this instance and report success, else report
failure.  The configuration handler attached in the constructor only sets the
data mode and data order of the master, which the model does not track. -/
def acquireMaster (s : St) : Bool × St :=
  if s.bus.token = none then
    (true, ({ s with bus := { s.bus with token := some s.dev.ctx } }).log
      (Event.acquired s.dev.ctx))
  else (false, s)

/-- Modelled from the spec: `SpiDevice::releaseMaster()` (section 4.3):
unconditional, the token is free afterwards. -/
def releaseMaster (s : St) : St :=
  ({ s with bus := { s.bus with token := none } }).log (Event.released s.dev.ctx)

/-- The chip-select pin: `Cs::setOutput(level)`, synchronous (section 6). -/
def csSetOutput (level : Bool) (s : St) : St :=
  ({ s with dev := { s.dev with cs := level } }).log (Event.chipSelect s.dev.ctx level)

/-- Store received bytes into `scratch` starting at `dst`. -/
def storeBytes (scratch : Nat → Nat) (dst : Nat) (bytes : List Nat) : Nat → Nat :=
  fun j => if dst ≤ j ∧ j < dst + bytes.length then bytes.getD (j - dst) 0 else scratch j

/-- Modelled from the spec: `SpiMaster::transfer(tx, rx, length)` (section 6), an
opaque resumable leaf.  One poll reads from the input whether the transfer has
finished; when it has, the `rxLen` received bytes are read from the input and
stored at `scratch[dst ..]` (`rxLen = 0` stands for a null receive buffer,
`tx = []` for a null transmit buffer).  It is a resumable of the SPI master, not
of the driver instance, and uses none of the instance's nesting levels. -/
def spiTransfer (tx : List Nat) (dst rxLen : Nat) : RF Unit := fun s =>
  if s.peek = 0 then
    (Res.running, s.advance.log (Event.transfer s.dev.ctx tx rxLen [] false))
  else
    let rx := s.advance.peekBytes rxLen
    let s1 := s.advance.advanceBy rxLen
    (Res.done (),
     ({ s1 with dev := { s1.dev with scratch := storeBytes s1.dev.scratch dst rx } }).log
       (Event.transfer s.dev.ctx tx rxLen rx true))


/-! ## The driver: `paa5100je_impl.hpp` -/

namespace Paa5100je

/-- `Registers::ProductID`. -/
def regProductID : Nat := 0x00
/-- `Registers::RevisionID`. -/
def regRevisionID : Nat := 0x01
/-- `Registers::MotionBurst`. -/
def regMotionBurst : Nat := 0x16
/-- `Registers::PowerUpReset`. -/
def regPowerUpReset : Nat := 0x3A
/-- `Registers::InverseProductID`. -/
def regInverseProductID : Nat := 0x5F
/-- `Registers::LedEnable`. -/
def regLedEnable : Nat := 0x6F
/-- `Registers::WriteProtect`. -/
def regWriteProtect : Nat := 0x7F
/-- `ExpectedProductID`. -/
def ExpectedProductID : Nat := 0x49

/-- Assignment to `scratch[i]`. -/
def setScratch (i v : Nat) (s : St) : St :=
  { s with dev := { s.dev with scratch := fun j => if j = i then v else s.dev.scratch j } }

/-! ### `setChipSelect`

Steps: 1 and 2 are the two `RF_WAIT_UNTIL(cs_timeout.execute())`.  Both lie in
the else branch, which a resumed call enters directly. -/

/-- `setChipSelect` from its second wait on. -/
def setChipSelect_wait2 : RF Unit :=
  rfWaitUntil 2 csExecute (rfReturn ())

/-- `setChipSelect` from its first wait on. -/
def setChipSelect_wait1 : RF Unit :=
  rfWaitUntil 1 csExecute (fun s => setChipSelect_wait2 (csRestart 1 (csSetOutput true s)))

/-- `Paa5100je::setChipSelect(bool value)`. -/
def setChipSelect (value : Bool) : RF Unit :=
  rfBegin fun marker =>
    if marker = 0 then
      fun s =>
        if !value then rfReturn () (csSetOutput false s)
        else setChipSelect_wait1 (csRestart 1 s)
    else if marker = 1 then setChipSelect_wait1
    else if marker = 2 then setChipSelect_wait2
    else rfWrongState

/-! ### `read`

Steps: 1 `RF_WAIT_UNTIL(acquireMaster())`, 2 `setChipSelect(false)`, 3 the
address transfer, 4 the data transfer, 5 `setChipSelect(true)`.  `reg` is a
parameter: a resumed call starts with the value its caller passes, and
`reg &= 0x7F` is executed only when step 1 falls through. -/

/-- `read` from `RF_CALL(setChipSelect(true))` on. -/
def read_csHigh : RF Unit :=
  rfCall 5 (setChipSelect true) (fun _ s => rfReturn () (releaseMaster s))

/-- `read` from `RF_CALL(SpiMaster::transfer(nullptr, data, len))` on. -/
def read_data (dst len : Nat) : RF Unit :=
  rfCall 4 (spiTransfer [] dst len) (fun _ => read_csHigh)

/-- `read` from `RF_CALL(SpiMaster::transfer(&reg, nullptr, 1))` on. -/
def read_addr (reg dst len : Nat) : RF Unit :=
  rfCall 3 (spiTransfer [reg] 0 0) (fun _ => read_data dst len)

/-- `read` from `RF_CALL(setChipSelect(false))` on. -/
def read_csLow (reg dst len : Nat) : RF Unit :=
  rfCall 2 (setChipSelect false) (fun _ => read_addr reg dst len)

/-- `read` from `RF_WAIT_UNTIL(this->acquireMaster())` on. -/
def read_acquire (reg dst len : Nat) : RF Unit :=
  rfWaitUntil 1 acquireMaster (read_csLow (reg &&& 0x7F) dst len)

/-- `Paa5100je::read(uint8_t reg, uint8_t* data, uint8_t len)`; `data` points to
`scratch[dst]`. -/
def read (reg dst len : Nat) : RF Unit :=
  rfBegin fun marker =>
    if marker = 0 then read_acquire reg dst len
    else if marker = 1 then read_acquire reg dst len
    else if marker = 2 then read_csLow reg dst len
    else if marker = 3 then read_addr reg dst len
    else if marker = 4 then read_data dst len
    else if marker = 5 then read_csHigh
    else rfWrongState

/-! ### `write`

Steps as for `read`, step 4 transfers `val`. -/

/-- `write` from `RF_CALL(setChipSelect(true))` on. -/
def write_csHigh : RF Unit :=
  rfCall 5 (setChipSelect true) (fun _ s => rfReturn () (releaseMaster s))

/-- `write` from `RF_CALL(SpiMaster::transfer(&val, nullptr, 1))` on. -/
def write_data (val : Nat) : RF Unit :=
  rfCall 4 (spiTransfer [val] 0 0) (fun _ => write_csHigh)

/-- `write` from `RF_CALL(SpiMaster::transfer(&reg, nullptr, 1))` on. -/
def write_addr (reg val : Nat) : RF Unit :=
  rfCall 3 (spiTransfer [reg] 0 0) (fun _ => write_data val)

/-- `write` from `RF_CALL(setChipSelect(false))` on. -/
def write_csLow (reg val : Nat) : RF Unit :=
  rfCall 2 (setChipSelect false) (fun _ => write_addr reg val)

/-- `write` from `RF_WAIT_UNTIL(this->acquireMaster())` on. -/
def write_acquire (reg val : Nat) : RF Unit :=
  rfWaitUntil 1 acquireMaster (write_csLow (reg ||| 0x80) val)

/-- `Paa5100je::write(uint8_t reg, uint8_t val)`. -/
def write (reg val : Nat) : RF Unit :=
  rfBegin fun marker =>
    if marker = 0 then write_acquire reg val
    else if marker = 1 then write_acquire reg val
    else if marker = 2 then write_csLow reg val
    else if marker = 3 then write_addr reg val
    else if marker = 4 then write_data val
    else if marker = 5 then write_csHigh
    else rfWrongState

/-! ### `writeRaw`

Steps: 1 `RF_WAIT_UNTIL(acquireMaster())`; inside the loop 2
`setChipSelect(false)`, 3 the transfer of `Val[i], Val[i+1]`, 4
`setChipSelect(true)`.  The loop counter `i` is a local `uint16_t`: a call that
is resumed at step 2, 3 or 4 enters the loop body without running the
initialisation, so its `i` is whatever the input supplies. -/

/-- `releaseMaster(); RF_END();` at the end of `writeRaw`. -/
def writeRaw_finish : RF Unit := fun s => rfReturn () (releaseMaster s)

/-- The loop body of `writeRaw` from `RF_CALL(setChipSelect(true))` on; `next` is
what follows the body (`i += 2` and the loop test). -/
def writeRaw_csHigh (next : RF Unit) : RF Unit :=
  rfCall 4 (setChipSelect true) (fun _ => next)

/-- The loop body of `writeRaw` from `RF_CALL(SpiMaster::transfer(&Val[i], nullptr, 2))` on. -/
def writeRaw_xfer (Val : List Nat) (i : Nat) (next : RF Unit) : RF Unit :=
  rfCall 3 (spiTransfer [Val.getD i 0, Val.getD (i + 1) 0] 0 0) (fun _ => writeRaw_csHigh next)

/-- The loop body of `writeRaw` from `RF_CALL(setChipSelect(false))` on. -/
def writeRaw_csLow (Val : List Nat) (i : Nat) (next : RF Unit) : RF Unit :=
  rfCall 2 (setChipSelect false) (fun _ => writeRaw_xfer Val i next)

/-- The loop body of `writeRaw` entered at step `label` (2, 3 or 4). -/
def writeRaw_body (Val : List Nat) (label i : Nat) (next : RF Unit) : RF Unit :=
  if label = 2 then writeRaw_csLow Val i next
  else if label = 3 then writeRaw_xfer Val i next
  else writeRaw_csHigh next

/-- The loop of `writeRaw<Val, Len>` entered at step `label` with counter `i`.
After the body `i += 2` (a `uint16_t`) and `i < Len` decide between another round
and the end.  The first argument bounds the number of rounds of one invocation;
`Len + 1` is never used up, as `i` grows by 2 per round. -/
def writeRaw_loop (Val : List Nat) : Nat → Nat → Nat → RF Unit
  | 0, _, _ => writeRaw_finish
  | fuel + 1, label, i =>
    writeRaw_body Val label i (fun s =>
      if (i + 2) % 65536 < Val.length then writeRaw_loop Val fuel 2 ((i + 2) % 65536) s
      else writeRaw_finish s)

/-- `writeRaw` from `RF_WAIT_UNTIL(this->acquireMaster())` on: `i = 0`, then the
loop test. -/
def writeRaw_acquire (Val : List Nat) : RF Unit :=
  rfWaitUntil 1 acquireMaster (fun s =>
    if 0 < Val.length then writeRaw_loop Val (Val.length + 1) 2 0 s
    else writeRaw_finish s)

/-- `Paa5100je::writeRaw<Val, Len>()` with `Len = Val.length`
(`static_assert(Len % 2 == 0)`). -/
def writeRaw (Val : List Nat) : RF Unit :=
  rfBegin fun marker =>
    if marker = 0 then writeRaw_acquire Val
    else if marker = 1 then writeRaw_acquire Val
    else if marker = 2 ∨ marker = 3 ∨ marker = 4 then
      fun s => writeRaw_loop Val (Val.length + 1) marker (s.peek % 65536) s.advance
    else rfWrongState

/-! ### `writeMagic`

Steps 1 to 15 are the `RF_CALL`s and `RF_WAIT_UNTIL`s in source order; steps 6
to 10 lie inside `if (scratch[0] == 0x00)`. -/

/-- Table `magic1`. -/
def magic1 : List Nat := [0xFF, 0x00, 0xD5, 0x01, 0xD0, 0x07, 0xFF, 0x0E, 0xC3, 0x10]

/-- Table `magic2`. -/
def magic2 : List Nat := [0xFF, 0x00, 0xD1, 0x7B, 0xD0, 0x00, 0xD5, 0x00, 0xFF, 0x0E]

/-- Table `magic3`. -/
def magic3 : List Nat := [0xFF, 0x00, 0xE1, 0xAD, 0xD1, 0x70, 0xFF, 0x0E]

/-- Table `magic4`. -/
def magic4 : List Nat :=
  [0xFF, 0x00, 0xE1, 0xAD, 0xFF, 0x03, 0xC0, 0x00, 0xFF, 0x05, 0xC1, 0xB3, 0xC3, 0xF1, 0xC5,
   0x14, 0xDF, 0x34, 0xFB, 0x08, 0xDE, 0x34, 0xDB, 0x11, 0xED, 0x11, 0xC5, 0x17, 0xF0, 0xE5,
   0xF1, 0xE5, 0xFF, 0x06, 0xC4, 0x1B, 0xC0, 0xBF, 0xCE, 0x3F, 0xFF, 0x08, 0xE6, 0x44, 0xE5,
   0x20, 0xEA, 0x3A, 0xE1, 0x05, 0xE2, 0x05, 0xFF, 0x09, 0xCF, 0xAF, 0xDF, 0x40, 0xC8, 0x80,
   0xC9, 0x80, 0xD7, 0x77, 0xE0, 0x78, 0xE1, 0x78, 0xE2, 0x08, 0xE3, 0x50, 0xFF, 0x0A, 0xC5,
   0x60, 0xFF, 0x00, 0xCD, 0x11, 0xD5, 0x80, 0xF4, 0x21, 0xF5, 0x1F, 0xCA, 0x78, 0xCB, 0x78,
   0xC4, 0x08, 0xC5, 0x50, 0xE4, 0xFF, 0xE5, 0x1F, 0xFF, 0x14, 0xE5, 0x67, 0xE6, 0x08, 0xE3,
   0x70, 0xEF, 0x1C, 0xFF, 0x15, 0xC8, 0x48, 0xFF, 0x07, 0xC1, 0x0D, 0xC3, 0x14, 0xCB, 0x0E,
   0xC5, 0x0F, 0xC4, 0x42, 0xCC, 0x80, 0xFF, 0x10, 0xDB, 0x02, 0xFF, 0x07, 0xC0, 0x41]

/-- Table `magic5`. -/
def magic5 : List Nat :=
  [0xFF, 0x00, 0xB2, 0x00, 0xFF, 0x07, 0xC0, 0x40, 0xFF, 0x06, 0xE8,
   0xF0, 0xE9, 0x00, 0xFF, 0x0D, 0xC8, 0xC0, 0xEF, 0xD5, 0xFF, 0x00,
   0xDB, 0xA0, 0xCE, 0xA8, 0xDA, 0x90, 0xC0, 0x80, 0xF3, 0x1F]

/-- Table `magic6`. -/
def magic6 : List Nat := [0xF3, 0x00]

/-- The adjustment of `scratch[0]` between the reads of 0x70, 0x71 and the
writes: three successive `if`s on a `uint8_t`. -/
def adjust70 (a : Nat) : Nat :=
  let a1 := if a ≤ 28 then (a + 14) % 256 else a
  let a2 := if a1 > 28 then (a1 + 11) % 256 else a1
  if a2 > 0x3F then 0x3F else a2

/-- `scratch[1] = (scratch[1] * 45) / 100`. -/
def adjust71 (b : Nat) : Nat := ((b * 45) / 100) % 256

/-- `writeMagic` from `RF_CALL(writeRaw<magic6>())` on. -/
def writeMagic_15 : RF Unit :=
  rfCall 15 (writeRaw magic6) (fun _ => rfReturn ())

/-- `writeMagic` from the wait of 240 ms on. -/
def writeMagic_14 : RF Unit :=
  rfWaitUntil 14 waitExecute writeMagic_15

/-- `writeMagic` from `RF_CALL(writeRaw<magic5>())` on. -/
def writeMagic_13 : RF Unit :=
  rfCall 13 (writeRaw magic5) (fun _ s => writeMagic_14 (waitRestart 240 s))

/-- `writeMagic` from the wait of 10 ms on. -/
def writeMagic_12 : RF Unit :=
  rfWaitUntil 12 waitExecute writeMagic_13

/-- `writeMagic` from `RF_CALL(writeRaw<magic4>())` on. -/
def writeMagic_11 : RF Unit :=
  rfCall 11 (writeRaw magic4) (fun _ s => writeMagic_12 (waitRestart 10 s))

/-- `writeMagic` from `RF_CALL(write(0x71, scratch[1]))` on. -/
def writeMagic_10 : RF Unit := fun s =>
  rfCall 10 (write 0x71 (s.dev.scratch 1)) (fun _ => writeMagic_11) s

/-- `writeMagic` from `RF_CALL(write(0x70, scratch[0]))` on. -/
def writeMagic_9 : RF Unit := fun s =>
  rfCall 9 (write 0x70 (s.dev.scratch 0)) (fun _ => writeMagic_10) s

/-- `writeMagic` from `RF_CALL(writeRaw<magic3>())` on. -/
def writeMagic_8 : RF Unit :=
  rfCall 8 (writeRaw magic3) (fun _ => writeMagic_9)

/-- `writeMagic` from `RF_CALL(read(0x71, &scratch[1]))` on, followed by the
adjustment of both bytes. -/
def writeMagic_7 : RF Unit :=
  rfCall 7 (read 0x71 1 1) (fun _ s =>
    writeMagic_8
      (setScratch 1 (adjust71 ((setScratch 0 (adjust70 (s.dev.scratch 0)) s).dev.scratch 1))
        (setScratch 0 (adjust70 (s.dev.scratch 0)) s)))

/-- `writeMagic` from `RF_CALL(read(0x70, &scratch[0]))` on. -/
def writeMagic_6 : RF Unit :=
  rfCall 6 (read 0x70 0 1) (fun _ => writeMagic_7)

/-- `writeMagic` from `RF_CALL(read(0x73, &scratch[0]))` on, followed by
`if (scratch[0] == 0x00)`. -/
def writeMagic_5 : RF Unit :=
  rfCall 5 (read 0x73 0 1) (fun _ s =>
    if s.dev.scratch 0 = 0 then writeMagic_6 s else writeMagic_11 s)

/-- `writeMagic` from `RF_CALL(writeRaw<magic2>())` on. -/
def writeMagic_4 : RF Unit :=
  rfCall 4 (writeRaw magic2) (fun _ => writeMagic_5)

/-- `writeMagic` from `RF_CALL(write(0x48, scratch[0]))` on. -/
def writeMagic_3 : RF Unit := fun s =>
  rfCall 3 (write 0x48 (s.dev.scratch 0)) (fun _ => writeMagic_4) s

/-- `writeMagic` from `RF_CALL(read(0x67, &scratch[0]))` on, followed by
`scratch[0] = (scratch[0] & 0x80) ? 0x04 : 0x02`. -/
def writeMagic_2 : RF Unit :=
  rfCall 2 (read 0x67 0 1) (fun _ s =>
    writeMagic_3 (setScratch 0 (if s.dev.scratch 0 &&& 0x80 ≠ 0 then 0x04 else 0x02) s))

/-- `writeMagic` from `RF_CALL(writeRaw<magic1>())` on. -/
def writeMagic_1 : RF Unit :=
  rfCall 1 (writeRaw magic1) (fun _ => writeMagic_2)

/-- `Paa5100je::writeMagic()`. -/
def writeMagic : RF Unit :=
  rfBegin fun marker =>
    if marker = 0 then writeMagic_1
    else if marker = 1 then writeMagic_1
    else if marker = 2 then writeMagic_2
    else if marker = 3 then writeMagic_3
    else if marker = 4 then writeMagic_4
    else if marker = 5 then writeMagic_5
    else if marker = 6 then writeMagic_6
    else if marker = 7 then writeMagic_7
    else if marker = 8 then writeMagic_8
    else if marker = 9 then writeMagic_9
    else if marker = 10 then writeMagic_10
    else if marker = 11 then writeMagic_11
    else if marker = 12 then writeMagic_12
    else if marker = 13 then writeMagic_13
    else if marker = 14 then writeMagic_14
    else if marker = 15 then writeMagic_15
    else rfWrongState

/-! ### Public operations -/

/-- The two checks at the end of the sensor initialisation:
`if (scratch[0] != ExpectedProductID) RF_RETURN(false);`
`if (scratch[0] != static_cast<uint8_t>(~scratch[1])) RF_RETURN(false);`
`RF_END_RETURN(true);`.  The complement of a byte `b` is `255 - b`. -/
def initializeSensor_check : RF Bool := fun s =>
  if s.dev.scratch 0 ≠ ExpectedProductID then rfReturn false s
  else if s.dev.scratch 0 ≠ (255 - s.dev.scratch 1 % 256) then rfReturn false s
  else rfReturn true s

/-- Sensor initialisation from `RF_CALL(read(Registers::InverseProductID, &scratch[1]))` on. -/
def initializeSensor_6 : RF Bool :=
  rfCall 6 (read regInverseProductID 1 1) (fun _ => initializeSensor_check)

/-- Sensor initialisation from `RF_CALL(read(Registers::ProductID, &scratch[0]))` on. -/
def initializeSensor_5 : RF Bool :=
  rfCall 5 (read regProductID 0 1) (fun _ => initializeSensor_6)

/-- Sensor initialisation from `RF_CALL(writeMagic())` on. -/
def initializeSensor_4 : RF Bool :=
  rfCall 4 writeMagic (fun _ => initializeSensor_5)

/-- Sensor initialisation from the wait of 20 ms on. -/
def initializeSensor_3 : RF Bool :=
  rfWaitUntil 3 waitExecute initializeSensor_4

/-- Sensor initialisation from `RF_CALL(write(Registers::PowerUpReset, 0x5a))` on. -/
def initializeSensor_2 : RF Bool :=
  rfCall 2 (write regPowerUpReset 0x5a) (fun _ s => initializeSensor_3 (waitRestart 20 s))

/-- Sensor initialisation from the wait of 50 ms on. -/
def initializeSensor_1 : RF Bool :=
  rfWaitUntil 1 waitExecute initializeSensor_2

/-- `Paa5100je::initialize()`. -/
def initializeSensor : RF Bool :=
  rfBegin fun marker =>
    if marker = 0 then fun s => initializeSensor_1 (waitRestart 50 s)
    else if marker = 1 then initializeSensor_1
    else if marker = 2 then initializeSensor_2
    else if marker = 3 then initializeSensor_3
    else if marker = 4 then initializeSensor_4
    else if marker = 5 then initializeSensor_5
    else if marker = 6 then initializeSensor_6
    else rfWrongState

/-- `setLed` from the third write on. -/
def setLed_3 : RF Unit :=
  rfCall 3 (write regWriteProtect 0x00) (fun _ => rfReturn ())

/-- `setLed` from the second write on. -/
def setLed_2 (enable : Bool) : RF Unit :=
  rfCall 2 (write regLedEnable (if enable then 0x1c else 0)) (fun _ => setLed_3)

/-- `setLed` from the first write on. -/
def setLed_1 (enable : Bool) : RF Unit :=
  rfCall 1 (write regWriteProtect 0x14) (fun _ => setLed_2 enable)

/-- `Paa5100je::setLed(bool enable)`. -/
def setLed (enable : Bool) : RF Unit :=
  rfBegin fun marker =>
    if marker = 0 then setLed_1 enable
    else if marker = 1 then setLed_1 enable
    else if marker = 2 then setLed_2 enable
    else if marker = 3 then setLed_3
    else rfWrongState

/-- The body of `getProductId` and of `getRevision`: one read into `scratch`,
then `RF_END_RETURN(scratch[0])`. -/
def getByte_1 (reg : Nat) : RF Nat :=
  rfCall 1 (read reg 0 1) (fun _ s => rfReturn (s.dev.scratch 0) s)

/-- `Paa5100je::getProductId()`. -/
def getProductId : RF Nat :=
  rfBegin fun marker =>
    if marker = 0 then getByte_1 regProductID
    else if marker = 1 then getByte_1 regProductID
    else rfWrongState

/-- `Paa5100je::getRevision()`. -/
def getRevision : RF Nat :=
  rfBegin fun marker =>
    if marker = 0 then getByte_1 regRevisionID
    else if marker = 1 then getByte_1 regRevisionID
    else rfWrongState

/-- Conversion of `lo | hi << 8` to `int16_t`. -/
def toInt16 (lo hi : Nat) : Int :=
  if (lo ||| (hi <<< 8)) % 65536 < 32768 then ((lo ||| (hi <<< 8)) % 65536 : Nat)
  else ((lo ||| (hi <<< 8)) % 65536 : Nat) - 65536

/-- The value `getMotionData` returns:
`(scratch[0] & 0x80) != 0 && !(scratch[10] == 0x1F && scratch[6] < 0x19)`. -/
def motionValid (scratch : Nat → Nat) : Bool :=
  (scratch 0 &&& 0x80 != 0) && !(scratch 10 == 0x1F && decide (scratch 6 < 0x19))

/-- The result of `getMotionData`: the returned flag and what was stored to `out`. -/
structure Motion where
  valid : Bool
  x : Int
  y : Int
  deriving DecidableEq, Repr

/-- `getMotionData` from its read on. -/
def getMotionData_1 : RF Motion :=
  rfCall 1 (read regMotionBurst 0 12) (fun _ s =>
    rfReturn
      { valid := motionValid s.dev.scratch
        x := toInt16 (s.dev.scratch 2) (s.dev.scratch 3)
        y := toInt16 (s.dev.scratch 4) (s.dev.scratch 5) } s)

/-- `Paa5100je::getMotionData(Motion2D& out)`. -/
def getMotionData : RF Motion :=
  rfBegin fun marker =>
    if marker = 0 then getMotionData_1
    else if marker = 1 then getMotionData_1
    else rfWrongState

end Paa5100je

/-! ## `SoftwareGpioPort`: `software_gpio.hpp` -/

namespace SoftwareGpioPort

/-- `width`: 0 for `SoftwareGpioPort<>`, `1 + SoftwareGpioPort<Gpios...>::width`
otherwise. -/
def width {α : Type} : List α → Nat
  | [] => 0
  | _ :: ps => 1 + width ps

/-- Number of bits of `PortType`: `uint16_t` when `width > 8`, else `uint8_t`
(`SoftwareGpioPort<>` uses `uint8_t`). -/
def portBits (w : Nat) : Nat := if w > 8 then 16 else 8

/-- `SoftwareGpioPort<Gpio, Gpios...>::read()`; the list holds what `read()` of
each pin returns, first template argument first. -/
def read : List Bool → Nat
  | [] => 0
  | p :: ps =>
    if p then (read ps ||| (1 <<< (width (p :: ps) - 1))) % 2 ^ portBits (width (p :: ps))
    else read ps

/-- `SoftwareGpioPort<Gpio, Gpios...>::write(PortType data)`: the calls
`Gpio::set(value)` it makes, in order, as pairs of pin and value.  Passing `data`
on to the rest of the port converts it to the `PortType` of the rest. -/
def write {α : Type} : List α → Nat → List (α × Bool)
  | [], _ => []
  | p :: ps, data =>
    (p, decide (data &&& (1 <<< (width (p :: ps) - 1)) ≠ 0)) ::
      write ps (data % 2 ^ portBits (width ps))

end SoftwareGpioPort

end Modm

namespace Modm

/-! ## Structure of resumable calls: levels and markers touched -/

/-- A state transformer that leaves the engine's fields alone. -/
def PrimOK (p : St → St) : Prop :=
  ∀ s, (p s).dev.rfLevel = s.dev.rfLevel ∧ (p s).dev.levels = s.dev.levels ∧
    (p s).dev.ctx = s.dev.ctx ∧ (p s).dev.rfState = s.dev.rfState

/-- A resumable function that uses at most `d` nesting levels: it returns at the
level it was called at, writes only the markers of the `d` levels from there on,
and is not rejected when `d` levels are left. -/
def FuncOK {α : Type} (d : Nat) (f : RF α) : Prop :=
  ∀ s, (f s).2.dev.rfLevel = s.dev.rfLevel ∧ (f s).2.dev.levels = s.dev.levels ∧
    (f s).2.dev.ctx = s.dev.ctx ∧
    (∀ j, j < s.dev.rfLevel ∨ s.dev.rfLevel + d ≤ j → (f s).2.dev.rfState j = s.dev.rfState j) ∧
    (s.dev.rfLevel + d ≤ s.dev.levels → (f s).1 ≠ Res.nestingError)

/-- The same for the rest of a function body, which runs one level up and
leaves that level when it returns. -/
def FragOK {α : Type} (d : Nat) (g : RF α) : Prop :=
  ∀ s, 1 ≤ s.dev.rfLevel →
    (g s).2.dev.rfLevel = s.dev.rfLevel - 1 ∧ (g s).2.dev.levels = s.dev.levels ∧
    (g s).2.dev.ctx = s.dev.ctx ∧
    (∀ j, j + 1 < s.dev.rfLevel ∨ s.dev.rfLevel - 1 + d ≤ j →
      (g s).2.dev.rfState j = s.dev.rfState j) ∧
    (s.dev.rfLevel - 1 + d ≤ s.dev.levels → (g s).1 ≠ Res.nestingError)

end Modm

namespace Modm

/-! ## Step markers after completion -/

/-- All step markers of the levels `a ≤ j < b` are at not started. -/
def ZeroOn (a b : Nat) (s : St) : Prop := ∀ j, a ≤ j → j < b → s.dev.rfState j = 0

/-- A resumable function that, whenever it completes, leaves the markers of `z`
levels from its own on at not started, whatever state it was called in. -/
def ZeroFunc {α : Type} (z : Nat) (f : RF α) : Prop :=
  ∀ s v, (f s).1 = Res.done v → ZeroOn s.dev.rfLevel (s.dev.rfLevel + z) (f s).2

/-- The same for the rest of a function body (which runs one level up). -/
def ZeroFrag {α : Type} (z : Nat) (g : RF α) : Prop :=
  ∀ s, 1 ≤ s.dev.rfLevel → ∀ v, (g s).1 = Res.done v →
    ZeroOn (s.dev.rfLevel - 1) (s.dev.rfLevel - 1 + z) (g s).2

/-- The same for a rest that makes no further call: it needs the markers of the
inner levels to be at not started already. -/
def ZeroTail {α : Type} (z : Nat) (g : RF α) : Prop :=
  ∀ s, 1 ≤ s.dev.rfLevel → ZeroOn s.dev.rfLevel (s.dev.rfLevel - 1 + z) s →
    ∀ v, (g s).1 = Res.done v → ZeroOn (s.dev.rfLevel - 1) (s.dev.rfLevel - 1 + z) (g s).2

end Modm

namespace Modm

/-! ## Runs of an operation -/

/-- The instance an entry of the log belongs to. -/
def Event.ctx : Event → Nat
  | Event.acquired c => c
  | Event.released c => c
  | Event.chipSelect c _ => c
  | Event.transfer c _ _ _ _ => c

/-- No resumable call is active or suspended on the instance: the level is 0 and
every step marker is at not started. -/
def Quiescent (d : Dev) : Prop := d.rfLevel = 0 ∧ ∀ j, d.rfState j = 0

/-- The states in which an operation is polled when its caller starts it on a
quiescent instance and polls it again for as long as it reports not complete.
Between two polls the token and the input may change in any way, and other
instances may add entries of their own to the bus log. -/
inductive Polling {α : Type} (op : RF α) : St → Prop
  | start (s : St) : Quiescent s.dev → Polling op s
  | again (s s1 : St) (others : List Event) : Polling op s → (op s).1 = Res.running →
      s1.dev = (op s).2.dev → s1.bus.trace = (op s).2.bus.trace ++ others →
      (∀ e ∈ others, e.ctx ≠ s.dev.ctx) → Polling op s1

/-- The marker of level 3 under the rest of the sensor initialisation, which runs
at level 1 of the instance: if the marker is at not started and stays so unless
the call is suspended inside `writeMagic` (step 4). -/
def Level3 {α : Type} (g : RF α) : Prop :=
  ∀ s, s.dev.rfLevel = 1 → s.dev.rfState 3 = 0 →
    ((g s).1 = Res.running → (g s).2.dev.rfState 0 ≠ 4 → (g s).2.dev.rfState 3 = 0) ∧
    (∀ v, (g s).1 = Res.done v → (g s).2.dev.rfState 3 = 0)

/-- The same without the assumption on the marker of level 3. -/
def Level3Any {α : Type} (g : RF α) : Prop :=
  ∀ s, s.dev.rfLevel = 1 →
    ((g s).1 = Res.running → (g s).2.dev.rfState 0 ≠ 4 → (g s).2.dev.rfState 3 = 0) ∧
    (∀ v, (g s).1 = Res.done v → (g s).2.dev.rfState 3 = 0)

end Modm

namespace Modm

/-! ## The arbitration token after completion -/

/-- Whenever the function (or rest of a function body) completes, the token is free. -/
def Frees {α : Type} (f : RF α) : Prop :=
  ∀ s v, (f s).1 = Res.done v → (f s).2.bus.token = none

/-- If the token is free, it is free when the rest of the function body completes. -/
def KeepsFree {α : Type} (g : RF α) : Prop :=
  ∀ s, s.bus.token = none → ∀ v, (g s).1 = Res.done v → (g s).2.bus.token = none

end Modm

namespace Modm

/-! ## The critical section of a bus transaction -/

/-- A chip-select change or an SPI transfer of instance `c`. -/
def IsInner (c : Nat) : Event → Prop
  | Event.chipSelect c' _ => c' = c
  | Event.transfer c' _ _ _ _ => c' = c
  | _ => False

/-- A state transformer that logs only chip-select changes and transfers of the
instance and leaves the token alone. -/
def EmitsPrim (p : St → St) : Prop :=
  ∀ s, ∃ body, (∀ e ∈ body, IsInner s.dev.ctx e) ∧
    (p s).bus.trace = s.bus.trace ++ body ∧ (p s).bus.token = s.bus.token

/-- A resumable function (or rest of one) that, whatever its result, logs only
chip-select changes and transfers of the instance and leaves the token alone. -/
def Emits {α : Type} (f : RF α) : Prop :=
  ∀ s, ∃ body, (∀ e ∈ body, IsInner s.dev.ctx e) ∧
    (f s).2.bus.trace = s.bus.trace ++ body ∧ (f s).2.bus.token = s.bus.token

/-- The rest of a bus transaction from a step inside the critical section on: it
logs chip-select changes and transfers only; unless it completes it keeps the
token as it is and, when suspended, stays at a step inside the section (marker at
least 2); when it completes, the release is the last entry it logs, the token is
free and the marker is back at not started. -/
def InnerFrag (g : RF Unit) : Prop :=
  ∀ s, 1 ≤ s.dev.rfLevel → ∃ body, (∀ e ∈ body, IsInner s.dev.ctx e) ∧
    ((∀ v, (g s).1 ≠ Res.done v) →
      (g s).2.bus.trace = s.bus.trace ++ body ∧ (g s).2.bus.token = s.bus.token) ∧
    ((g s).1 = Res.running → 2 ≤ (g s).2.dev.rfState (s.dev.rfLevel - 1)) ∧
    (∀ v, (g s).1 = Res.done v →
      (g s).2.bus.trace = s.bus.trace ++ body ++ [Event.released s.dev.ctx] ∧
      (g s).2.bus.token = none ∧ (g s).2.dev.rfState (s.dev.rfLevel - 1) = 0)

/-- One poll of a bus transaction (`read`, `write`, `writeRaw`), with `m` the step
marker of the call before the poll (0 or 1: the token is not yet acquired; 2 or
more: inside the critical section).

A poll that does not report completion is one of:

* rejected for lack of a nesting level, with no effect at all;
* a poll that finds the token taken: it reports not complete, logs nothing and
  stays at step 1;
* a poll that acquires the token: it logs the acquisition and after it
  chip-select changes and transfers only, and holds the token afterwards;
* a poll inside the section: it logs chip-select changes and transfers only and
  leaves the token as it is;

and in the last two cases a poll that reports not complete leaves the call at a
step inside the section.  A poll that reports completion logs the same and then,
as its last entry, the release; it leaves the token free and the marker at not
started. -/
def Transaction (op : RF Unit) : Prop :=
  ∀ s, ∃ body, (∀ e ∈ body, IsInner s.dev.ctx e) ∧
    ((∀ v, (op s).1 ≠ Res.done v) →
      (s.dev.levels ≤ s.dev.rfLevel ∧ (op s).2 = s) ∨
      (s.dev.rfState s.dev.rfLevel ≤ 1 ∧ s.bus.token ≠ none ∧ (op s).1 = Res.running ∧
        (op s).2.bus.trace = s.bus.trace ∧ (op s).2.bus.token = s.bus.token ∧
        (op s).2.dev.rfState s.dev.rfLevel = 1) ∨
      (s.dev.rfState s.dev.rfLevel ≤ 1 ∧ s.bus.token = none ∧
        (op s).2.bus.trace = s.bus.trace ++ Event.acquired s.dev.ctx :: body ∧
        (op s).2.bus.token = some s.dev.ctx ∧
        ((op s).1 = Res.running → 2 ≤ (op s).2.dev.rfState s.dev.rfLevel)) ∨
      (2 ≤ s.dev.rfState s.dev.rfLevel ∧
        (op s).2.bus.trace = s.bus.trace ++ body ∧ (op s).2.bus.token = s.bus.token ∧
        ((op s).1 = Res.running → 2 ≤ (op s).2.dev.rfState s.dev.rfLevel))) ∧
    (∀ v, (op s).1 = Res.done v →
      ((s.dev.rfState s.dev.rfLevel ≤ 1 ∧ s.bus.token = none ∧
        (op s).2.bus.trace =
          s.bus.trace ++ Event.acquired s.dev.ctx :: body ++ [Event.released s.dev.ctx]) ∨
       (2 ≤ s.dev.rfState s.dev.rfLevel ∧
        (op s).2.bus.trace = s.bus.trace ++ body ++ [Event.released s.dev.ctx])) ∧
      (op s).2.bus.token = none ∧ (op s).2.dev.rfState s.dev.rfLevel = 0)

end Modm

namespace Modm

/-! ## Two driver instances on one SPI master -/

/-- Two driver instances `a` and `b` that share one bus. -/
structure Pair where
  a : Dev
  b : Dev
  bus : Bus

/-- One poll of an operation of instance `a`. -/
def Pair.pollA {α : Type} (op : RF α) (p : Pair) : Res α × Pair :=
  ((op { dev := p.a, bus := p.bus }).1,
   { p with a := (op { dev := p.a, bus := p.bus }).2.dev
            bus := (op { dev := p.a, bus := p.bus }).2.bus })

/-- One poll of an operation of instance `b`. -/
def Pair.pollB {α : Type} (op : RF α) (p : Pair) : Res α × Pair :=
  ((op { dev := p.b, bus := p.bus }).1,
   { p with b := (op { dev := p.b, bus := p.bus }).2.dev
            bus := (op { dev := p.b, bus := p.bus }).2.bus })

/-- A register access a caller polls: `read(reg, &scratch[dst], len)` or
`write(reg, val)`. -/
inductive Request where
  | read (reg dst len : Nat)
  | write (reg val : Nat)
  deriving DecidableEq, Repr

/-- The resumable function of a request. -/
def Request.op : Request → RF Unit
  | Request.read reg dst len => Paa5100je.read reg dst len
  | Request.write reg val => Paa5100je.write reg val

/-- An interleaving of polls: each entry says which instance is polled (`true`
for `a`) and with which request. -/
def Pair.run : List (Bool × Request) → Pair → Pair
  | [], p => p
  | (true, r) :: rest, p => Pair.run rest (p.pollA r.op).2
  | (false, r) :: rest, p => Pair.run rest (p.pollB r.op).2

/-- An instance polled at level 0 is between its successful `acquireMaster()` and
its `releaseMaster()`: its `read` or `write` is at step 2 or later. -/
def InSection (d : Dev) : Prop := 2 ≤ d.rfState 0

/-- The instances are distinct, idle between polls, and one that is inside its
critical section holds the token. -/
def Exclusive (p : Pair) : Prop :=
  p.a.ctx ≠ p.b.ctx ∧ p.a.rfLevel = 0 ∧ p.b.rfLevel = 0 ∧
  (InSection p.a → p.bus.token = some p.a.ctx) ∧
  (InSection p.b → p.bus.token = some p.b.ctx)

end Modm

namespace Modm

/-! ## Results and progress -/

/-- Whenever the function (or rest of a function body) completes with a value
`v`, the value and the state satisfy `post`. -/
def Ensures {α : Type} (post : α → St → Prop) (f : RF α) : Prop :=
  ∀ s v, (f s).1 = Res.done v → post v (f s).2

/-- A rest of a function body that, when it reports not complete, has recorded a
step `k` or later at its level. -/
def StepAtLeast {α : Type} (k : Nat) (g : RF α) : Prop :=
  ∀ s, 1 ≤ s.dev.rfLevel → (g s).1 = Res.running → k ≤ (g s).2.dev.rfState (s.dev.rfLevel - 1)

/-- The state after `n` successive polls of an operation. -/
def pollN {α : Type} (op : RF α) : Nat → St → St
  | 0, s => s
  | n + 1, s => pollN op n (op s).2

/-- The state in which a call at level 0 continues after the wait on `wait` at
step `k` has fallen through: inside the call, with the clock read and the
timeout consumed. -/
def afterWait (k : Nat) (s : St) : St :=
  (waitExecute (setRf k { s with dev := { s.dev with rfLevel := s.dev.rfLevel + 1 } })).2

end Modm

namespace Modm

/-! ## Concrete states -/

/-- A driver instance after its constructor: no call active, chip select high,
`cs_timeout{1us}` armed, `wait` stopped. -/
def bootDev (ctx levels : Nat) : Dev :=
  { ctx := ctx
    levels := levels
    rfLevel := 0
    rfState := fun _ => 0
    scratch := fun _ => 0
    wait := { armed := false, target := 0 }
    cs_timeout := { armed := true, target := 1 }
    cs := true }

/-- A freshly constructed `Paa5100je` (`NestedResumable<4>`) on a free bus with
an empty log. -/
def bootState (input : List Nat) : St :=
  { dev := bootDev 1 4, bus := { token := none, input := input, trace := [] } }

/-- An input of length `n` under which nothing suspends: every clock reading is
later than any deadline set from the reading before it, every transfer has
finished when it is first polled, and the value at position `k` is the byte
`bytes k` when it is read as received data. -/
def promptInput (n : Nat) (bytes : Nat → Nat) : List Nat :=
  (List.range n).map fun k => 256000 * (k + 1) + bytes k % 256

/-- An input under which a register read completes in one poll and receives the
bytes `b`: both transfers have finished when they are polled, then come the
received bytes and the four clock readings of `setChipSelect(true)`. -/
def responseInput (b : List Nat) : List Nat := 1 :: 1 :: (b ++ [0, 1, 1, 2])

/-- An input for one complete sensor initialisation in a single poll; positions
506 and 513 are the bytes received from ProductID and InverseProductID. -/
def sensorInput (pid inv : Nat) : List Nat :=
  promptInput 518 fun k => if k = 506 then pid else if k = 513 then inv else 1

end Modm

namespace Modm

/-- Two freshly constructed instances on a free bus. -/
def bootPair (input : List Nat) : Pair :=
  { a := bootDev 1 4, b := bootDev 2 4, bus := { token := none, input := input, trace := [] } }

/-- A state of the sensor initialisation waiting at step 1 for a deadline of 50. -/
def waitingState (input : List Nat) : St :=
  { dev := { bootDev 1 4 with
      rfState := fun l => if l = 0 then 1 else 0
      wait := { armed := true, target := 50 } },
    bus := { token := none, input := input, trace := [] } }

end Modm

namespace Modm

/-! ## Register reads in the bus log -/

/-- One entry of the log, seen as the sensor sees the bus of instance `c`: a
finished transfer that only transmits makes its first byte the pending address; a
finished transfer that receives completes a register read of the pending address
with the received bytes.  Everything else changes nothing.  The view is the
pending address and the completed reads, most recent first. -/
def viewStep (c : Nat) (v : Option Nat × List (Nat × List Nat)) (e : Event) :
    Option Nat × List (Nat × List Nat) :=
  match e with
  | Event.transfer c' tx rxLen rx true =>
    if c' = c then
      if rxLen = 0 then (tx.head?, v.2)
      else (none, match v.1 with
        | some a => (a, rx) :: v.2
        | none => v.2)
    else v
  | _ => v

/-- The view of a whole log. -/
def busView (c : Nat) (trace : List Event) : Option Nat × List (Nat × List Nat) :=
  trace.foldl (viewStep c) (none, [])

/-- The register reads instance `c` has completed according to the log, most
recent first, each with the address byte sent and the bytes received. -/
def readsOf (c : Nat) (trace : List Event) : List (Nat × List Nat) := (busView c trace).2

/-- The bytes `scratch[dst .. dst + len - 1]`. -/
def scratchBytes (s : St) (dst len : Nat) : List Nat :=
  (List.range len).map (fun i => s.dev.scratch (dst + i))

/-- A function (or rest of one) that completes no register read and leaves
`scratch` alone, whatever its result. -/
def Quiet {α : Type} (f : RF α) : Prop :=
  ∀ c s, busView c (f s).2.bus.trace = busView c s.bus.trace ∧
    (f s).2.dev.scratch = s.dev.scratch

/-- The same for a state transformer. -/
def QuietPrim (p : St → St) : Prop :=
  ∀ c s, busView c (p s).bus.trace = busView c s.bus.trace ∧ (p s).dev.scratch = s.dev.scratch

/-- Where a `read(reg, &scratch[dst], len)` of instance `c`, whose step marker is
that of level `lvl`, stands with respect to the log, `base` being the reads
completed before it: up to step 4 it has completed no read, at step 4 the address
is pending, at step 5 it has completed the read of `reg` and `scratch` holds the
bytes received, each below 256. -/
def ReadAt (c lvl reg dst len : Nat) (base : List (Nat × List Nat)) (s : St) : Prop :=
  (s.dev.rfState lvl ≤ 4 → readsOf c s.bus.trace = base) ∧
  (s.dev.rfState lvl = 4 → (busView c s.bus.trace).1 = some reg) ∧
  (s.dev.rfState lvl = 5 → readsOf c s.bus.trace = (reg, scratchBytes s dst len) :: base ∧
    ∀ x ∈ scratchBytes s dst len, x < 256)

/-- The `read` has completed: the most recent read in the log is that of `reg`, and
`scratch` holds the bytes received. -/
def ReadDone (c reg dst len : Nat) (base : List (Nat × List Nat)) (s : St) : Prop :=
  readsOf c s.bus.trace = (reg, scratchBytes s dst len) :: base ∧
  ∀ x ∈ scratchBytes s dst len, x < 256

end Modm

namespace Modm

/-- What one poll of (the rest of) a `read` that started in state `s0` guarantees
about its result `r` and final state `s1`. -/
def ReadStep (c lvl reg dst len : Nat) (base : List (Nat × List Nat)) (s0 : St)
    (r : Res Unit) (s1 : St) : Prop :=
  (r = Res.running → ReadAt c lvl reg dst len base s1) ∧
  (∀ v, r = Res.done v → ReadDone c reg dst len base s1) ∧
  (∀ j, j < dst ∨ dst + len ≤ j → s1.dev.scratch j = s0.dev.scratch j)

end Modm

namespace Modm

/-- Where a suspended sensor initialisation of instance `c` stands with respect to
the log when it is at one of its two identity reads: at step 5 the read of
ProductID is under way, at step 6 the read of ProductID is the most recent
completed read, `scratch[0]` holds the byte it received, and the read of
InverseProductID is under way. -/
def InitAt (c : Nat) (s : St) : Prop :=
  (s.dev.rfState 0 = 5 → ∃ base, ReadAt c 1 Paa5100je.regProductID 0 1 base s) ∧
  (s.dev.rfState 0 = 6 → ∃ base,
    ReadAt c 1 Paa5100je.regInverseProductID 1 1 ((Paa5100je.regProductID, [s.dev.scratch 0]) :: base) s ∧
    s.dev.scratch 0 < 256)

/-- The two identity reads are the two most recent completed reads of instance `c`
in the log, and `scratch[0]`, `scratch[1]` hold the bytes they received. -/
def InitDone (c : Nat) (s : St) : Prop :=
  ∃ base, readsOf c s.bus.trace =
      (Paa5100je.regInverseProductID, [s.dev.scratch 1]) :: (Paa5100je.regProductID, [s.dev.scratch 0]) :: base ∧
    s.dev.scratch 0 < 256 ∧ s.dev.scratch 1 < 256

/-- What one poll of (the rest of) the sensor initialisation guarantees about its
result `r` and final state `s1`. -/
def InitStep (c : Nat) (r : Res Bool) (s1 : St) : Prop :=
  (r = Res.running → InitAt c s1) ∧ (∀ v, r = Res.done v → InitDone c s1)

/-- The state `s` with the input queue replaced: the environment has decided what
comes next. -/
def resumeWith (s : St) (input : List Nat) : St :=
  { s with bus := { s.bus with input := input } }

/-- An input for the sensor initialisation up to its identity reads, under which
nothing suspends; when it is used up, the address transfer of the read of
ProductID has not finished. -/
def warmupInput : List Nat := promptInput 504 fun _ => 1

/-- What the environment decides for the two identity reads: each transfer has
finished when it is polled, the sensor answers `a` for ProductID and `b` for
InverseProductID, and the clock readings pass the deadlines of
`setChipSelect(true)`. -/
def identityInput (a b : Nat) : List Nat :=
  [1, 1, a, 129100000, 129100001, 129100002, 129100003,
   1, 1, b, 129100004, 129100005, 129100006, 129100007]

/-- The state in which a freshly constructed driver is polled the second time when
its first poll of the sensor initialisation has used up `warmupInput`, and the
identity reads are then answered with `a` and `b`. -/
def identityState (a b : Nat) : St :=
  resumeWith (Paa5100je.initializeSensor (bootState warmupInput)).2 (identityInput a b)

end Modm

namespace Modm

/-! ## `GpioUnused` and `GpioInverted`: `software_gpio.hpp` -/

/-- The static member functions of a GPIO pin class, as functions on the state `σ`
of the hardware: `setOutput()`, `setOutput(bool)`, `setInput()`, `set()`,
`set(bool)`, `reset()`, `toggle()` and `read()`.  The pin class is the template
parameter of `GpioInverted`. -/
structure GpioPin (σ : Type) where
  setOutput : σ → σ
  setOutputTo : Bool → σ → σ
  setInput : σ → σ
  set : σ → σ
  setTo : Bool → σ → σ
  reset : σ → σ
  toggle : σ → σ
  read : σ → Bool

/-- `GpioUnused`: every function does nothing, `read()` returns `false`. -/
def GpioUnused (σ : Type) : GpioPin σ :=
  { setOutput := fun s => s
    setOutputTo := fun _ s => s
    setInput := fun s => s
    set := fun s => s
    setTo := fun _ s => s
    reset := fun s => s
    toggle := fun s => s
    read := fun _ => false }

/-- `GpioInverted<Pin>`, a class derived from `Pin`: it redefines `setOutput()`,
`setOutput(bool)`, `set()`, `set(bool)`, `reset()` and `read()`; `setInput()` and
`toggle()` are those it inherits from `Pin`. -/
def GpioInverted {σ : Type} (Pin : GpioPin σ) : GpioPin σ :=
  { setOutput := fun s => Pin.setOutput s
    setOutputTo := fun value s => Pin.setOutputTo (!value) s
    setInput := Pin.setInput
    set := fun s => Pin.reset s
    setTo := fun value s => Pin.setTo (!value) s
    reset := fun s => Pin.set s
    toggle := Pin.toggle
    read := fun s => !Pin.read s }

/-- A pin as a test double: the state is its direction (`true` for output) and
its level, `read()` returns the level. -/
def latchPin : GpioPin (Bool × Bool) :=
  { setOutput := fun s => (true, s.2)
    setOutputTo := fun value _ => (true, value)
    setInput := fun s => (false, s.2)
    set := fun s => (s.1, true)
    setTo := fun value s => (s.1, value)
    reset := fun s => (s.1, false)
    toggle := fun s => (s.1, !s.2)
    read := fun s => s.2 }

end Modm

namespace Modm

/-! ## `SocketCan`: `socketcan.cpp` -/

namespace SocketCan

/-- `CAN_EFF_FLAG` of `<linux/can.h>`. -/
def CAN_EFF_FLAG : Nat := 0x80000000
/-- `CAN_RTR_FLAG` of `<linux/can.h>`. -/
def CAN_RTR_FLAG : Nat := 0x40000000
/-- `CAN_ERR_MASK` of `<linux/can.h>`. -/
def CAN_ERR_MASK : Nat := 0x1FFFFFFF
/-- `CANFD_BRS` of `<linux/can.h>`. -/
def CANFD_BRS : Nat := 0x01
/-- `sizeof(struct can_frame)`. -/
def sizeofCanFrame : Nat := 16
/-- `sizeof(struct canfd_frame)`. -/
def sizeofCanfdFrame : Nat := 72

/-- `struct canfd_frame` of `<linux/can.h>`: `can_id` (32 bits), `len` and `flags`
(8 bits each) and `data[64]`. -/
structure Frame where
  can_id : Nat
  len : Nat
  flags : Nat
  data : List Nat
  deriving DecidableEq, Repr

/-- The member `flags` of `can::Message`. -/
structure Flags where
  fd : Bool
  brs : Bool
  rtr : Bool
  extended : Bool
  deriving DecidableEq, Repr

/-- Modelled from the spec: `modm::can::Message` is not among the sources and the
spec does not describe it; its members are taken from their use in
`socketcan.cpp`: `identifier`, `flags`, `data`, and a length that `setLength`
stores and `getLength` returns.  `isFlexibleData()`, `isBitRateSwitching()`,
`isExtended()` and `isRemoteTransmitRequest()` read the flags that
`setFlexibleData`, `flags.brs`, `setExtended` and `setRemoteTransmitRequest`
write. -/
structure Message where
  identifier : Nat
  length : Nat
  flags : Flags
  data : List Nat
  deriving DecidableEq, Repr

/-- The socket as the driver sees it: what the next calls of `recv` will return
(the byte count and the frame stored through the pointer), what the next calls of
`write` will return, and the frames written so far, each with the size passed. -/
structure Socket where
  incoming : List (Int × Frame)
  writeResults : List Int
  written : List (Frame × Nat)
  deriving DecidableEq, Repr

/-- `recv(skt, &frame, sizeof(frame), MSG_DONTWAIT)`: the byte count (`-1` when
nothing is queued) and the frame; `frame` is what the local variable held before. -/
def recv (frame : Frame) (skt : Socket) : (Int × Frame) × Socket :=
  match skt.incoming with
  | [] => ((-1, frame), skt)
  | r :: rest => (r, { skt with incoming := rest })

/-- `write(skt, &frame, size)`: the frame is handed to the socket, the result is
what the system returns (`-1` when the model has no result queued). -/
def write (frame : Frame) (size : Nat) (skt : Socket) : Int × Socket :=
  (skt.writeResults.headD (-1),
   { skt with writeResults := skt.writeResults.tail, written := skt.written ++ [(frame, size)] })

/-- The loop `for (ii = 0; ii < n; ++ii) dst[ii] = src[ii];` on arrays, `dst`
keeping its size. -/
def copyBytes (n : Nat) (src dst : List Nat) : List Nat :=
  (List.range dst.length).map fun i => if i < n then src.getD i 0 else dst.getD i 0

/-- `SocketCan::getMessage(can::Message& message)`; `capacity` is
`can::Message::capacity`, `frame` the content of the uninitialised local. -/
def getMessage (capacity : Nat) (frame : Frame) (message : Message) (skt : Socket) :
    Bool × Message × Socket :=
  let r := recv frame skt
  let nbytes := r.1.1
  let frame := r.1.2
  if nbytes > 0 then
    if frame.len > capacity then (false, message, r.2)
    else
      let flags : Flags :=
        { fd := false, brs := false, rtr := false,
          extended := decide (frame.can_id &&& CAN_EFF_FLAG ≠ 0) }
      let flags : Flags :=
        if nbytes = (sizeofCanfdFrame : Int) then
          { flags with fd := true, brs := decide (frame.flags &&& CANFD_BRS ≠ 0) }
        else flags
      let flags : Flags := { flags with rtr := decide (frame.can_id &&& CAN_RTR_FLAG ≠ 0) }
      (true,
       { identifier := frame.can_id &&& CAN_ERR_MASK
         length := frame.len
         flags := flags
         data := copyBytes frame.len frame.data message.data },
       r.2)
  else (false, message, r.2)

/-- `SocketCan::sendMessage(const can::Message& message)`; `frame` is the content
of the uninitialised local, of which `can_id`, `len`, `flags` and the first
`getLength()` bytes of `data` are assigned. -/
def sendMessage (frame : Frame) (message : Message) (skt : Socket) : Bool × Socket :=
  if !message.flags.fd && decide (message.length > 8) then (false, skt)
  else
    let flags := if message.flags.brs then 0 ||| CANFD_BRS else 0
    let can_id := message.identifier % 2 ^ 32
    let can_id := if message.flags.extended then can_id ||| CAN_EFF_FLAG else can_id
    let can_id := if message.flags.rtr then can_id ||| CAN_RTR_FLAG else can_id
    let out : Frame :=
      { can_id := can_id
        len := message.length
        flags := flags
        data := copyBytes message.length message.data frame.data }
    let size := if message.flags.fd then sizeofCanfdFrame else sizeofCanFrame
    let r := write out size skt
    (decide (r.1 > 0), r.2)

end SocketCan

end Modm

namespace Modm

/-! ## The fiber scheduler (section 4.4 of the specification)

`modm::Fiber`, `modm::fiber::Scheduler` and `modm::this_fiber::sleep_for` are used
by `examples/stm32f4_discovery/temperature_ltc2984/main.cpp` but are not part of
the sources at hand. -/

namespace Scheduler

/-- Modelled from the spec: the scheduling state of a fiber, section 4.4:
Ready, Sleeping(until: deadline), Finished.  `modm::Fiber` is missing from the
sources. -/
inductive FiberState where
  | ready
  | sleeping (deadline : Nat)
  | finished
  deriving DecidableEq, Repr

/-- Modelled from the spec: how the turn of a fiber ends, section 4.4: the body
reaches a suspension point of its own (it stays Ready), requests a timed
suspension (`modm::this_fiber::sleep_for`, missing from the sources), or its entry
closure returns. -/
inductive TurnEnd where
  | yields
  | sleepsFor (duration : Nat)
  | returns
  deriving DecidableEq, Repr

/-- What the environment decides for one visit the scheduler pays a fiber: the
clock reading at the visit and, should the fiber be handed control, the clock
reading when its turn ends and how it ends.  Times are in milliseconds. -/
structure Visit where
  now : Nat
  stop : Nat
  ending : TurnEnd
  deriving DecidableEq, Repr

/-- Modelled from the spec: Sleeping to Ready "when its deadline has elapsed and
the scheduler revisits it", section 4.4. -/
def wake (now : Nat) : FiberState → FiberState
  | FiberState.sleeping d => if d ≤ now then FiberState.ready else FiberState.sleeping d
  | st => st

/-- Modelled from the spec: the state a turn leaves the fiber in, section 4.4:
running to Sleeping with the deadline now + duration (section 4.5) when the body
requests a timed suspension, running to Finished when the closure returns. -/
def afterTurn (v : Visit) : FiberState :=
  match v.ending with
  | TurnEnd.yields => FiberState.ready
  | TurnEnd.sleepsFor d => FiberState.sleeping (v.stop + d)
  | TurnEnd.returns => FiberState.finished

/-- Modelled from the spec: the scheduler of section 4.4 (`modm::fiber::Scheduler`
is missing from the sources): the roster of fibers, the position of its scan, and
two logs, the visits of the scan and the turns it handed out, each entry a fiber
(its position in the roster) and the clock reading. -/
structure Sched where
  roster : List FiberState
  next : Nat
  visits : List (Nat × Nat)
  turns : List (Nat × Nat)
  deriving DecidableEq, Repr

/-- The position the scan moves to: round-robin over the roster. -/
def Sched.advance (sch : Sched) : Nat :=
  if sch.next + 1 < sch.roster.length then sch.next + 1 else 0

/-- Modelled from the spec: one step of the run-loop, section 4.4: "for each fiber
not Finished and not (Sleeping with unexpired deadline), hand it control until it
voluntarily yields and capture the updated state". -/
def Sched.visit (sch : Sched) (v : Visit) : Sched :=
  match wake v.now (sch.roster.getD sch.next FiberState.finished) with
  | FiberState.ready =>
    { roster := sch.roster.set sch.next (afterTurn v)
      next := sch.advance
      visits := sch.visits ++ [(sch.next, v.now)]
      turns := sch.turns ++ [(sch.next, v.now)] }
  | st =>
    { roster := sch.roster.set sch.next st
      next := sch.advance
      visits := sch.visits ++ [(sch.next, v.now)]
      turns := sch.turns }

/-- The run-loop over the visits the environment scripts. -/
def Sched.run (sch : Sched) (vs : List Visit) : Sched := vs.foldl Sched.visit sch

/-- `fiber_blink` of the LTC2984 example: every turn toggles the LED and ends with
`sleep_for(0.5s)`. -/
def fiber_blink : TurnEnd := TurnEnd.sleepsFor 500

/-- `fiber_sensor` of the LTC2984 example in its measuring loop: every turn takes a
measurement and ends with `sleep_for(1s)`. -/
def fiber_sensor : TurnEnd := TurnEnd.sleepsFor 1000

/-- The roster of the LTC2984 example at a time `t0` at which both fibers have just
gone to sleep: `fiber_sensor` (constructed first) for 1 s, `fiber_blink` for 0.5 s. -/
def exampleRoster (t0 : Nat) : Sched :=
  { roster := [FiberState.sleeping (t0 + 1000), FiberState.sleeping (t0 + 500)]
    next := 0
    visits := []
    turns := [] }

/-- What holds of a fiber `a` asleep until `dA` and a fiber `b` asleep until `dB`
while the clock readings of the visits are before `dB`. -/
def SleepInv (a b dA dB : Nat) (r : Sched) : Prop :=
  r.roster[b]? = some (FiberState.sleeping dB) ∧ (∀ t, (b, t) ∉ r.turns) ∧
  ((r.roster[a]? = some (FiberState.sleeping dA) ∧ (∀ t, (a, t) ∉ r.turns) ∧
      (∀ t, (a, t) ∈ r.visits → t < dA)) ∨
   ((∃ t, (a, t) ∈ r.turns ∧ dA ≤ t ∧ t < dB) ∧ (∃ t, (a, t) ∈ r.visits ∧ dA ≤ t)))

end Scheduler

end Modm
namespace Modm

/-! ## Calls that keep their frame

The definitions of `read`, `write` and `writeRaw` above leave open what a resumed
invocation finds in its locals: `reg` is whatever the caller passes, the loop
counter of `writeRaw` whatever the input supplies.  The sources, however, call the
resumable functions of the driver as blocking calls
(`RF_CALL_BLOCKING(sensor.initialize())` in `examples/rp_pico/paa5100je/main.cpp`),
and `writeRaw` suspends inside a `for` loop whose counter is declared in the loop
header, which a jump to a step inside the loop could not cross.  Under such an
engine a suspended invocation keeps its frame, and the invocation that resumes it
goes on with the locals as they were left.  The definitions of this section make
the frame explicit: one invocation takes the locals of the suspended call and
returns the locals it leaves behind.  Step markers, nesting levels and the inner
operations are those of the definitions above. -/

/-- A resumable function polled with the frame of its suspended invocation: one
invocation maps the locals `φ` and a state to a result, the locals and a state. -/
abbrev RFK (φ α : Type) := φ → St → (Res α × φ) × St

/-- A rest of a function body that no longer changes the locals. -/
def liftK {α φ : Type} (g : RF α) : RFK φ α := fun loc s => (((g s).1, loc), (g s).2)

/-- Modelled from the spec: `RF_BEGIN`, see `rfBegin`. -/
def rfBeginK {α φ : Type} (body : Nat → RFK φ α) : RFK φ α := fun loc s =>
  if s.dev.rfLevel < s.dev.levels then
    body (s.dev.rfState s.dev.rfLevel) loc
      { s with dev := { s.dev with rfLevel := s.dev.rfLevel + 1 } }
  else ((Res.nestingError, loc), s)

/-- Modelled from the spec: `RF_WAIT_UNTIL(cond)` as step `k`, see `rfWaitUntil`. -/
def rfWaitUntilK {α φ : Type} (k : Nat) (cond : St → Bool × St) (rest : RFK φ α) : RFK φ α :=
  fun loc s =>
    let r := cond (setRf k s)
    if r.1 then rest loc r.2 else ((Res.running, loc), popRf r.2)

namespace Paa5100je

/-- The end of the loop body of `writeRaw`: what follows (`i += 2`, the loop test)
is left to the loop. -/
def bodyEnd : RF Unit := fun s => (Res.done (), s)

/-- The loop of `writeRaw<Val, Len>` entered at step `label`, with its frame, the
counter `i`: when an inner call suspends, the counter stays in the frame; when the
body has run, `i += 2` (a `uint16_t`) and `i < Len` decide between another round
and the end.  The first argument bounds the number of rounds of one invocation. -/
def writeRawK_loop (Val : List Nat) : Nat → Nat → RFK Nat Unit
  | 0, _ => liftK writeRaw_finish
  | fuel + 1, label => fun i s =>
    match (writeRaw_body Val label i bodyEnd s).1 with
    | Res.done _ =>
      if (i + 2) % 65536 < Val.length then
        writeRawK_loop Val fuel 2 ((i + 2) % 65536) (writeRaw_body Val label i bodyEnd s).2
      else liftK writeRaw_finish ((i + 2) % 65536) (writeRaw_body Val label i bodyEnd s).2
    | Res.running => ((Res.running, i), (writeRaw_body Val label i bodyEnd s).2)
    | Res.nestingError => ((Res.nestingError, i), (writeRaw_body Val label i bodyEnd s).2)
    | Res.wrongState => ((Res.wrongState, i), (writeRaw_body Val label i bodyEnd s).2)

/-- `writeRaw` from `RF_WAIT_UNTIL(this->acquireMaster())` on: `i = 0`, then the
loop test. -/
def writeRawK_acquire (Val : List Nat) : RFK Nat Unit :=
  rfWaitUntilK 1 acquireMaster (fun _ s =>
    if 0 < Val.length then writeRawK_loop Val (Val.length + 1) 2 0 s
    else liftK writeRaw_finish 0 s)

/-- `Paa5100je::writeRaw<Val, Len>()` with its frame, the loop counter `i`: an
invocation that resumes the call at step 2, 3 or 4 is inside the loop body, with
the counter as it was left. -/
def writeRawK (Val : List Nat) : RFK Nat Unit :=
  rfBeginK fun marker =>
    if marker = 0 then writeRawK_acquire Val
    else if marker = 1 then writeRawK_acquire Val
    else if marker = 2 ∨ marker = 3 ∨ marker = 4 then writeRawK_loop Val (Val.length + 1) marker
    else liftK rfWrongState

end Paa5100je

/-- The entries of `n` invocations of a transfer that did not finish it. -/
def polls (c : Nat) (tx : List Nat) (rxLen n : Nat) : List Event :=
  List.replicate n (Event.transfer c tx rxLen [] false)

/-- The entries of one transfer: `n` invocations that did not finish it, then the
invocation that did and received `rx`.  Every invocation presents `tx`. -/
def xfer (c : Nat) (tx : List Nat) (rxLen : Nat) (rx : List Nat) (n : Nat) : List Event :=
  polls c tx rxLen n ++ [Event.transfer c tx rxLen rx true]

/-- The entries of one register transaction of instance `c`: acquisition, chip
select low, the transfer of the address byte `addr` (finished by invocation
`n1 + 1`), the second transfer (finished by invocation `n2 + 1`), chip select
high, release. -/
def txnScript (c addr : Nat) (tx : List Nat) (rxLen : Nat) (rx : List Nat) (n1 n2 : Nat) :
    List Event :=
  [Event.acquired c, Event.chipSelect c false] ++ xfer c [addr] 0 [] n1 ++
    xfer c tx rxLen rx n2 ++ [Event.chipSelect c true, Event.released c]

end Modm
namespace Modm

/-! ## Where a call stands with respect to the log of its instance -/

end Modm

namespace Modm

namespace Paa5100je

end Paa5100je

end Modm

namespace Modm

end Modm

namespace Modm

/-- The entries of one `read(reg, data, len)` of instance `c` that received `rx`:
every invocation of the address transfer presents `reg & 0x7F`. -/
def readScript (c reg len : Nat) (rx : List Nat) (n1 n2 : Nat) : List Event :=
  txnScript c (reg &&& 0x7F) [] len rx n1 n2

end Modm
namespace Modm

namespace Scheduler

/-- The clock reading at step `k` of the scripted scan (0 beyond the script). -/
def clockAt (vs : List Visit) (k : Nat) : Nat := (vs.map Visit.now).getD k 0

/-- A scan whose clock does not run backwards and in which any `n` successive
steps, the turns handed out in them included, take less than `gap`: from the
visit at step `j` to the visit at step `k`, at most `n` steps later, less than
`gap` passes. -/
def Paced (n gap : Nat) (vs : List Visit) : Prop :=
  ∀ k, k < vs.length → ∀ j, j ≤ k →
    clockAt vs j ≤ clockAt vs k ∧ (k ≤ j + n → clockAt vs k < clockAt vs j + gap)

end Scheduler

end Modm
namespace Modm

end Modm

namespace Modm

/-! ## The engine's fields under the primitive operations -/

theorem primOK_log (e : St → Event) : PrimOK (fun s => s.log (e s)) := by
  intro s; simp [St.log]

theorem primOK_waitRestart (d : Nat) : PrimOK (waitRestart d) := by
  intro s; simp [waitRestart, St.advance]

theorem primOK_waitExecute : PrimOK (fun s => (waitExecute s).2) := by
  intro s; simp [waitExecute, St.advance]

theorem primOK_csRestart (d : Nat) : PrimOK (csRestart d) := by
  intro s; simp [csRestart, St.advance]

theorem primOK_csExecute : PrimOK (fun s => (csExecute s).2) := by
  intro s; simp [csExecute, St.advance]

theorem primOK_csSetOutput (v : Bool) : PrimOK (csSetOutput v) := by
  intro s; simp [csSetOutput, St.log]

theorem primOK_acquireMaster : PrimOK (fun s => (acquireMaster s).2) := by
  intro s; simp only [acquireMaster]; split <;> simp [St.log]

theorem primOK_releaseMaster : PrimOK releaseMaster := by
  intro s; simp [releaseMaster, St.log]

theorem primOK_setScratch (i : Nat) (v : St → Nat) : PrimOK (fun s => Paa5100je.setScratch i (v s) s) := by
  intro s; simp [Paa5100je.setScratch]

theorem primOK_advance : PrimOK St.advance := by
  intro s; simp [St.advance]

theorem primOK_comp {p q : St → St} (hp : PrimOK p) (hq : PrimOK q) : PrimOK (fun s => q (p s)) := by
  intro s
  obtain ⟨a1, a2, a3, a4⟩ := hp s
  obtain ⟨b1, b2, b3, b4⟩ := hq (p s)
  exact ⟨b1.trans a1, b2.trans a2, b3.trans a3, b4.trans a4⟩

theorem funcOK_spiTransfer (tx : List Nat) (dst n : Nat) : FuncOK 0 (spiTransfer tx dst n) := by
  intro s
  unfold spiTransfer
  split <;> simp [St.log, St.advance, St.advanceBy]

theorem funcOK_mono {α : Type} {d e : Nat} {f : RF α} (h : FuncOK d f) (hde : d ≤ e) : FuncOK e f := by
  intro s
  obtain ⟨a1, a2, a3, a4, a5⟩ := h s
  exact ⟨a1, a2, a3, fun j hj => a4 j (by omega), fun hl => a5 (by omega)⟩

theorem fragOK_ret {α : Type} (d : Nat) (hd : 1 ≤ d) (v : α) : FragOK d (rfReturn v) := by
  intro s hs
  refine ⟨by simp [rfReturn, popRf, setRf], by simp [rfReturn, popRf, setRf],
    by simp [rfReturn, popRf, setRf], ?_, by simp [rfReturn]⟩
  intro j hj
  have : ¬ j = s.dev.rfLevel - 1 := by omega
  simp [rfReturn, popRf, setRf, this]

theorem fragOK_wrong {α : Type} (d : Nat) : FragOK d (rfWrongState : RF α) := by
  intro s hs
  simp [rfWrongState, popRf]

theorem fragOK_prim {α : Type} {d : Nat} {p : St → St} {g : RF α} (hp : PrimOK p)
    (hg : FragOK d g) : FragOK d (fun s => g (p s)) := by
  intro s hs
  obtain ⟨a1, a2, a3, a4⟩ := hp s
  have := hg (p s) (by omega)
  simp only [a1, a2, a3, a4] at this
  exact this

theorem fragOK_wait {α : Type} {d : Nat} (hd : 1 ≤ d) (k : Nat) {cond : St → Bool × St}
    {rest : RF α} (hc : PrimOK (fun s => (cond s).2)) (hr : FragOK d rest) :
    FragOK d (rfWaitUntil k cond rest) := by
  intro s hs
  obtain ⟨a1, a2, a3, a4⟩ := hc (setRf k s)
  have hset : ∀ j, j + 1 < s.dev.rfLevel ∨ s.dev.rfLevel - 1 + d ≤ j →
      (setRf k s).dev.rfState j = s.dev.rfState j := by
    intro j hj
    have : ¬ j = s.dev.rfLevel - 1 := by omega
    simp [setRf, this]
  have b1 : (setRf k s).dev.rfLevel = s.dev.rfLevel := by simp [setRf]
  have b2 : (setRf k s).dev.levels = s.dev.levels := by simp [setRf]
  have b3 : (setRf k s).dev.ctx = s.dev.ctx := by simp [setRf]
  simp only at a1 a2 a3 a4
  unfold rfWaitUntil
  simp only
  split
  · have := hr (cond (setRf k s)).2 (by omega)
    simp only [a1, a2, a3, a4, b1, b2, b3] at this
    obtain ⟨c1, c2, c3, c4, c5⟩ := this
    exact ⟨c1, c2, c3, fun j hj => (c4 j hj).trans (hset j hj), c5⟩
  · refine ⟨by simp [popRf, a1, b1], by simp [popRf, a2, b2], by simp [popRf, a3, b3], ?_, by simp⟩
    intro j hj
    simp only [popRf, a4]
    exact hset j hj

theorem fragOK_call {α β : Type} {d e : Nat} (hde : e + 1 ≤ d) (k : Nat) {callee : RF β}
    {rest : β → RF α} (hc : FuncOK e callee) (hr : ∀ v, FragOK d (rest v)) :
    FragOK d (rfCall k callee rest) := by
  intro s hs
  obtain ⟨a1, a2, a3, a4, a5⟩ := hc (setRf k s)
  have hset : ∀ j, j + 1 < s.dev.rfLevel ∨ s.dev.rfLevel - 1 + d ≤ j →
      (setRf k s).dev.rfState j = s.dev.rfState j := by
    intro j hj
    have : ¬ j = s.dev.rfLevel - 1 := by omega
    simp [setRf, this]
  have b1 : (setRf k s).dev.rfLevel = s.dev.rfLevel := by simp [setRf]
  have b2 : (setRf k s).dev.levels = s.dev.levels := by simp [setRf]
  have b3 : (setRf k s).dev.ctx = s.dev.ctx := by simp [setRf]
  rw [b1] at a1 a4 a5
  rw [b2] at a2 a5
  rw [b3] at a3
  have hfr : ∀ j, j + 1 < s.dev.rfLevel ∨ s.dev.rfLevel - 1 + d ≤ j →
      (callee (setRf k s)).2.dev.rfState j = s.dev.rfState j := by
    intro j hj
    rw [a4 j (by omega)]
    exact hset j hj
  unfold rfCall
  simp only
  split
  · rename_i v hv
    have := hr v (callee (setRf k s)).2 (by omega)
    simp only [a1, a2, a3] at this
    obtain ⟨c1, c2, c3, c4, c5⟩ := this
    exact ⟨c1, c2, c3, fun j hj => (c4 j hj).trans (hfr j hj), c5⟩
  · exact ⟨by simp [popRf, a1], by simp [popRf, a2], by simp [popRf, a3],
      fun j hj => by simpa [popRf] using hfr j hj, by simp⟩
  · rename_i hv
    refine ⟨by simp [popRf, a1], by simp [popRf, a2], by simp [popRf, a3],
      fun j hj => by simpa [popRf] using hfr j hj, ?_⟩
    intro hl
    exact absurd hv (a5 (by omega))
  · exact ⟨by simp [popRf, a1], by simp [popRf, a2], by simp [popRf, a3],
      fun j hj => by simpa [popRf] using hfr j hj, by simp⟩

theorem funcOK_begin {α : Type} {d : Nat} (hd : 1 ≤ d) {body : Nat → RF α}
    (h : ∀ m, FragOK d (body m)) : FuncOK d (rfBegin body) := by
  intro s
  unfold rfBegin
  split
  · rename_i hlt
    have := h (s.dev.rfState s.dev.rfLevel)
      { s with dev := { s.dev with rfLevel := s.dev.rfLevel + 1 } } (by simp)
    simp only [Nat.add_sub_cancel] at this
    obtain ⟨c1, c2, c3, c4, c5⟩ := this
    exact ⟨c1, c2, c3, fun j hj => c4 j (by omega), c5⟩
  · rename_i hlt
    refine ⟨rfl, rfl, rfl, fun _ _ => rfl, ?_⟩
    intro hl
    omega

end Modm

namespace Modm

theorem fragOK_ite {α : Type} {d : Nat} (c : St → Prop) [DecidablePred c] {g1 g2 : RF α}
    (h1 : FragOK d g1) (h2 : FragOK d g2) : FragOK d (fun s => if c s then g1 s else g2 s) := by
  intro s hs
  by_cases h : c s
  · simp only [h, if_true]; exact h1 s hs
  · simp only [h, if_false]; exact h2 s hs

theorem fragOK_pick {α : Type} {d : Nat} {c : Prop} [Decidable c] {g1 g2 : RF α}
    (h1 : FragOK d g1) (h2 : FragOK d g2) : FragOK d (if c then g1 else g2) := by
  split
  · exact h1
  · exact h2

namespace Paa5100je

/-! ### Levels used by the driver's functions -/

theorem fragOK_setChipSelect_wait2 : FragOK 1 setChipSelect_wait2 :=
  fragOK_wait (by decide) 2 primOK_csExecute (fragOK_ret 1 (by decide) ())

theorem fragOK_setChipSelect_wait1 : FragOK 1 setChipSelect_wait1 :=
  fragOK_wait (by decide) 1 primOK_csExecute
    (fragOK_prim (primOK_comp (primOK_csSetOutput true) (primOK_csRestart 1))
      fragOK_setChipSelect_wait2)

theorem funcOK_setChipSelect (value : Bool) : FuncOK 1 (setChipSelect value) := by
  apply funcOK_begin (by decide)
  intro m
  beta_reduce
  by_cases h0 : m = 0
  · rw [if_pos h0]
    exact fragOK_ite (fun _ => (!value) = true)
      (fragOK_prim (primOK_csSetOutput false) (fragOK_ret 1 (by decide) ()))
      (fragOK_prim (primOK_csRestart 1) fragOK_setChipSelect_wait1)
  rw [if_neg h0]
  split_ifs
  · exact fragOK_setChipSelect_wait1
  · exact fragOK_setChipSelect_wait2
  · exact fragOK_wrong 1

theorem fragOK_finish : FragOK 2 (fun s => rfReturn () (releaseMaster s)) :=
  fragOK_prim primOK_releaseMaster (fragOK_ret 2 (by decide) ())

theorem fragOK_read_csHigh : FragOK 2 read_csHigh :=
  fragOK_call (by decide) 5 (funcOK_setChipSelect true) (fun _ => fragOK_finish)

theorem fragOK_read_data (dst len : Nat) : FragOK 2 (read_data dst len) :=
  fragOK_call (e := 0) (by decide) 4 (funcOK_spiTransfer _ _ _)
    (fun _ => fragOK_read_csHigh)

theorem fragOK_read_addr (reg dst len : Nat) : FragOK 2 (read_addr reg dst len) :=
  fragOK_call (e := 0) (by decide) 3 (funcOK_spiTransfer _ _ _)
    (fun _ => fragOK_read_data dst len)

theorem fragOK_read_csLow (reg dst len : Nat) : FragOK 2 (read_csLow reg dst len) :=
  fragOK_call (by decide) 2 (funcOK_setChipSelect false) (fun _ => fragOK_read_addr reg dst len)

theorem fragOK_read_acquire (reg dst len : Nat) : FragOK 2 (read_acquire reg dst len) :=
  fragOK_wait (by decide) 1 primOK_acquireMaster (fragOK_read_csLow _ dst len)

theorem funcOK_read (reg dst len : Nat) : FuncOK 2 (read reg dst len) := by
  apply funcOK_begin (by decide)
  intro m
  beta_reduce
  split_ifs
  · exact fragOK_read_acquire reg dst len
  · exact fragOK_read_acquire reg dst len
  · exact fragOK_read_csLow reg dst len
  · exact fragOK_read_addr reg dst len
  · exact fragOK_read_data dst len
  · exact fragOK_read_csHigh
  · exact fragOK_wrong 2

theorem fragOK_write_csHigh : FragOK 2 write_csHigh :=
  fragOK_call (by decide) 5 (funcOK_setChipSelect true) (fun _ => fragOK_finish)

theorem fragOK_write_data (val : Nat) : FragOK 2 (write_data val) :=
  fragOK_call (e := 0) (by decide) 4 (funcOK_spiTransfer _ _ _)
    (fun _ => fragOK_write_csHigh)

theorem fragOK_write_addr (reg val : Nat) : FragOK 2 (write_addr reg val) :=
  fragOK_call (e := 0) (by decide) 3 (funcOK_spiTransfer _ _ _)
    (fun _ => fragOK_write_data val)

theorem fragOK_write_csLow (reg val : Nat) : FragOK 2 (write_csLow reg val) :=
  fragOK_call (by decide) 2 (funcOK_setChipSelect false) (fun _ => fragOK_write_addr reg val)

theorem fragOK_write_acquire (reg val : Nat) : FragOK 2 (write_acquire reg val) :=
  fragOK_wait (by decide) 1 primOK_acquireMaster (fragOK_write_csLow _ val)

theorem funcOK_write (reg val : Nat) : FuncOK 2 (write reg val) := by
  apply funcOK_begin (by decide)
  intro m
  beta_reduce
  split_ifs
  · exact fragOK_write_acquire reg val
  · exact fragOK_write_acquire reg val
  · exact fragOK_write_csLow reg val
  · exact fragOK_write_addr reg val
  · exact fragOK_write_data val
  · exact fragOK_write_csHigh
  · exact fragOK_wrong 2

theorem fragOK_writeRaw_csHigh {next : RF Unit} (h : FragOK 2 next) :
    FragOK 2 (writeRaw_csHigh next) :=
  fragOK_call (by decide) 4 (funcOK_setChipSelect true) (fun _ => h)

theorem fragOK_writeRaw_xfer (Val : List Nat) (i : Nat) {next : RF Unit} (h : FragOK 2 next) :
    FragOK 2 (writeRaw_xfer Val i next) :=
  fragOK_call (e := 0) (by decide) 3 (funcOK_spiTransfer _ _ _)
    (fun _ => fragOK_writeRaw_csHigh h)

theorem fragOK_writeRaw_csLow (Val : List Nat) (i : Nat) {next : RF Unit} (h : FragOK 2 next) :
    FragOK 2 (writeRaw_csLow Val i next) :=
  fragOK_call (by decide) 2 (funcOK_setChipSelect false) (fun _ => fragOK_writeRaw_xfer Val i h)

theorem fragOK_writeRaw_body (Val : List Nat) (label i : Nat) {next : RF Unit}
    (h : FragOK 2 next) : FragOK 2 (writeRaw_body Val label i next) := by
  unfold writeRaw_body
  split_ifs
  · exact fragOK_writeRaw_csLow Val i h
  · exact fragOK_writeRaw_xfer Val i h
  · exact fragOK_writeRaw_csHigh h

theorem fragOK_writeRaw_loop (Val : List Nat) (fuel label i : Nat) :
    FragOK 2 (writeRaw_loop Val fuel label i) := by
  induction fuel generalizing label i with
  | zero => exact fragOK_finish
  | succ fuel ih =>
    exact fragOK_writeRaw_body Val label i
      (fragOK_ite (fun _ => (i + 2) % 65536 < Val.length) (ih 2 _) fragOK_finish)

theorem fragOK_writeRaw_acquire (Val : List Nat) : FragOK 2 (writeRaw_acquire Val) :=
  fragOK_wait (by decide) 1 primOK_acquireMaster
    (fragOK_ite (fun _ => 0 < Val.length) (fragOK_writeRaw_loop Val _ 2 0) fragOK_finish)

theorem funcOK_writeRaw (Val : List Nat) : FuncOK 2 (writeRaw Val) := by
  apply funcOK_begin (by decide)
  intro m
  beta_reduce
  split_ifs
  · exact fragOK_writeRaw_acquire Val
  · exact fragOK_writeRaw_acquire Val
  · intro s hs
    have h := fragOK_writeRaw_loop Val (Val.length + 1) m (s.peek % 65536) s.advance
      (by simpa [St.advance] using hs)
    simpa [St.advance] using h
  · exact fragOK_wrong 2

end Paa5100je

end Modm

namespace Modm

namespace Paa5100je

theorem fragOK_writeMagic_15 : FragOK 3 writeMagic_15 :=
  fragOK_call (by decide) 15 (funcOK_writeRaw magic6) (fun _ => fragOK_ret 3 (by decide) ())

theorem fragOK_writeMagic_14 : FragOK 3 writeMagic_14 :=
  fragOK_wait (by decide) 14 primOK_waitExecute fragOK_writeMagic_15

theorem fragOK_writeMagic_13 : FragOK 3 writeMagic_13 :=
  fragOK_call (by decide) 13 (funcOK_writeRaw magic5)
    (fun _ => fragOK_prim (primOK_waitRestart 240) fragOK_writeMagic_14)

theorem fragOK_writeMagic_12 : FragOK 3 writeMagic_12 :=
  fragOK_wait (by decide) 12 primOK_waitExecute fragOK_writeMagic_13

theorem fragOK_writeMagic_11 : FragOK 3 writeMagic_11 :=
  fragOK_call (by decide) 11 (funcOK_writeRaw magic4)
    (fun _ => fragOK_prim (primOK_waitRestart 10) fragOK_writeMagic_12)

theorem fragOK_writeMagic_10 : FragOK 3 writeMagic_10 := fun s hs =>
  fragOK_call (by decide) 10 (funcOK_write 0x71 (s.dev.scratch 1))
    (fun _ => fragOK_writeMagic_11) s hs

theorem fragOK_writeMagic_9 : FragOK 3 writeMagic_9 := fun s hs =>
  fragOK_call (by decide) 9 (funcOK_write 0x70 (s.dev.scratch 0))
    (fun _ => fragOK_writeMagic_10) s hs

theorem fragOK_writeMagic_8 : FragOK 3 writeMagic_8 :=
  fragOK_call (by decide) 8 (funcOK_writeRaw magic3) (fun _ => fragOK_writeMagic_9)

theorem fragOK_writeMagic_7 : FragOK 3 writeMagic_7 := by
  apply fragOK_call (by decide) 7 (funcOK_read 0x71 1 1)
  intro _
  apply fragOK_prim ?_ fragOK_writeMagic_8
  intro s
  simp [setScratch]

theorem fragOK_writeMagic_6 : FragOK 3 writeMagic_6 :=
  fragOK_call (by decide) 6 (funcOK_read 0x70 0 1) (fun _ => fragOK_writeMagic_7)

theorem fragOK_writeMagic_5 : FragOK 3 writeMagic_5 :=
  fragOK_call (by decide) 5 (funcOK_read 0x73 0 1)
    (fun _ => fragOK_ite (fun s => s.dev.scratch 0 = 0) fragOK_writeMagic_6 fragOK_writeMagic_11)

theorem fragOK_writeMagic_4 : FragOK 3 writeMagic_4 :=
  fragOK_call (by decide) 4 (funcOK_writeRaw magic2) (fun _ => fragOK_writeMagic_5)

theorem fragOK_writeMagic_3 : FragOK 3 writeMagic_3 := fun s hs =>
  fragOK_call (by decide) 3 (funcOK_write 0x48 (s.dev.scratch 0))
    (fun _ => fragOK_writeMagic_4) s hs

theorem fragOK_writeMagic_2 : FragOK 3 writeMagic_2 := by
  apply fragOK_call (by decide) 2 (funcOK_read 0x67 0 1)
  intro _
  apply fragOK_prim ?_ fragOK_writeMagic_3
  intro s
  simp [setScratch]

theorem fragOK_writeMagic_1 : FragOK 3 writeMagic_1 :=
  fragOK_call (by decide) 1 (funcOK_writeRaw magic1) (fun _ => fragOK_writeMagic_2)

theorem funcOK_writeMagic : FuncOK 3 writeMagic :=
  funcOK_begin (by decide) fun _ =>
    fragOK_pick fragOK_writeMagic_1 <| fragOK_pick fragOK_writeMagic_1 <|
    fragOK_pick fragOK_writeMagic_2 <| fragOK_pick fragOK_writeMagic_3 <|
    fragOK_pick fragOK_writeMagic_4 <| fragOK_pick fragOK_writeMagic_5 <|
    fragOK_pick fragOK_writeMagic_6 <| fragOK_pick fragOK_writeMagic_7 <|
    fragOK_pick fragOK_writeMagic_8 <| fragOK_pick fragOK_writeMagic_9 <|
    fragOK_pick fragOK_writeMagic_10 <| fragOK_pick fragOK_writeMagic_11 <|
    fragOK_pick fragOK_writeMagic_12 <| fragOK_pick fragOK_writeMagic_13 <|
    fragOK_pick fragOK_writeMagic_14 <| fragOK_pick fragOK_writeMagic_15 <|
    fragOK_wrong 3

theorem fragOK_initializeSensor_check : FragOK 4 initializeSensor_check :=
  fragOK_ite (fun s => s.dev.scratch 0 ≠ ExpectedProductID) (fragOK_ret 4 (by decide) false)
    (fragOK_ite (fun s => s.dev.scratch 0 ≠ 255 - s.dev.scratch 1 % 256)
      (fragOK_ret 4 (by decide) false) (fragOK_ret 4 (by decide) true))

theorem fragOK_initializeSensor_6 : FragOK 4 initializeSensor_6 :=
  fragOK_call (by decide) 6 (funcOK_read regInverseProductID 1 1)
    (fun _ => fragOK_initializeSensor_check)

theorem fragOK_initializeSensor_5 : FragOK 4 initializeSensor_5 :=
  fragOK_call (by decide) 5 (funcOK_read regProductID 0 1) (fun _ => fragOK_initializeSensor_6)

theorem fragOK_initializeSensor_4 : FragOK 4 initializeSensor_4 :=
  fragOK_call (by decide) 4 funcOK_writeMagic (fun _ => fragOK_initializeSensor_5)

theorem fragOK_initializeSensor_3 : FragOK 4 initializeSensor_3 :=
  fragOK_wait (by decide) 3 primOK_waitExecute fragOK_initializeSensor_4

theorem fragOK_initializeSensor_2 : FragOK 4 initializeSensor_2 :=
  fragOK_call (by decide) 2 (funcOK_write regPowerUpReset 0x5a)
    (fun _ => fragOK_prim (primOK_waitRestart 20) fragOK_initializeSensor_3)

theorem fragOK_initializeSensor_1 : FragOK 4 initializeSensor_1 :=
  fragOK_wait (by decide) 1 primOK_waitExecute fragOK_initializeSensor_2

theorem funcOK_initializeSensor : FuncOK 4 initializeSensor := by
  apply funcOK_begin (by decide)
  intro m
  beta_reduce
  split_ifs
  · exact fragOK_prim (primOK_waitRestart 50) fragOK_initializeSensor_1
  · exact fragOK_initializeSensor_1
  · exact fragOK_initializeSensor_2
  · exact fragOK_initializeSensor_3
  · exact fragOK_initializeSensor_4
  · exact fragOK_initializeSensor_5
  · exact fragOK_initializeSensor_6
  · exact fragOK_wrong 4

theorem fragOK_setLed_3 : FragOK 3 setLed_3 :=
  fragOK_call (by decide) 3 (funcOK_write regWriteProtect 0x00)
    (fun _ => fragOK_ret 3 (by decide) ())

theorem fragOK_setLed_2 (enable : Bool) : FragOK 3 (setLed_2 enable) :=
  fragOK_call (by decide) 2 (funcOK_write regLedEnable _) (fun _ => fragOK_setLed_3)

theorem fragOK_setLed_1 (enable : Bool) : FragOK 3 (setLed_1 enable) :=
  fragOK_call (by decide) 1 (funcOK_write regWriteProtect 0x14) (fun _ => fragOK_setLed_2 enable)

theorem funcOK_setLed (enable : Bool) : FuncOK 3 (setLed enable) := by
  apply funcOK_begin (by decide)
  intro m
  beta_reduce
  split_ifs
  · exact fragOK_setLed_1 enable
  · exact fragOK_setLed_1 enable
  · exact fragOK_setLed_2 enable
  · exact fragOK_setLed_3
  · exact fragOK_wrong 3

theorem fragOK_getByte_1 (reg : Nat) : FragOK 3 (getByte_1 reg) := by
  apply fragOK_call (by decide) 1 (funcOK_read reg 0 1)
  intro _ s hs
  exact fragOK_ret 3 (by decide) (s.dev.scratch 0) s hs

theorem funcOK_getProductId : FuncOK 3 getProductId := by
  apply funcOK_begin (by decide)
  intro m
  beta_reduce
  split_ifs
  · exact fragOK_getByte_1 _
  · exact fragOK_getByte_1 _
  · exact fragOK_wrong 3

theorem funcOK_getRevision : FuncOK 3 getRevision := by
  apply funcOK_begin (by decide)
  intro m
  beta_reduce
  split_ifs
  · exact fragOK_getByte_1 _
  · exact fragOK_getByte_1 _
  · exact fragOK_wrong 3

theorem fragOK_getMotionData_1 : FragOK 3 getMotionData_1 := by
  apply fragOK_call (by decide) 1 (funcOK_read regMotionBurst 0 12)
  intro _ s hs
  exact fragOK_ret 3 (by decide) _ s hs

theorem funcOK_getMotionData : FuncOK 3 getMotionData := by
  apply funcOK_begin (by decide)
  intro m
  beta_reduce
  split_ifs
  · exact fragOK_getMotionData_1
  · exact fragOK_getMotionData_1
  · exact fragOK_wrong 3

end Paa5100je

end Modm

namespace Modm

/-! ## Rules for the markers after completion -/

theorem zeroFrag_tail {α : Type} {z : Nat} {g : RF α} (h : ZeroFrag z g) : ZeroTail z g :=
  fun s hs _ v hv => h s hs v hv

theorem zeroTail_ret {α : Type} (z : Nat) (v : α) : ZeroTail z (rfReturn v) := by
  intro s hs hz w _ j hj1 hj2
  by_cases hj : j = s.dev.rfLevel - 1
  · simp [rfReturn, popRf, setRf, hj]
  · have := hz j (by omega) hj2
    simp [rfReturn, popRf, setRf, hj, this]

theorem zeroFrag_ret {α : Type} (v : α) : ZeroFrag 1 (rfReturn v) := by
  intro s hs w _ j hj1 hj2
  have hj : j = s.dev.rfLevel - 1 := by omega
  simp [rfReturn, popRf, setRf, hj]

theorem zeroFrag_wrong {α : Type} (z : Nat) : ZeroFrag z (rfWrongState : RF α) := by
  intro s hs v hv
  simp [rfWrongState] at hv

theorem zeroTail_prim {α : Type} {z : Nat} {p : St → St} {g : RF α} (hp : PrimOK p)
    (hg : ZeroTail z g) : ZeroTail z (fun s => g (p s)) := by
  intro s hs hz v hv
  obtain ⟨a1, _, _, a4⟩ := hp s
  have := hg (p s) (by omega) (by intro j h1 h2; rw [a4]; exact hz j (by omega) (by omega)) v hv
  rw [a1] at this
  exact this

theorem zeroFrag_prim {α : Type} {z : Nat} {p : St → St} {g : RF α} (hp : PrimOK p)
    (hg : ZeroFrag z g) : ZeroFrag z (fun s => g (p s)) := by
  intro s hs v hv
  obtain ⟨a1, _, _, a4⟩ := hp s
  have := hg (p s) (by omega) v hv
  rw [a1] at this
  exact this

theorem zeroTail_ite {α : Type} {z : Nat} (c : St → Prop) [DecidablePred c] {g1 g2 : RF α}
    (h1 : ZeroTail z g1) (h2 : ZeroTail z g2) :
    ZeroTail z (fun s => if c s then g1 s else g2 s) := by
  intro s hs
  by_cases h : c s
  · simp only [h, if_true]; exact h1 s hs
  · simp only [h, if_false]; exact h2 s hs

theorem zeroFrag_ite {α : Type} {z : Nat} (c : St → Prop) [DecidablePred c] {g1 g2 : RF α}
    (h1 : ZeroFrag z g1) (h2 : ZeroFrag z g2) :
    ZeroFrag z (fun s => if c s then g1 s else g2 s) := by
  intro s hs
  by_cases h : c s
  · simp only [h, if_true]; exact h1 s hs
  · simp only [h, if_false]; exact h2 s hs

theorem zeroFrag_pick {α : Type} {z : Nat} {c : Prop} [Decidable c] {g1 g2 : RF α}
    (h1 : ZeroFrag z g1) (h2 : ZeroFrag z g2) : ZeroFrag z (if c then g1 else g2) := by
  split
  · exact h1
  · exact h2

theorem zeroFrag_wait {α : Type} {z : Nat} (k : Nat) {cond : St → Bool × St} {rest : RF α}
    (hc : PrimOK (fun s => (cond s).2)) (hr : ZeroFrag z rest) :
    ZeroFrag z (rfWaitUntil k cond rest) := by
  intro s hs v hv
  obtain ⟨a1, _, _, _⟩ := hc (setRf k s)
  have b1 : (setRf k s).dev.rfLevel = s.dev.rfLevel := by simp [setRf]
  simp only at a1
  unfold rfWaitUntil at hv ⊢
  simp only at hv ⊢
  split at hv
  · rename_i hc1
    rw [if_pos hc1]
    have := hr (cond (setRf k s)).2 (by omega) v hv
    rw [a1, b1] at this
    exact this
  · simp at hv

theorem zeroTail_wait {α : Type} {z : Nat} (k : Nat) {cond : St → Bool × St} {rest : RF α}
    (hc : PrimOK (fun s => (cond s).2)) (hr : ZeroTail z rest) :
    ZeroTail z (rfWaitUntil k cond rest) := by
  intro s hs hz v hv
  obtain ⟨a1, _, _, a4⟩ := hc (setRf k s)
  have b1 : (setRf k s).dev.rfLevel = s.dev.rfLevel := by simp [setRf]
  simp only at a1 a4
  unfold rfWaitUntil at hv ⊢
  simp only at hv ⊢
  split at hv
  · rename_i hc1
    rw [if_pos hc1]
    have hz' : ZeroOn (cond (setRf k s)).2.dev.rfLevel
        ((cond (setRf k s)).2.dev.rfLevel - 1 + z) (cond (setRf k s)).2 := by
      intro j h1 h2
      rw [a1, b1] at h1 h2
      have hj : ¬ j = s.dev.rfLevel - 1 := by omega
      rw [a4]
      simpa [setRf, hj] using hz j h1 h2
    have := hr (cond (setRf k s)).2 (by omega) hz' v hv
    rw [a1, b1] at this
    exact this
  · simp at hv

/-- A call of a function on the same instance: what the callee leaves at not
started carries the rest. -/
theorem zeroFrag_call {α β : Type} {z z' e : Nat} (hz : z ≤ z' + 1) (k : Nat) {callee : RF β}
    {rest : β → RF α} (hf : FuncOK e callee) (hc : ZeroFunc z' callee)
    (hr : ∀ v, ZeroTail z (rest v)) : ZeroFrag z (rfCall k callee rest) := by
  intro s hs v hv
  obtain ⟨a1, _, _, _, _⟩ := hf (setRf k s)
  have b1 : (setRf k s).dev.rfLevel = s.dev.rfLevel := by simp [setRf]
  rw [b1] at a1
  unfold rfCall at hv ⊢
  simp only at hv ⊢
  split at hv
  · rename_i w hw
    have hcz := hc (setRf k s) w hw
    rw [b1] at hcz
    have := hr w (callee (setRf k s)).2 (by omega)
      (by intro j h1 h2; rw [a1] at h1 h2; exact hcz j h1 (by omega)) v hv
    rw [a1] at this
    exact this
  · simp at hv
  · simp at hv
  · simp at hv

/-- A call of a resumable of another object (the SPI master), which leaves the
instance's markers alone. -/
theorem zeroFrag_leaf {α β : Type} {z : Nat} (k : Nat) {callee : RF β} {rest : β → RF α}
    (hf : FuncOK 0 callee) (hr : ∀ v, ZeroFrag z (rest v)) :
    ZeroFrag z (rfCall k callee rest) := by
  intro s hs v hv
  obtain ⟨a1, _, _, _, _⟩ := hf (setRf k s)
  have b1 : (setRf k s).dev.rfLevel = s.dev.rfLevel := by simp [setRf]
  rw [b1] at a1
  unfold rfCall at hv ⊢
  simp only at hv ⊢
  split at hv
  · rename_i w hw
    have := hr w (callee (setRf k s)).2 (by omega) v hv
    rw [a1] at this
    exact this
  · simp at hv
  · simp at hv
  · simp at hv

theorem zeroFunc_begin {α : Type} {z : Nat} {body : Nat → RF α}
    (h : ∀ m, ZeroFrag z (body m)) : ZeroFunc z (rfBegin body) := by
  intro s v hv
  unfold rfBegin at hv ⊢
  split at hv
  · rename_i hlt
    rw [if_pos hlt]
    have := h (s.dev.rfState s.dev.rfLevel)
      { s with dev := { s.dev with rfLevel := s.dev.rfLevel + 1 } } (by simp) v hv
    simpa using this
  · simp at hv

end Modm

namespace Modm

namespace Paa5100je

/-! ### Markers the driver's functions leave at not started -/

theorem zeroFrag_setChipSelect_wait2 : ZeroFrag 1 setChipSelect_wait2 :=
  zeroFrag_wait 2 primOK_csExecute (zeroFrag_ret ())

theorem zeroFrag_setChipSelect_wait1 : ZeroFrag 1 setChipSelect_wait1 :=
  zeroFrag_wait 1 primOK_csExecute
    (zeroFrag_prim (primOK_comp (primOK_csSetOutput true) (primOK_csRestart 1))
      zeroFrag_setChipSelect_wait2)

theorem zeroFunc_setChipSelect (value : Bool) : ZeroFunc 1 (setChipSelect value) :=
  zeroFunc_begin fun _ =>
    zeroFrag_pick
      (zeroFrag_ite (fun _ => (!value) = true)
        (zeroFrag_prim (primOK_csSetOutput false) (zeroFrag_ret ()))
        (zeroFrag_prim (primOK_csRestart 1) zeroFrag_setChipSelect_wait1)) <|
    zeroFrag_pick zeroFrag_setChipSelect_wait1 <|
    zeroFrag_pick zeroFrag_setChipSelect_wait2 <| zeroFrag_wrong 1

theorem zeroTail_finish : ZeroTail 2 (fun s => rfReturn () (releaseMaster s)) :=
  zeroTail_prim primOK_releaseMaster (zeroTail_ret 2 ())

theorem zeroFrag_read_csHigh : ZeroFrag 2 read_csHigh :=
  zeroFrag_call (by decide) 5 (funcOK_setChipSelect true) (zeroFunc_setChipSelect true)
    (fun _ => zeroTail_finish)

theorem zeroFrag_read_data (dst len : Nat) : ZeroFrag 2 (read_data dst len) :=
  zeroFrag_leaf 4 (funcOK_spiTransfer _ _ _) (fun _ => zeroFrag_read_csHigh)

theorem zeroFrag_read_addr (reg dst len : Nat) : ZeroFrag 2 (read_addr reg dst len) :=
  zeroFrag_leaf 3 (funcOK_spiTransfer _ _ _) (fun _ => zeroFrag_read_data dst len)

theorem zeroFrag_read_csLow (reg dst len : Nat) : ZeroFrag 2 (read_csLow reg dst len) :=
  zeroFrag_call (by decide) 2 (funcOK_setChipSelect false) (zeroFunc_setChipSelect false)
    (fun _ => (zeroFrag_tail (zeroFrag_read_addr reg dst len)))

theorem zeroFrag_read_acquire (reg dst len : Nat) : ZeroFrag 2 (read_acquire reg dst len) :=
  zeroFrag_wait 1 primOK_acquireMaster (zeroFrag_read_csLow _ dst len)

theorem zeroFunc_read (reg dst len : Nat) : ZeroFunc 2 (read reg dst len) :=
  zeroFunc_begin fun _ =>
    zeroFrag_pick (zeroFrag_read_acquire reg dst len) <|
    zeroFrag_pick (zeroFrag_read_acquire reg dst len) <|
    zeroFrag_pick (zeroFrag_read_csLow reg dst len) <|
    zeroFrag_pick (zeroFrag_read_addr reg dst len) <|
    zeroFrag_pick (zeroFrag_read_data dst len) <|
    zeroFrag_pick zeroFrag_read_csHigh <| zeroFrag_wrong 2

theorem zeroFrag_write_csHigh : ZeroFrag 2 write_csHigh :=
  zeroFrag_call (by decide) 5 (funcOK_setChipSelect true) (zeroFunc_setChipSelect true)
    (fun _ => zeroTail_finish)

theorem zeroFrag_write_data (val : Nat) : ZeroFrag 2 (write_data val) :=
  zeroFrag_leaf 4 (funcOK_spiTransfer _ _ _) (fun _ => zeroFrag_write_csHigh)

theorem zeroFrag_write_addr (reg val : Nat) : ZeroFrag 2 (write_addr reg val) :=
  zeroFrag_leaf 3 (funcOK_spiTransfer _ _ _) (fun _ => zeroFrag_write_data val)

theorem zeroFrag_write_csLow (reg val : Nat) : ZeroFrag 2 (write_csLow reg val) :=
  zeroFrag_call (by decide) 2 (funcOK_setChipSelect false) (zeroFunc_setChipSelect false)
    (fun _ => (zeroFrag_tail (zeroFrag_write_addr reg val)))

theorem zeroFrag_write_acquire (reg val : Nat) : ZeroFrag 2 (write_acquire reg val) :=
  zeroFrag_wait 1 primOK_acquireMaster (zeroFrag_write_csLow _ val)

theorem zeroFunc_write (reg val : Nat) : ZeroFunc 2 (write reg val) :=
  zeroFunc_begin fun _ =>
    zeroFrag_pick (zeroFrag_write_acquire reg val) <|
    zeroFrag_pick (zeroFrag_write_acquire reg val) <|
    zeroFrag_pick (zeroFrag_write_csLow reg val) <|
    zeroFrag_pick (zeroFrag_write_addr reg val) <|
    zeroFrag_pick (zeroFrag_write_data val) <|
    zeroFrag_pick zeroFrag_write_csHigh <| zeroFrag_wrong 2

theorem zeroFrag_writeRaw_csHigh {next : RF Unit} (h : ZeroTail 2 next) :
    ZeroFrag 2 (writeRaw_csHigh next) :=
  zeroFrag_call (by decide) 4 (funcOK_setChipSelect true) (zeroFunc_setChipSelect true)
    (fun _ => h)

theorem zeroFrag_writeRaw_xfer (Val : List Nat) (i : Nat) {next : RF Unit}
    (h : ZeroTail 2 next) : ZeroFrag 2 (writeRaw_xfer Val i next) :=
  zeroFrag_leaf 3 (funcOK_spiTransfer _ _ _) (fun _ => zeroFrag_writeRaw_csHigh h)

theorem zeroFrag_writeRaw_csLow (Val : List Nat) (i : Nat) {next : RF Unit}
    (h : ZeroTail 2 next) : ZeroFrag 2 (writeRaw_csLow Val i next) :=
  zeroFrag_call (by decide) 2 (funcOK_setChipSelect false) (zeroFunc_setChipSelect false)
    (fun _ => (zeroFrag_tail (zeroFrag_writeRaw_xfer Val i h)))

theorem zeroFrag_writeRaw_body (Val : List Nat) (label i : Nat) {next : RF Unit}
    (h : ZeroTail 2 next) : ZeroFrag 2 (writeRaw_body Val label i next) :=
  zeroFrag_pick (zeroFrag_writeRaw_csLow Val i h) <|
    zeroFrag_pick (zeroFrag_writeRaw_xfer Val i h) (zeroFrag_writeRaw_csHigh h)

theorem zeroTail_writeRaw_loop (Val : List Nat) (fuel label i : Nat) :
    ZeroTail 2 (writeRaw_loop Val fuel label i) := by
  induction fuel generalizing label i with
  | zero => exact zeroTail_finish
  | succ fuel ih =>
    exact (zeroFrag_tail (zeroFrag_writeRaw_body Val label i
      (zeroTail_ite (fun _ => (i + 2) % 65536 < Val.length) (ih 2 _) zeroTail_finish)))

theorem zeroFrag_writeRaw_loop (Val : List Nat) (fuel label i : Nat) :
    ZeroFrag 2 (writeRaw_loop Val (fuel + 1) label i) :=
  zeroFrag_writeRaw_body Val label i
    (zeroTail_ite (fun _ => (i + 2) % 65536 < Val.length) (zeroTail_writeRaw_loop Val fuel 2 _)
      zeroTail_finish)

theorem zeroFrag_writeRaw_acquire (Val : List Nat) (h : 0 < Val.length) :
    ZeroFrag 2 (writeRaw_acquire Val) := by
  apply zeroFrag_wait 1 primOK_acquireMaster
  intro s hs
  beta_reduce
  rw [if_pos h]
  exact zeroFrag_writeRaw_loop Val Val.length 2 0 s hs

theorem zeroFrag_writeRaw_resume (Val : List Nat) (m : Nat) :
    ZeroFrag 2 (fun s => writeRaw_loop Val (Val.length + 1) m (s.peek % 65536) s.advance) := by
  intro s hs v hv
  have h := zeroFrag_writeRaw_loop Val Val.length m (s.peek % 65536) s.advance
    (by simpa [St.advance] using hs) v hv
  simpa [St.advance] using h

theorem zeroFunc_writeRaw (Val : List Nat) (h : 0 < Val.length) : ZeroFunc 2 (writeRaw Val) :=
  zeroFunc_begin fun m =>
    zeroFrag_pick (zeroFrag_writeRaw_acquire Val h) <|
    zeroFrag_pick (zeroFrag_writeRaw_acquire Val h) <|
    zeroFrag_pick (zeroFrag_writeRaw_resume Val m) <|
    zeroFrag_wrong 2

end Paa5100je

end Modm

namespace Modm

namespace Paa5100je

theorem magic1_pos : 0 < magic1.length := by decide
theorem magic2_pos : 0 < magic2.length := by decide
theorem magic3_pos : 0 < magic3.length := by decide
theorem magic4_pos : 0 < magic4.length := by simp [magic4]
theorem magic5_pos : 0 < magic5.length := by simp [magic5]
theorem magic6_pos : 0 < magic6.length := by decide

theorem zeroFrag_writeMagic_15 : ZeroFrag 3 writeMagic_15 :=
  zeroFrag_call (by decide) 15 (funcOK_writeRaw magic6) (zeroFunc_writeRaw magic6 magic6_pos)
    (fun _ => zeroTail_ret 3 ())

theorem zeroFrag_writeMagic_14 : ZeroFrag 3 writeMagic_14 :=
  zeroFrag_wait 14 primOK_waitExecute zeroFrag_writeMagic_15

theorem zeroFrag_writeMagic_13 : ZeroFrag 3 writeMagic_13 :=
  zeroFrag_call (by decide) 13 (funcOK_writeRaw magic5) (zeroFunc_writeRaw magic5 magic5_pos)
    (fun _ => (zeroFrag_tail (zeroFrag_prim (primOK_waitRestart 240) zeroFrag_writeMagic_14)))

theorem zeroFrag_writeMagic_12 : ZeroFrag 3 writeMagic_12 :=
  zeroFrag_wait 12 primOK_waitExecute zeroFrag_writeMagic_13

theorem zeroFrag_writeMagic_11 : ZeroFrag 3 writeMagic_11 :=
  zeroFrag_call (by decide) 11 (funcOK_writeRaw magic4) (zeroFunc_writeRaw magic4 magic4_pos)
    (fun _ => (zeroFrag_tail (zeroFrag_prim (primOK_waitRestart 10) zeroFrag_writeMagic_12)))

theorem zeroFrag_writeMagic_10 : ZeroFrag 3 writeMagic_10 := fun s hs =>
  zeroFrag_call (by decide) 10 (funcOK_write 0x71 (s.dev.scratch 1)) (zeroFunc_write _ _)
    (fun _ => (zeroFrag_tail zeroFrag_writeMagic_11)) s hs

theorem zeroFrag_writeMagic_9 : ZeroFrag 3 writeMagic_9 := fun s hs =>
  zeroFrag_call (by decide) 9 (funcOK_write 0x70 (s.dev.scratch 0)) (zeroFunc_write _ _)
    (fun _ => (zeroFrag_tail zeroFrag_writeMagic_10)) s hs

theorem zeroFrag_writeMagic_8 : ZeroFrag 3 writeMagic_8 :=
  zeroFrag_call (by decide) 8 (funcOK_writeRaw magic3) (zeroFunc_writeRaw magic3 magic3_pos)
    (fun _ => (zeroFrag_tail zeroFrag_writeMagic_9))

theorem zeroFrag_writeMagic_7 : ZeroFrag 3 writeMagic_7 := by
  apply zeroFrag_call (by decide) 7 (funcOK_read 0x71 1 1) (zeroFunc_read _ _ _)
  intro _
  apply zeroFrag_tail
  apply zeroFrag_prim ?_ zeroFrag_writeMagic_8
  intro s
  simp [setScratch]

theorem zeroFrag_writeMagic_6 : ZeroFrag 3 writeMagic_6 :=
  zeroFrag_call (by decide) 6 (funcOK_read 0x70 0 1) (zeroFunc_read _ _ _)
    (fun _ => (zeroFrag_tail zeroFrag_writeMagic_7))

theorem zeroFrag_writeMagic_5 : ZeroFrag 3 writeMagic_5 :=
  zeroFrag_call (by decide) 5 (funcOK_read 0x73 0 1) (zeroFunc_read _ _ _)
    (fun _ => (zeroFrag_tail (zeroFrag_ite (fun s => s.dev.scratch 0 = 0) zeroFrag_writeMagic_6
      zeroFrag_writeMagic_11)))

theorem zeroFrag_writeMagic_4 : ZeroFrag 3 writeMagic_4 :=
  zeroFrag_call (by decide) 4 (funcOK_writeRaw magic2) (zeroFunc_writeRaw magic2 magic2_pos)
    (fun _ => (zeroFrag_tail zeroFrag_writeMagic_5))

theorem zeroFrag_writeMagic_3 : ZeroFrag 3 writeMagic_3 := fun s hs =>
  zeroFrag_call (by decide) 3 (funcOK_write 0x48 (s.dev.scratch 0)) (zeroFunc_write _ _)
    (fun _ => (zeroFrag_tail zeroFrag_writeMagic_4)) s hs

theorem zeroFrag_writeMagic_2 : ZeroFrag 3 writeMagic_2 := by
  apply zeroFrag_call (by decide) 2 (funcOK_read 0x67 0 1) (zeroFunc_read _ _ _)
  intro _
  apply zeroFrag_tail
  apply zeroFrag_prim ?_ zeroFrag_writeMagic_3
  intro s
  simp [setScratch]

theorem zeroFrag_writeMagic_1 : ZeroFrag 3 writeMagic_1 :=
  zeroFrag_call (by decide) 1 (funcOK_writeRaw magic1) (zeroFunc_writeRaw magic1 magic1_pos)
    (fun _ => (zeroFrag_tail zeroFrag_writeMagic_2))

theorem zeroFunc_writeMagic : ZeroFunc 3 writeMagic :=
  zeroFunc_begin fun _ =>
    zeroFrag_pick zeroFrag_writeMagic_1 <| zeroFrag_pick zeroFrag_writeMagic_1 <|
    zeroFrag_pick zeroFrag_writeMagic_2 <| zeroFrag_pick zeroFrag_writeMagic_3 <|
    zeroFrag_pick zeroFrag_writeMagic_4 <| zeroFrag_pick zeroFrag_writeMagic_5 <|
    zeroFrag_pick zeroFrag_writeMagic_6 <| zeroFrag_pick zeroFrag_writeMagic_7 <|
    zeroFrag_pick zeroFrag_writeMagic_8 <| zeroFrag_pick zeroFrag_writeMagic_9 <|
    zeroFrag_pick zeroFrag_writeMagic_10 <| zeroFrag_pick zeroFrag_writeMagic_11 <|
    zeroFrag_pick zeroFrag_writeMagic_12 <| zeroFrag_pick zeroFrag_writeMagic_13 <|
    zeroFrag_pick zeroFrag_writeMagic_14 <| zeroFrag_pick zeroFrag_writeMagic_15 <|
    zeroFrag_wrong 3

theorem zeroTail_initializeSensor_check : ZeroTail 3 initializeSensor_check :=
  zeroTail_ite (fun s => s.dev.scratch 0 ≠ ExpectedProductID) (zeroTail_ret 3 false)
    (zeroTail_ite (fun s => s.dev.scratch 0 ≠ 255 - s.dev.scratch 1 % 256)
      (zeroTail_ret 3 false) (zeroTail_ret 3 true))

theorem zeroFrag_initializeSensor_6 : ZeroFrag 3 initializeSensor_6 :=
  zeroFrag_call (by decide) 6 (funcOK_read regInverseProductID 1 1) (zeroFunc_read _ _ _)
    (fun _ => zeroTail_initializeSensor_check)

theorem zeroFrag_initializeSensor_5 : ZeroFrag 3 initializeSensor_5 :=
  zeroFrag_call (by decide) 5 (funcOK_read regProductID 0 1) (zeroFunc_read _ _ _)
    (fun _ => (zeroFrag_tail zeroFrag_initializeSensor_6))

theorem zeroFrag_initializeSensor_4 : ZeroFrag 3 initializeSensor_4 :=
  zeroFrag_call (by decide) 4 funcOK_writeMagic zeroFunc_writeMagic
    (fun _ => (zeroFrag_tail zeroFrag_initializeSensor_5))

theorem zeroFrag_initializeSensor_3 : ZeroFrag 3 initializeSensor_3 :=
  zeroFrag_wait 3 primOK_waitExecute zeroFrag_initializeSensor_4

theorem zeroFrag_initializeSensor_2 : ZeroFrag 3 initializeSensor_2 :=
  zeroFrag_call (by decide) 2 (funcOK_write regPowerUpReset 0x5a) (zeroFunc_write _ _)
    (fun _ => (zeroFrag_tail (zeroFrag_prim (primOK_waitRestart 20) zeroFrag_initializeSensor_3)))

theorem zeroFrag_initializeSensor_1 : ZeroFrag 3 initializeSensor_1 :=
  zeroFrag_wait 1 primOK_waitExecute zeroFrag_initializeSensor_2

theorem zeroFunc_initializeSensor : ZeroFunc 3 initializeSensor :=
  zeroFunc_begin fun _ =>
    zeroFrag_pick (zeroFrag_prim (primOK_waitRestart 50) zeroFrag_initializeSensor_1) <|
    zeroFrag_pick zeroFrag_initializeSensor_1 <| zeroFrag_pick zeroFrag_initializeSensor_2 <|
    zeroFrag_pick zeroFrag_initializeSensor_3 <| zeroFrag_pick zeroFrag_initializeSensor_4 <|
    zeroFrag_pick zeroFrag_initializeSensor_5 <| zeroFrag_pick zeroFrag_initializeSensor_6 <|
    zeroFrag_wrong 3

theorem zeroFrag_setLed_3 : ZeroFrag 3 setLed_3 :=
  zeroFrag_call (by decide) 3 (funcOK_write regWriteProtect 0x00) (zeroFunc_write _ _)
    (fun _ => zeroTail_ret 3 ())

theorem zeroFrag_setLed_2 (enable : Bool) : ZeroFrag 3 (setLed_2 enable) :=
  zeroFrag_call (by decide) 2 (funcOK_write regLedEnable _) (zeroFunc_write _ _)
    (fun _ => (zeroFrag_tail zeroFrag_setLed_3))

theorem zeroFrag_setLed_1 (enable : Bool) : ZeroFrag 3 (setLed_1 enable) :=
  zeroFrag_call (by decide) 1 (funcOK_write regWriteProtect 0x14) (zeroFunc_write _ _)
    (fun _ => (zeroFrag_tail (zeroFrag_setLed_2 enable)))

theorem zeroFunc_setLed (enable : Bool) : ZeroFunc 3 (setLed enable) :=
  zeroFunc_begin fun _ =>
    zeroFrag_pick (zeroFrag_setLed_1 enable) <| zeroFrag_pick (zeroFrag_setLed_1 enable) <|
    zeroFrag_pick (zeroFrag_setLed_2 enable) <| zeroFrag_pick zeroFrag_setLed_3 <|
    zeroFrag_wrong 3

theorem zeroFrag_getByte_1 (reg : Nat) : ZeroFrag 3 (getByte_1 reg) := by
  apply zeroFrag_call (by decide) 1 (funcOK_read reg 0 1) (zeroFunc_read _ _ _)
  intro _ s hs
  exact zeroTail_ret 3 (s.dev.scratch 0) s hs

theorem zeroFunc_getProductId : ZeroFunc 3 getProductId :=
  zeroFunc_begin fun _ =>
    zeroFrag_pick (zeroFrag_getByte_1 _) <| zeroFrag_pick (zeroFrag_getByte_1 _) <|
    zeroFrag_wrong 3

theorem zeroFunc_getRevision : ZeroFunc 3 getRevision :=
  zeroFunc_begin fun _ =>
    zeroFrag_pick (zeroFrag_getByte_1 _) <| zeroFrag_pick (zeroFrag_getByte_1 _) <|
    zeroFrag_wrong 3

theorem zeroFrag_getMotionData_1 : ZeroFrag 3 getMotionData_1 := by
  apply zeroFrag_call (by decide) 1 (funcOK_read regMotionBurst 0 12) (zeroFunc_read _ _ _)
  intro _ s hs
  exact zeroTail_ret 3 _ s hs

theorem zeroFunc_getMotionData : ZeroFunc 3 getMotionData :=
  zeroFunc_begin fun _ =>
    zeroFrag_pick zeroFrag_getMotionData_1 <| zeroFrag_pick zeroFrag_getMotionData_1 <|
    zeroFrag_wrong 3

end Paa5100je

end Modm

namespace Modm

/-! ## The marker of level 3 during the sensor initialisation -/

theorem level3Any_weaken {α : Type} {g : RF α} (h : Level3Any g) : Level3 g :=
  fun s hs _ => h s hs

theorem level3_ret {α : Type} (v : α) : Level3 (rfReturn v) := by
  intro s hs h3
  simp [rfReturn, popRf, setRf, hs, h3]

theorem level3_wrong {α : Type} : Level3 (rfWrongState : RF α) := by
  intro s hs h3
  simp [rfWrongState]

theorem level3_ite {α : Type} (c : St → Prop) [DecidablePred c] {g1 g2 : RF α}
    (h1 : Level3 g1) (h2 : Level3 g2) : Level3 (fun s => if c s then g1 s else g2 s) := by
  intro s hs
  by_cases h : c s
  · simp only [h, if_true]; exact h1 s hs
  · simp only [h, if_false]; exact h2 s hs

theorem level3_pick {α : Type} {c : Prop} [Decidable c] {g1 g2 : RF α}
    (h1 : Level3 g1) (h2 : Level3 g2) : Level3 (if c then g1 else g2) := by
  split
  · exact h1
  · exact h2

theorem level3_prim {α : Type} {p : St → St} {g : RF α} (hp : PrimOK p) (hg : Level3 g) :
    Level3 (fun s => g (p s)) := by
  intro s hs h3
  obtain ⟨a1, _, _, a4⟩ := hp s
  exact hg (p s) (by rw [a1]; exact hs) (by rw [a4]; exact h3)

theorem level3_wait {α : Type} (k : Nat) {cond : St → Bool × St} {rest : RF α}
    (hc : PrimOK (fun s => (cond s).2)) (hr : Level3 rest) :
    Level3 (rfWaitUntil k cond rest) := by
  intro s hs h3
  obtain ⟨a1, _, _, a4⟩ := hc (setRf k s)
  simp only at a1 a4
  have b1 : (setRf k s).dev.rfLevel = 1 := by simp [setRf, hs]
  have b3 : (setRf k s).dev.rfState 3 = 0 := by simp [setRf, hs, h3]
  unfold rfWaitUntil
  simp only
  split
  · exact hr _ (by rw [a1]; exact b1) (by rw [a4]; exact b3)
  · constructor
    · intro _ _
      simp only [popRf, a4]
      exact b3
    · intro v hv
      simp at hv

/-- A call that uses at most the levels 1 and 2. -/
theorem level3_call {α β : Type} (k : Nat) {callee : RF β} {rest : β → RF α}
    (hf : FuncOK 2 callee) (hr : ∀ v, Level3 (rest v)) : Level3 (rfCall k callee rest) := by
  intro s hs h3
  obtain ⟨a1, _, _, a4, _⟩ := hf (setRf k s)
  have b1 : (setRf k s).dev.rfLevel = 1 := by simp [setRf, hs]
  have b3 : (setRf k s).dev.rfState 3 = 0 := by simp [setRf, hs, h3]
  have c3 : (callee (setRf k s)).2.dev.rfState 3 = 0 := by
    rw [a4 3 (by omega)]; exact b3
  unfold rfCall
  simp only
  split
  · rename_i v hv
    exact hr v _ (by rw [a1]; exact b1) c3
  · exact ⟨fun _ _ => by simpa [popRf] using c3, fun v hv => by simp at hv⟩
  · exact ⟨fun h => by simp at h, fun v hv => by simp at hv⟩
  · exact ⟨fun h => by simp at h, fun v hv => by simp at hv⟩

/-- The call of `writeMagic` as step 4: while it is suspended the marker of level
0 is 4, and when it completes it has reset the markers of the levels 1 to 3. -/
theorem level3Any_call4 {α β : Type} {callee : RF β} {rest : β → RF α}
    (hf : FuncOK 3 callee) (hz : ZeroFunc 3 callee) (hr : ∀ v, Level3 (rest v)) :
    Level3Any (rfCall 4 callee rest) := by
  intro s hs
  obtain ⟨a1, _, _, a4, _⟩ := hf (setRf 4 s)
  have b1 : (setRf 4 s).dev.rfLevel = 1 := by simp [setRf, hs]
  have b0 : (setRf 4 s).dev.rfState 0 = 4 := by simp [setRf, hs]
  have c0 : (callee (setRf 4 s)).2.dev.rfState 0 = 4 := by
    rw [a4 0 (by omega)]; exact b0
  unfold rfCall
  simp only
  split
  · rename_i v hv
    have := hz (setRf 4 s) v hv 3 (by omega) (by omega)
    exact hr v _ (by rw [a1]; exact b1) this
  · refine ⟨fun _ h => ?_, fun v hv => by simp at hv⟩
    exact absurd (by simpa [popRf] using c0) h
  · exact ⟨fun h => by simp at h, fun v hv => by simp at hv⟩
  · exact ⟨fun h => by simp at h, fun v hv => by simp at hv⟩

namespace Paa5100je

theorem level3_initializeSensor_check : Level3 initializeSensor_check :=
  level3_ite (fun s => s.dev.scratch 0 ≠ ExpectedProductID) (level3_ret false)
    (level3_ite (fun s => s.dev.scratch 0 ≠ 255 - s.dev.scratch 1 % 256)
      (level3_ret false) (level3_ret true))

theorem level3_initializeSensor_6 : Level3 initializeSensor_6 :=
  level3_call 6 (funcOK_read _ _ _) (fun _ => level3_initializeSensor_check)

theorem level3_initializeSensor_5 : Level3 initializeSensor_5 :=
  level3_call 5 (funcOK_read _ _ _) (fun _ => level3_initializeSensor_6)

theorem level3Any_initializeSensor_4 : Level3Any initializeSensor_4 :=
  level3Any_call4 funcOK_writeMagic zeroFunc_writeMagic (fun _ => level3_initializeSensor_5)

theorem level3_initializeSensor_3 : Level3 initializeSensor_3 :=
  level3_wait 3 primOK_waitExecute (level3Any_weaken level3Any_initializeSensor_4)

theorem level3_initializeSensor_2 : Level3 initializeSensor_2 :=
  level3_call 2 (funcOK_write _ _)
    (fun _ => level3_prim (primOK_waitRestart 20) level3_initializeSensor_3)

theorem level3_initializeSensor_1 : Level3 initializeSensor_1 :=
  level3_wait 1 primOK_waitExecute level3_initializeSensor_2

/-- One poll of the sensor initialisation at level 0: if the marker of level 3 is
at not started unless the call is suspended at step 4, the same holds after a
poll that reports not complete, and the marker is at not started after a poll
that reports completion. -/
theorem initializeSensor_level3 (s : St) (h0 : s.dev.rfLevel = 0)
    (h3 : s.dev.rfState 0 ≠ 4 → s.dev.rfState 3 = 0) :
    ((initializeSensor s).1 = Res.running → (initializeSensor s).2.dev.rfState 0 ≠ 4 →
      (initializeSensor s).2.dev.rfState 3 = 0) ∧
    (∀ v, (initializeSensor s).1 = Res.done v → (initializeSensor s).2.dev.rfState 3 = 0) := by
  unfold initializeSensor rfBegin
  split
  · by_cases h4 : s.dev.rfState 0 = 4
    · have e : s.dev.rfState s.dev.rfLevel = 4 := by rw [h0]; exact h4
      simp only [e]
      exact level3Any_initializeSensor_4 _ (by simp [h0])
    · have h30 := h3 h4
      have hall : Level3 (fun s1 =>
          (if s.dev.rfState s.dev.rfLevel = 0 then
            fun s => initializeSensor_1 (waitRestart 50 s)
          else if s.dev.rfState s.dev.rfLevel = 1 then initializeSensor_1
          else if s.dev.rfState s.dev.rfLevel = 2 then initializeSensor_2
          else if s.dev.rfState s.dev.rfLevel = 3 then initializeSensor_3
          else if s.dev.rfState s.dev.rfLevel = 4 then initializeSensor_4
          else if s.dev.rfState s.dev.rfLevel = 5 then initializeSensor_5
          else if s.dev.rfState s.dev.rfLevel = 6 then initializeSensor_6
          else rfWrongState) s1) :=
        level3_pick (level3_prim (primOK_waitRestart 50) level3_initializeSensor_1) <|
        level3_pick level3_initializeSensor_1 <| level3_pick level3_initializeSensor_2 <|
        level3_pick level3_initializeSensor_3 <|
        level3_pick (level3Any_weaken level3Any_initializeSensor_4) <|
        level3_pick level3_initializeSensor_5 <| level3_pick level3_initializeSensor_6 <|
        level3_wrong
      exact hall _ (by simp [h0]) (by simpa using h30)
  · exact ⟨fun h => by simp at h, fun v hv => by simp at hv⟩

end Paa5100je

end Modm

namespace Modm

/-! ## Invariants of a run -/

theorem polling_frame {α : Type} {op : RF α} {d : Nat} (hf : FuncOK d op) {s : St}
    (h : Polling op s) : s.dev.rfLevel = 0 ∧ ∀ j, d ≤ j → s.dev.rfState j = 0 := by
  induction h with
  | start s hq => exact ⟨hq.1, fun j _ => hq.2 j⟩
  | again s s1 _ _ _ hdev _ _ ih =>
    obtain ⟨a1, _, _, a4, _⟩ := hf s
    rw [hdev]
    refine ⟨a1.trans ih.1, fun j hj => ?_⟩
    rw [a4 j (by omega)]
    exact ih.2 j hj

theorem polling_done_quiescent {α : Type} {op : RF α} {d : Nat} (hf : FuncOK d op)
    (hz : ZeroFunc d op) {s : St} (h : Polling op s) (v : α) (hv : (op s).1 = Res.done v) :
    Quiescent (op s).2.dev := by
  obtain ⟨h0, hhi⟩ := polling_frame hf h
  obtain ⟨a1, _, _, a4, _⟩ := hf s
  refine ⟨a1.trans h0, fun j => ?_⟩
  by_cases hj : j < d
  · exact hz s v hv j (by omega) (by omega)
  · rw [a4 j (by omega)]
    exact hhi j (by omega)

namespace Paa5100je

theorem polling_initializeSensor_level3 {s : St} (h : Polling initializeSensor s) :
    s.dev.rfState 0 ≠ 4 → s.dev.rfState 3 = 0 := by
  induction h with
  | start s hq => exact fun _ => hq.2 3
  | again s s1 _ hp hrun hdev _ _ ih =>
    rw [hdev]
    exact (initializeSensor_level3 s (polling_frame funcOK_initializeSensor hp).1 ih).1 hrun

theorem polling_initializeSensor_done {s : St} (h : Polling initializeSensor s) (v : Bool)
    (hv : (initializeSensor s).1 = Res.done v) : Quiescent (initializeSensor s).2.dev := by
  obtain ⟨h0, hhi⟩ := polling_frame funcOK_initializeSensor h
  obtain ⟨a1, _, _, a4, _⟩ := funcOK_initializeSensor s
  have h3 := (initializeSensor_level3 s h0 (polling_initializeSensor_level3 h)).2 v hv
  refine ⟨a1.trans h0, fun j => ?_⟩
  by_cases hj : j < 3
  · exact zeroFunc_initializeSensor s v hv j (by omega) (by omega)
  · by_cases hj3 : j = 3
    · rw [hj3]; exact h3
    · rw [a4 j (by omega)]
      exact hhi j (by omega)

end Paa5100je

end Modm

namespace Modm

/-! ## Rules for the token after completion -/

theorem frees_keeps {α : Type} {g : RF α} (h : Frees g) : KeepsFree g :=
  fun s _ v hv => h s v hv

theorem keepsFree_ret {α : Type} (v : α) : KeepsFree (rfReturn v) := by
  intro s hs w _
  simpa [rfReturn, popRf, setRf] using hs

theorem frees_wrong {α : Type} : Frees (rfWrongState : RF α) := by
  intro s v hv
  simp [rfWrongState] at hv

theorem frees_release {α : Type} {g : RF α} (h : KeepsFree g) :
    Frees (fun s => g (releaseMaster s)) :=
  fun s v hv => h (releaseMaster s) (by simp [releaseMaster, St.log]) v hv

theorem frees_prim {α : Type} (p : St → St) {g : RF α} (h : Frees g) :
    Frees (fun s => g (p s)) :=
  fun s v hv => h (p s) v hv

theorem frees_ite {α : Type} (c : St → Prop) [DecidablePred c] {g1 g2 : RF α}
    (h1 : Frees g1) (h2 : Frees g2) : Frees (fun s => if c s then g1 s else g2 s) := by
  intro s
  by_cases h : c s
  · simp only [h, if_true]; exact h1 s
  · simp only [h, if_false]; exact h2 s

theorem keepsFree_ite {α : Type} (c : St → Prop) [DecidablePred c] {g1 g2 : RF α}
    (h1 : KeepsFree g1) (h2 : KeepsFree g2) :
    KeepsFree (fun s => if c s then g1 s else g2 s) := by
  intro s
  by_cases h : c s
  · simp only [h, if_true]; exact h1 s
  · simp only [h, if_false]; exact h2 s

theorem frees_pick {α : Type} {c : Prop} [Decidable c] {g1 g2 : RF α}
    (h1 : Frees g1) (h2 : Frees g2) : Frees (if c then g1 else g2) := by
  split
  · exact h1
  · exact h2

theorem frees_wait {α : Type} (k : Nat) (cond : St → Bool × St) {rest : RF α}
    (hr : Frees rest) : Frees (rfWaitUntil k cond rest) := by
  intro s v hv
  unfold rfWaitUntil at hv ⊢
  simp only at hv ⊢
  split at hv
  · rename_i hc
    rw [if_pos hc]
    exact hr _ v hv
  · simp at hv

theorem frees_callAny {α β : Type} (k : Nat) (callee : RF β) {rest : β → RF α}
    (hr : ∀ v, Frees (rest v)) : Frees (rfCall k callee rest) := by
  intro s v hv
  unfold rfCall at hv ⊢
  simp only at hv ⊢
  split at hv
  · rename_i w hw
    exact hr w _ v hv
  · simp at hv
  · simp at hv
  · simp at hv

theorem frees_call {α β : Type} (k : Nat) {callee : RF β} {rest : β → RF α}
    (hc : Frees callee) (hr : ∀ v, KeepsFree (rest v)) : Frees (rfCall k callee rest) := by
  intro s v hv
  unfold rfCall at hv ⊢
  simp only at hv ⊢
  split at hv
  · rename_i w hw
    exact hr w _ (hc _ w hw) v hv
  · simp at hv
  · simp at hv
  · simp at hv

theorem frees_begin {α : Type} {body : Nat → RF α} (h : ∀ m, Frees (body m)) :
    Frees (rfBegin body) := by
  intro s v hv
  unfold rfBegin at hv ⊢
  split at hv
  · rename_i hlt
    rw [if_pos hlt]
    exact h _ _ v hv
  · simp at hv

namespace Paa5100je

/-! ### The driver's functions free the token -/

theorem frees_finish : Frees (fun s => rfReturn () (releaseMaster s)) :=
  frees_release (keepsFree_ret ())

theorem frees_read_csHigh : Frees read_csHigh :=
  frees_callAny 5 _ (fun _ => frees_finish)

theorem frees_read (reg dst len : Nat) : Frees (read reg dst len) :=
  have h5 := frees_read_csHigh
  have h4 : Frees (read_data dst len) := frees_callAny 4 _ (fun _ => h5)
  have h3 : ∀ r, Frees (read_addr r dst len) := fun _ => frees_callAny 3 _ (fun _ => h4)
  have h2 : ∀ r, Frees (read_csLow r dst len) := fun r => frees_callAny 2 _ (fun _ => h3 r)
  have h1 : Frees (read_acquire reg dst len) := frees_wait 1 _ (h2 _)
  frees_begin fun _ =>
    frees_pick h1 <| frees_pick h1 <| frees_pick (h2 reg) <| frees_pick (h3 reg) <|
    frees_pick h4 <| frees_pick h5 <| frees_wrong

theorem frees_write (reg val : Nat) : Frees (write reg val) :=
  have h5 : Frees write_csHigh := frees_callAny 5 _ (fun _ => frees_finish)
  have h4 : Frees (write_data val) := frees_callAny 4 _ (fun _ => h5)
  have h3 : ∀ r, Frees (write_addr r val) := fun _ => frees_callAny 3 _ (fun _ => h4)
  have h2 : ∀ r, Frees (write_csLow r val) := fun r => frees_callAny 2 _ (fun _ => h3 r)
  have h1 : Frees (write_acquire reg val) := frees_wait 1 _ (h2 _)
  frees_begin fun _ =>
    frees_pick h1 <| frees_pick h1 <| frees_pick (h2 reg) <| frees_pick (h3 reg) <|
    frees_pick h4 <| frees_pick h5 <| frees_wrong

theorem frees_writeRaw_body (Val : List Nat) (label i : Nat) {next : RF Unit}
    (h : Frees next) : Frees (writeRaw_body Val label i next) :=
  have h4 : Frees (writeRaw_csHigh next) := frees_callAny 4 _ (fun _ => h)
  have h3 : Frees (writeRaw_xfer Val i next) := frees_callAny 3 _ (fun _ => h4)
  have h2 : Frees (writeRaw_csLow Val i next) := frees_callAny 2 _ (fun _ => h3)
  frees_pick h2 <| frees_pick h3 h4

theorem frees_writeRaw_loop (Val : List Nat) (fuel label i : Nat) :
    Frees (writeRaw_loop Val fuel label i) := by
  induction fuel generalizing label i with
  | zero => exact frees_finish
  | succ fuel ih =>
    exact frees_writeRaw_body Val label i
      (frees_ite (fun _ => (i + 2) % 65536 < Val.length) (ih 2 _) frees_finish)

theorem frees_writeRaw (Val : List Nat) : Frees (writeRaw Val) :=
  have h1 : Frees (writeRaw_acquire Val) :=
    frees_wait 1 _ (frees_ite (fun _ => 0 < Val.length) (frees_writeRaw_loop Val _ 2 0)
      frees_finish)
  frees_begin fun m =>
    frees_pick h1 <| frees_pick h1 <|
    frees_pick (fun s v hv => frees_writeRaw_loop Val _ m _ s.advance v hv) <| frees_wrong

theorem frees_writeMagic : Frees writeMagic :=
  have h15 : Frees writeMagic_15 := frees_call 15 (frees_writeRaw _) (fun _ => keepsFree_ret ())
  have h14 : Frees writeMagic_14 := frees_wait 14 _ h15
  have h13 : Frees writeMagic_13 := frees_callAny 13 _ (fun _ => frees_prim _ h14)
  have h12 : Frees writeMagic_12 := frees_wait 12 _ h13
  have h11 : Frees writeMagic_11 := frees_callAny 11 _ (fun _ => frees_prim _ h12)
  have h10 : Frees writeMagic_10 := fun s => frees_callAny 10 _ (fun _ => h11) s
  have h9 : Frees writeMagic_9 := fun s => frees_callAny 9 _ (fun _ => h10) s
  have h8 : Frees writeMagic_8 := frees_callAny 8 _ (fun _ => h9)
  have h7 : Frees writeMagic_7 := frees_callAny 7 _ (fun _ => frees_prim _ h8)
  have h6 : Frees writeMagic_6 := frees_callAny 6 _ (fun _ => h7)
  have h5 : Frees writeMagic_5 :=
    frees_callAny 5 _ (fun _ => frees_ite (fun s => s.dev.scratch 0 = 0) h6 h11)
  have h4 : Frees writeMagic_4 := frees_callAny 4 _ (fun _ => h5)
  have h3 : Frees writeMagic_3 := fun s => frees_callAny 3 _ (fun _ => h4) s
  have h2 : Frees writeMagic_2 := frees_callAny 2 _ (fun _ => frees_prim _ h3)
  have h1 : Frees writeMagic_1 := frees_callAny 1 _ (fun _ => h2)
  frees_begin fun _ =>
    frees_pick h1 <| frees_pick h1 <| frees_pick h2 <| frees_pick h3 <| frees_pick h4 <|
    frees_pick h5 <| frees_pick h6 <| frees_pick h7 <| frees_pick h8 <| frees_pick h9 <|
    frees_pick h10 <| frees_pick h11 <| frees_pick h12 <| frees_pick h13 <|
    frees_pick h14 <| frees_pick h15 <| frees_wrong

theorem keepsFree_initializeSensor_check : KeepsFree initializeSensor_check :=
  keepsFree_ite (fun s => s.dev.scratch 0 ≠ ExpectedProductID) (keepsFree_ret false)
    (keepsFree_ite (fun s => s.dev.scratch 0 ≠ 255 - s.dev.scratch 1 % 256)
      (keepsFree_ret false) (keepsFree_ret true))

theorem frees_initializeSensor : Frees initializeSensor :=
  have h6 : Frees initializeSensor_6 :=
    frees_call 6 (frees_read _ _ _) (fun _ => keepsFree_initializeSensor_check)
  have h5 : Frees initializeSensor_5 := frees_callAny 5 _ (fun _ => h6)
  have h4 : Frees initializeSensor_4 := frees_callAny 4 _ (fun _ => h5)
  have h3 : Frees initializeSensor_3 := frees_wait 3 _ h4
  have h2 : Frees initializeSensor_2 := frees_callAny 2 _ (fun _ => frees_prim _ h3)
  have h1 : Frees initializeSensor_1 := frees_wait 1 _ h2
  frees_begin fun _ =>
    frees_pick (frees_prim _ h1) <| frees_pick h1 <| frees_pick h2 <| frees_pick h3 <|
    frees_pick h4 <| frees_pick h5 <| frees_pick h6 <| frees_wrong

end Paa5100je

end Modm

namespace Modm

/-! ## Rules for the log of bus activity -/

theorem emitsPrim_silent {p : St → St}
    (h : ∀ s, (p s).bus.trace = s.bus.trace ∧ (p s).bus.token = s.bus.token) : EmitsPrim p :=
  fun s => ⟨[], by simp, by simp [(h s).1], (h s).2⟩

theorem emitsPrim_csRestart (d : Nat) : EmitsPrim (csRestart d) :=
  emitsPrim_silent (by intro s; simp [csRestart, St.advance])

theorem emitsPrim_csExecute : EmitsPrim (fun s => (csExecute s).2) :=
  emitsPrim_silent (by intro s; simp [csExecute, St.advance])

theorem emitsPrim_csSetOutput (v : Bool) : EmitsPrim (csSetOutput v) :=
  fun s => ⟨[Event.chipSelect s.dev.ctx v], by simp [IsInner], by simp [csSetOutput, St.log],
    by simp [csSetOutput, St.log]⟩

theorem emitsPrim_comp {p q : St → St} (hp : EmitsPrim p) (hq : EmitsPrim q)
    (hc : ∀ s, (p s).dev.ctx = s.dev.ctx) : EmitsPrim (fun s => q (p s)) := by
  intro s
  obtain ⟨b1, i1, t1, k1⟩ := hp s
  obtain ⟨b2, i2, t2, k2⟩ := hq (p s)
  rw [hc] at i2
  refine ⟨b1 ++ b2, ?_, by rw [t2, t1, List.append_assoc], k2.trans k1⟩
  intro e he
  rcases List.mem_append.mp he with h | h
  · exact i1 e h
  · exact i2 e h

theorem emits_ret {α : Type} (v : α) : Emits (rfReturn v) :=
  fun s => ⟨[], by simp, by simp [rfReturn, popRf, setRf], by simp [rfReturn, popRf, setRf]⟩

theorem emits_wrong {α : Type} : Emits (rfWrongState : RF α) :=
  fun s => ⟨[], by simp, by simp [rfWrongState, popRf], by simp [rfWrongState, popRf]⟩

theorem emits_prim {α : Type} {p : St → St} {g : RF α} (hp : EmitsPrim p)
    (hc : ∀ s, (p s).dev.ctx = s.dev.ctx) (hg : Emits g) : Emits (fun s => g (p s)) := by
  intro s
  obtain ⟨b1, i1, t1, k1⟩ := hp s
  obtain ⟨b2, i2, t2, k2⟩ := hg (p s)
  rw [hc] at i2
  refine ⟨b1 ++ b2, ?_, by rw [t2, t1, List.append_assoc], k2.trans k1⟩
  intro e he
  rcases List.mem_append.mp he with h | h
  · exact i1 e h
  · exact i2 e h

theorem emits_ite {α : Type} (c : St → Prop) [DecidablePred c] {g1 g2 : RF α}
    (h1 : Emits g1) (h2 : Emits g2) : Emits (fun s => if c s then g1 s else g2 s) := by
  intro s
  by_cases h : c s
  · simp only [h, if_true]; exact h1 s
  · simp only [h, if_false]; exact h2 s

theorem emits_pick {α : Type} {c : Prop} [Decidable c] {g1 g2 : RF α}
    (h1 : Emits g1) (h2 : Emits g2) : Emits (if c then g1 else g2) := by
  split
  · exact h1
  · exact h2

theorem emits_wait {α : Type} (k : Nat) {cond : St → Bool × St} {rest : RF α}
    (hc : EmitsPrim (fun s => (cond s).2)) (hx : ∀ s, (cond s).2.dev.ctx = s.dev.ctx)
    (hr : Emits rest) : Emits (rfWaitUntil k cond rest) := by
  intro s
  obtain ⟨b1, i1, t1, k1⟩ := hc (setRf k s)
  have c1 : (cond (setRf k s)).2.dev.ctx = s.dev.ctx := by rw [hx]; simp [setRf]
  have e1 : (setRf k s).dev.ctx = s.dev.ctx := by simp [setRf]
  have e2 : (setRf k s).bus = s.bus := by simp [setRf]
  rw [e1] at i1
  rw [e2] at t1 k1
  simp only at t1 k1
  unfold rfWaitUntil
  simp only
  split
  · obtain ⟨b2, i2, t2, k2⟩ := hr (cond (setRf k s)).2
    rw [c1] at i2
    refine ⟨b1 ++ b2, ?_, by rw [t2, t1, List.append_assoc], k2.trans k1⟩
    intro e he
    rcases List.mem_append.mp he with h | h
    · exact i1 e h
    · exact i2 e h
  · exact ⟨b1, i1, by simpa [popRf] using t1, by simpa [popRf] using k1⟩

theorem emits_begin {α : Type} {body : Nat → RF α} (h : ∀ m, Emits (body m)) :
    Emits (rfBegin body) := by
  intro s
  unfold rfBegin
  split
  · exact h (s.dev.rfState s.dev.rfLevel)
      { s with dev := { s.dev with rfLevel := s.dev.rfLevel + 1 } }
  · exact ⟨[], by simp, by simp, rfl⟩

theorem emits_spiTransfer (tx : List Nat) (dst n : Nat) : Emits (spiTransfer tx dst n) := by
  intro s
  unfold spiTransfer
  split
  · exact ⟨[Event.transfer s.dev.ctx tx n [] false], by simp [IsInner],
      by simp [St.log, St.advance], by simp [St.log, St.advance]⟩
  · exact ⟨[Event.transfer s.dev.ctx tx n (s.advance.peekBytes n) true], by simp [IsInner],
      by simp [St.log, St.advance, St.advanceBy], by simp [St.log, St.advance, St.advanceBy]⟩

namespace Paa5100je

theorem emits_setChipSelect (value : Bool) : Emits (setChipSelect value) :=
  have h2 : Emits setChipSelect_wait2 :=
    emits_wait 2 emitsPrim_csExecute (fun s => (primOK_csExecute s).2.2.1) (emits_ret ())
  have h1 : Emits setChipSelect_wait1 :=
    emits_wait 1 emitsPrim_csExecute (fun s => (primOK_csExecute s).2.2.1)
      (emits_prim (emitsPrim_comp (emitsPrim_csSetOutput true) (emitsPrim_csRestart 1)
          (fun s => (primOK_csSetOutput true s).2.2.1))
        (fun s => ((primOK_comp (primOK_csSetOutput true) (primOK_csRestart 1)) s).2.2.1) h2)
  emits_begin fun _ =>
    emits_pick
      (emits_ite (fun _ => (!value) = true)
        (emits_prim (emitsPrim_csSetOutput false) (fun s => (primOK_csSetOutput false s).2.2.1)
          (emits_ret ()))
        (emits_prim (emitsPrim_csRestart 1) (fun s => (primOK_csRestart 1 s).2.2.1) h1)) <|
    emits_pick h1 <| emits_pick h2 <| emits_wrong

end Paa5100je

end Modm

namespace Modm

theorem innerFrag_finish : InnerFrag (fun s => rfReturn () (releaseMaster s)) := by
  intro s hs
  refine ⟨[], by simp, ?_, ?_, ?_⟩
  · intro h
    exact absurd rfl (h ())
  · intro h
    simp [rfReturn] at h
  · intro v _
    simp [rfReturn, releaseMaster, popRf, setRf, St.log]

theorem innerFrag_wrong : InnerFrag rfWrongState := by
  intro s hs
  refine ⟨[], by simp, ?_, ?_, ?_⟩
  · intro _
    simp [rfWrongState, popRf]
  · intro h
    simp [rfWrongState] at h
  · intro v h
    simp [rfWrongState] at h

theorem innerFrag_ite (c : St → Prop) [DecidablePred c] {g1 g2 : RF Unit}
    (h1 : InnerFrag g1) (h2 : InnerFrag g2) :
    InnerFrag (fun s => if c s then g1 s else g2 s) := by
  intro s hs
  by_cases h : c s
  · simp only [h, if_true]; exact h1 s hs
  · simp only [h, if_false]; exact h2 s hs

theorem innerFrag_pick {c : Prop} [Decidable c] {g1 g2 : RF Unit}
    (h1 : InnerFrag g1) (h2 : InnerFrag g2) : InnerFrag (if c then g1 else g2) := by
  split
  · exact h1
  · exact h2

theorem innerFrag_call {β : Type} {e : Nat} (k : Nat) (hk : 2 ≤ k) {callee : RF β}
    {rest : β → RF Unit} (he : Emits callee) (hf : FuncOK e callee)
    (hr : ∀ v, InnerFrag (rest v)) : InnerFrag (rfCall k callee rest) := by
  intro s hs
  obtain ⟨b1, i1, t1, k1⟩ := he (setRf k s)
  obtain ⟨a1, _, a3, a4, _⟩ := hf (setRf k s)
  have e1 : (setRf k s).dev.ctx = s.dev.ctx := by simp [setRf]
  have e2 : (setRf k s).bus = s.bus := by simp [setRf]
  have e3 : (setRf k s).dev.rfLevel = s.dev.rfLevel := by simp [setRf]
  have e4 : (setRf k s).dev.rfState (s.dev.rfLevel - 1) = k := by simp [setRf]
  rw [e1] at i1 a3
  rw [e2] at t1 k1
  rw [e3] at a1 a4
  have m1 : (callee (setRf k s)).2.dev.rfState (s.dev.rfLevel - 1) = k := by
    rw [a4 _ (by omega)]; exact e4
  unfold rfCall
  simp only
  split
  · rename_i w hw
    obtain ⟨b2, i2, n2, r2, d2⟩ := hr w (callee (setRf k s)).2 (by omega)
    rw [a3] at i2 d2
    rw [a1] at r2 d2
    rw [t1, k1] at n2
    rw [t1] at d2
    refine ⟨b1 ++ b2, ?_, ?_, r2, ?_⟩
    · intro e he
      rcases List.mem_append.mp he with h | h
      · exact i1 e h
      · exact i2 e h
    · intro hnd
      have := n2 hnd
      simpa [List.append_assoc] using this
    · intro v hv
      have := d2 v hv
      simpa [List.append_assoc] using this
  · refine ⟨b1, i1, fun _ => ⟨by simpa [popRf] using t1, by simpa [popRf] using k1⟩, ?_, ?_⟩
    · intro _
      simp only [popRf]
      omega
    · intro v hv
      simp at hv
  · refine ⟨b1, i1, fun _ => ⟨by simpa [popRf] using t1, by simpa [popRf] using k1⟩, ?_, ?_⟩
    · intro h
      simp at h
    · intro v hv
      simp at hv
  · refine ⟨b1, i1, fun _ => ⟨by simpa [popRf] using t1, by simpa [popRf] using k1⟩, ?_, ?_⟩
    · intro h
      simp at h
    · intro v hv
      simp at hv

/-- A function that waits for the token as step 1 and whose later steps form the
critical section is a transaction. -/
theorem transaction_of (first : RF Unit) (inner : Nat → RF Unit) (hfirst : InnerFrag first)
    (hinner : ∀ m, InnerFrag (inner m)) :
    Transaction (rfBegin fun marker =>
      if marker = 0 then rfWaitUntil 1 acquireMaster first
      else if marker = 1 then rfWaitUntil 1 acquireMaster first
      else inner marker) := by
  intro s
  unfold rfBegin
  split
  swap
  · rename_i hlev
    exact ⟨[], by simp, fun _ => Or.inl ⟨by omega, rfl⟩, fun v hv => by simp at hv⟩
  beta_reduce
  generalize hs1 : ({ s with dev := { s.dev with rfLevel := s.dev.rfLevel + 1 } } : St) = s1
  have l1 : s1.dev.rfLevel = s.dev.rfLevel + 1 := by rw [← hs1]
  have c1 : s1.dev.ctx = s.dev.ctx := by rw [← hs1]
  have u1 : s1.bus = s.bus := by rw [← hs1]
  by_cases hm : s.dev.rfState s.dev.rfLevel ≤ 1
  · have hw : (if s.dev.rfState s.dev.rfLevel = 0 then rfWaitUntil 1 acquireMaster first
        else if s.dev.rfState s.dev.rfLevel = 1 then rfWaitUntil 1 acquireMaster first
        else inner (s.dev.rfState s.dev.rfLevel)) = rfWaitUntil 1 acquireMaster first := by
      by_cases h0 : s.dev.rfState s.dev.rfLevel = 0
      · rw [if_pos h0]
      · rw [if_neg h0, if_pos (by omega)]
    rw [hw]
    unfold rfWaitUntil acquireMaster
    simp only
    have e2 : (setRf 1 s1).bus = s.bus := by simp [setRf, u1]
    have e3 : (setRf 1 s1).dev.ctx = s.dev.ctx := by simp [setRf, c1]
    by_cases ht : s.bus.token = none
    · have ht' : (setRf 1 s1).bus.token = none := by rw [e2]; exact ht
      simp only [ht', if_true]
      generalize hs3 : (({ setRf 1 s1 with
        bus := { (setRf 1 s1).bus with token := some (setRf 1 s1).dev.ctx } } : St).log
          (Event.acquired (setRf 1 s1).dev.ctx)) = s3
      have l3 : s3.dev.rfLevel = s.dev.rfLevel + 1 := by
        rw [← hs3]; simp [St.log, setRf, l1]
      have c3 : s3.dev.ctx = s.dev.ctx := by rw [← hs3]; simp [St.log, setRf, c1]
      have t3 : s3.bus.trace = s.bus.trace ++ [Event.acquired s.dev.ctx] := by
        rw [← hs3]; simp [St.log, setRf, c1, u1]
      have k3 : s3.bus.token = some s.dev.ctx := by
        rw [← hs3]; simp [St.log, setRf, c1]
      obtain ⟨b, ib, nb, rb, db⟩ := hfirst s3 (by omega)
      rw [c3] at ib db
      rw [t3, k3] at nb
      rw [t3] at db
      rw [l3] at rb db
      simp only [Nat.add_sub_cancel] at rb db
      refine ⟨b, ib, ?_, ?_⟩
      · intro hnd
        right; right; left
        have := nb hnd
        exact ⟨hm, ht, by simpa [List.append_assoc] using this.1, this.2, rb⟩
      · intro v hv
        have := db v hv
        exact ⟨Or.inl ⟨hm, ht, by simpa [List.append_assoc] using this.1⟩, this.2.1, this.2.2⟩
    · have ht' : ¬ (setRf 1 s1).bus.token = none := by rw [e2]; exact ht
      simp only [ht', if_false]
      refine ⟨[], by simp, ?_, ?_⟩
      · intro _
        right; left
        refine ⟨hm, ht, rfl, by simp [popRf, setRf, u1], by simp [popRf, setRf, u1], ?_⟩
        simp [popRf, setRf, l1]
      · intro v hv
        simp at hv
  · have hw : (if s.dev.rfState s.dev.rfLevel = 0 then rfWaitUntil 1 acquireMaster first
        else if s.dev.rfState s.dev.rfLevel = 1 then rfWaitUntil 1 acquireMaster first
        else inner (s.dev.rfState s.dev.rfLevel)) = inner (s.dev.rfState s.dev.rfLevel) := by
      rw [if_neg (by omega), if_neg (by omega)]
    rw [hw]
    obtain ⟨b, ib, nb, rb, db⟩ := hinner (s.dev.rfState s.dev.rfLevel) s1 (by omega)
    rw [c1] at ib db
    rw [u1] at nb db
    rw [l1] at rb db
    simp only [Nat.add_sub_cancel] at rb db
    refine ⟨b, ib, ?_, ?_⟩
    · intro hnd
      right; right; right
      have := nb hnd
      exact ⟨by omega, this.1, this.2, rb⟩
    · intro v hv
      have := db v hv
      exact ⟨Or.inr ⟨by omega, this.1⟩, this.2.1, this.2.2⟩

end Modm

namespace Modm

namespace Paa5100je

/-! ### `read`, `write` and `writeRaw` are transactions -/

theorem innerFrag_read_csHigh : InnerFrag read_csHigh :=
  innerFrag_call 5 (by decide) (emits_setChipSelect true) (funcOK_setChipSelect true)
    (fun _ => innerFrag_finish)

theorem innerFrag_read_data (dst len : Nat) : InnerFrag (read_data dst len) :=
  innerFrag_call 4 (by decide) (emits_spiTransfer _ _ _) (funcOK_spiTransfer _ _ _)
    (fun _ => innerFrag_read_csHigh)

theorem innerFrag_read_addr (reg dst len : Nat) : InnerFrag (read_addr reg dst len) :=
  innerFrag_call 3 (by decide) (emits_spiTransfer _ _ _) (funcOK_spiTransfer _ _ _)
    (fun _ => innerFrag_read_data dst len)

theorem innerFrag_read_csLow (reg dst len : Nat) : InnerFrag (read_csLow reg dst len) :=
  innerFrag_call 2 (by decide) (emits_setChipSelect false) (funcOK_setChipSelect false)
    (fun _ => innerFrag_read_addr reg dst len)

theorem transaction_read (reg dst len : Nat) : Transaction (read reg dst len) :=
  transaction_of (read_csLow (reg &&& 0x7F) dst len)
    (fun marker =>
      if marker = 2 then read_csLow reg dst len
      else if marker = 3 then read_addr reg dst len
      else if marker = 4 then read_data dst len
      else if marker = 5 then read_csHigh
      else rfWrongState)
    (innerFrag_read_csLow _ dst len)
    (fun _ =>
      innerFrag_pick (innerFrag_read_csLow reg dst len) <|
      innerFrag_pick (innerFrag_read_addr reg dst len) <|
      innerFrag_pick (innerFrag_read_data dst len) <|
      innerFrag_pick innerFrag_read_csHigh innerFrag_wrong)

theorem innerFrag_write_csHigh : InnerFrag write_csHigh :=
  innerFrag_call 5 (by decide) (emits_setChipSelect true) (funcOK_setChipSelect true)
    (fun _ => innerFrag_finish)

theorem innerFrag_write_data (val : Nat) : InnerFrag (write_data val) :=
  innerFrag_call 4 (by decide) (emits_spiTransfer _ _ _) (funcOK_spiTransfer _ _ _)
    (fun _ => innerFrag_write_csHigh)

theorem innerFrag_write_addr (reg val : Nat) : InnerFrag (write_addr reg val) :=
  innerFrag_call 3 (by decide) (emits_spiTransfer _ _ _) (funcOK_spiTransfer _ _ _)
    (fun _ => innerFrag_write_data val)

theorem innerFrag_write_csLow (reg val : Nat) : InnerFrag (write_csLow reg val) :=
  innerFrag_call 2 (by decide) (emits_setChipSelect false) (funcOK_setChipSelect false)
    (fun _ => innerFrag_write_addr reg val)

theorem transaction_write (reg val : Nat) : Transaction (write reg val) :=
  transaction_of (write_csLow (reg ||| 0x80) val)
    (fun marker =>
      if marker = 2 then write_csLow reg val
      else if marker = 3 then write_addr reg val
      else if marker = 4 then write_data val
      else if marker = 5 then write_csHigh
      else rfWrongState)
    (innerFrag_write_csLow _ val)
    (fun _ =>
      innerFrag_pick (innerFrag_write_csLow reg val) <|
      innerFrag_pick (innerFrag_write_addr reg val) <|
      innerFrag_pick (innerFrag_write_data val) <|
      innerFrag_pick innerFrag_write_csHigh innerFrag_wrong)

theorem innerFrag_writeRaw_body (Val : List Nat) (label i : Nat) {next : RF Unit}
    (h : InnerFrag next) : InnerFrag (writeRaw_body Val label i next) :=
  have h4 : InnerFrag (writeRaw_csHigh next) :=
    innerFrag_call 4 (by decide) (emits_setChipSelect true) (funcOK_setChipSelect true)
      (fun _ => h)
  have h3 : InnerFrag (writeRaw_xfer Val i next) :=
    innerFrag_call 3 (by decide) (emits_spiTransfer _ _ _) (funcOK_spiTransfer _ _ _)
      (fun _ => h4)
  have h2 : InnerFrag (writeRaw_csLow Val i next) :=
    innerFrag_call 2 (by decide) (emits_setChipSelect false) (funcOK_setChipSelect false)
      (fun _ => h3)
  innerFrag_pick h2 <| innerFrag_pick h3 h4

theorem innerFrag_writeRaw_loop (Val : List Nat) (fuel label i : Nat) :
    InnerFrag (writeRaw_loop Val fuel label i) := by
  induction fuel generalizing label i with
  | zero => exact innerFrag_finish
  | succ fuel ih =>
    exact innerFrag_writeRaw_body Val label i
      (innerFrag_ite (fun _ => (i + 2) % 65536 < Val.length) (ih 2 _) innerFrag_finish)

theorem innerFrag_writeRaw_resume (Val : List Nat) (m : Nat) :
    InnerFrag (fun s => writeRaw_loop Val (Val.length + 1) m (s.peek % 65536) s.advance) := by
  intro s hs
  have h := innerFrag_writeRaw_loop Val (Val.length + 1) m (s.peek % 65536) s.advance
    (by simpa [St.advance] using hs)
  simpa [St.advance] using h

theorem transaction_writeRaw (Val : List Nat) : Transaction (writeRaw Val) :=
  transaction_of
    (fun s =>
      if 0 < Val.length then writeRaw_loop Val (Val.length + 1) 2 0 s else writeRaw_finish s)
    (fun marker =>
      if marker = 2 ∨ marker = 3 ∨ marker = 4 then
        fun s => writeRaw_loop Val (Val.length + 1) marker (s.peek % 65536) s.advance
      else rfWrongState)
    (innerFrag_ite (fun _ => 0 < Val.length) (innerFrag_writeRaw_loop Val _ 2 0)
      innerFrag_finish)
    (fun m => innerFrag_pick (innerFrag_writeRaw_resume Val m) innerFrag_wrong)

end Paa5100je

end Modm

namespace Modm

/-! ## Mutual exclusion of two instances -/

theorem request_transaction (r : Request) : Transaction r.op := by
  cases r with
  | read reg dst len => exact Paa5100je.transaction_read reg dst len
  | write reg val => exact Paa5100je.transaction_write reg val

theorem request_funcOK (r : Request) : FuncOK 2 r.op := by
  cases r with
  | read reg dst len => exact Paa5100je.funcOK_read reg dst len
  | write reg val => exact Paa5100je.funcOK_write reg val

/-- One poll by an instance `d` next to another instance `o`. -/
theorem exclusive_step (op : RF Unit) (ht : Transaction op) (hf : FuncOK 2 op)
    (d o : Dev) (bus : Bus) (hne : d.ctx ≠ o.ctx) (hl : d.rfLevel = 0)
    (hd : InSection d → bus.token = some d.ctx) (ho : InSection o → bus.token = some o.ctx) :
    (op { dev := d, bus := bus }).2.dev.ctx = d.ctx ∧
    (op { dev := d, bus := bus }).2.dev.rfLevel = 0 ∧
    (InSection (op { dev := d, bus := bus }).2.dev →
      (op { dev := d, bus := bus }).2.bus.token = some d.ctx) ∧
    (InSection o → (op { dev := d, bus := bus }).2.bus.token = some o.ctx) := by
  obtain ⟨a1, _, a3, _, _⟩ := hf { dev := d, bus := bus }
  obtain ⟨body, _, hn, hdn⟩ := ht { dev := d, bus := bus }
  simp only [hl] at hn hdn a1
  refine ⟨a3, a1, ?_⟩
  by_cases hdone : ∃ v, (op { dev := d, bus := bus }).1 = Res.done v
  · obtain ⟨v, hv⟩ := hdone
    obtain ⟨hsh, htok, hmark⟩ := hdn v hv
    constructor
    · intro hin
      unfold InSection at hin
      omega
    · intro hin
      have hot := ho hin
      rcases hsh with ⟨_, hnone, _⟩ | ⟨hm, _⟩
      · rw [hnone] at hot; cases hot
      · have := hd hm
        rw [this] at hot
        exact absurd (Option.some.inj hot) hne
  · have hnd : ∀ v, (op { dev := d, bus := bus }).1 ≠ Res.done v :=
      fun v hv => hdone ⟨v, hv⟩
    rcases hn hnd with ⟨_, hsame⟩ | ⟨_, _, _, _, htok, hmark⟩ | ⟨_, hnone, _, htok, _⟩ |
      ⟨hm, _, htok, _⟩
    · rw [hsame]
      exact ⟨hd, ho⟩
    · constructor
      · intro hin
        unfold InSection at hin
        omega
      · intro hin
        rw [htok]
        exact ho hin
    · constructor
      · intro _
        exact htok
      · intro hin
        have := ho hin
        rw [hnone] at this
        cases this
    · constructor
      · intro _
        rw [htok]
        exact hd hm
      · intro hin
        rw [htok]
        exact ho hin

theorem exclusive_pollA (r : Request) (p : Pair) (h : Exclusive p) :
    Exclusive (p.pollA r.op).2 := by
  obtain ⟨hne, hla, hlb, ha, hb⟩ := h
  obtain ⟨c1, c2, c3, c4⟩ := exclusive_step r.op (request_transaction r) (request_funcOK r) p.a p.b p.bus hne hla ha hb
  refine ⟨?_, c2, hlb, ?_, c4⟩
  · simp only [Pair.pollA]
    rw [c1]
    exact hne
  · intro hin
    simp only [Pair.pollA] at hin ⊢
    rw [c1]
    exact c3 hin

theorem exclusive_pollB (r : Request) (p : Pair) (h : Exclusive p) :
    Exclusive (p.pollB r.op).2 := by
  obtain ⟨hne, hla, hlb, ha, hb⟩ := h
  obtain ⟨c1, c2, c3, c4⟩ :=
    exclusive_step r.op (request_transaction r) (request_funcOK r) p.b p.a p.bus (Ne.symm hne) hlb hb ha
  refine ⟨?_, hla, c2, c4, ?_⟩
  · simp only [Pair.pollB]
    rw [c1]
    exact hne
  · intro hin
    simp only [Pair.pollB] at hin ⊢
    rw [c1]
    exact c3 hin

theorem exclusive_run (sched : List (Bool × Request)) (p : Pair) (h : Exclusive p) :
    Exclusive (p.run sched) := by
  induction sched generalizing p with
  | nil => exact h
  | cons x rest ih =>
    obtain ⟨who, r⟩ := x
    cases who with
    | true => exact ih _ (exclusive_pollA r p h)
    | false => exact ih _ (exclusive_pollB r p h)

/-- While `a` is inside its critical section, a poll of `b` waits. -/
theorem exclusive_waits (r : Request) (p : Pair) (h : Exclusive p) (hin : InSection p.a)
    (hlev : 0 < p.b.levels) :
    (p.pollB r.op).1 = Res.running ∧ (p.pollB r.op).2.bus.trace = p.bus.trace ∧
    (p.pollB r.op).2.bus.token = some p.a.ctx := by
  obtain ⟨hne, hla, hlb, ha, hb⟩ := h
  have htok := ha hin
  have hmb : p.b.rfState 0 ≤ 1 := by
    by_contra hcon
    have := hb (by unfold InSection; omega)
    rw [htok] at this
    exact hne (Option.some.inj this)
  obtain ⟨body, _, hn, hdn⟩ := (request_transaction r) { dev := p.b, bus := p.bus }
  simp only [hlb] at hn hdn
  have hnd : ∀ v, (r.op { dev := p.b, bus := p.bus }).1 ≠ Res.done v := by
    intro v hv
    rcases (hdn v hv).1 with ⟨_, hnone, _⟩ | ⟨hm, _⟩
    · rw [htok] at hnone; cases hnone
    · omega
  rcases hn hnd with ⟨hrej, _⟩ | ⟨_, _, hrun, htr, htk, _⟩ | ⟨_, hnone, _⟩ | ⟨hm, _⟩
  · omega
  · exact ⟨hrun, htr, by simp only [Pair.pollB]; rw [htk]; exact htok⟩
  · rw [htok] at hnone; cases hnone
  · omega

/-- When the token is free, a poll of `b` acquires it first of all. -/
theorem exclusive_acquires (r : Request) (p : Pair) (h : Exclusive p)
    (hfree : p.bus.token = none) (hlev : 0 < p.b.levels) :
    ∃ evs, (p.pollB r.op).2.bus.trace = p.bus.trace ++ Event.acquired p.b.ctx :: evs ∧
      ((p.pollB r.op).1 = Res.running →
        InSection (p.pollB r.op).2.b ∧ (p.pollB r.op).2.bus.token = some p.b.ctx) := by
  obtain ⟨hne, hla, hlb, ha, hb⟩ := h
  have hmb : p.b.rfState 0 ≤ 1 := by
    by_contra hcon
    have := hb (by unfold InSection; omega)
    rw [hfree] at this
    cases this
  obtain ⟨body, _, hn, hdn⟩ := (request_transaction r) { dev := p.b, bus := p.bus }
  simp only [hlb] at hn hdn
  by_cases hdone : ∃ v, (r.op { dev := p.b, bus := p.bus }).1 = Res.done v
  · obtain ⟨v, hv⟩ := hdone
    rcases (hdn v hv).1 with ⟨_, _, htr⟩ | ⟨hm, _⟩
    · refine ⟨body ++ [Event.released p.b.ctx], by simpa [Pair.pollB] using htr, ?_⟩
      intro hrun
      simp only [Pair.pollB] at hrun
      rw [hv] at hrun
      cases hrun
    · omega
  · have hnd : ∀ v, (r.op { dev := p.b, bus := p.bus }).1 ≠ Res.done v :=
      fun v hv => hdone ⟨v, hv⟩
    rcases hn hnd with ⟨hrej, _⟩ | ⟨_, hsome, _⟩ | ⟨_, _, htr, htk, hmk⟩ | ⟨hm, _⟩
    · omega
    · exact absurd hfree hsome
    · exact ⟨body, by simpa [Pair.pollB] using htr, fun hrun => ⟨hmk hrun, htk⟩⟩
    · omega

end Modm

namespace Modm

/-! ## Rules for results -/

theorem ensures_wrong {α : Type} (post : α → St → Prop) : Ensures post (rfWrongState : RF α) := by
  intro s v hv
  simp [rfWrongState] at hv

theorem ensures_prim {α : Type} {post : α → St → Prop} (p : St → St) {g : RF α}
    (h : Ensures post g) : Ensures post (fun s => g (p s)) :=
  fun s v hv => h (p s) v hv

theorem ensures_ite {α : Type} {post : α → St → Prop} (c : St → Prop) [DecidablePred c]
    {g1 g2 : RF α} (h1 : Ensures post g1) (h2 : Ensures post g2) :
    Ensures post (fun s => if c s then g1 s else g2 s) := by
  intro s
  by_cases h : c s
  · simp only [h, if_true]; exact h1 s
  · simp only [h, if_false]; exact h2 s

theorem ensures_pick {α : Type} {post : α → St → Prop} {c : Prop} [Decidable c]
    {g1 g2 : RF α} (h1 : Ensures post g1) (h2 : Ensures post g2) :
    Ensures post (if c then g1 else g2) := by
  split
  · exact h1
  · exact h2

theorem ensures_wait {α : Type} {post : α → St → Prop} (k : Nat) (cond : St → Bool × St)
    {rest : RF α} (hr : Ensures post rest) : Ensures post (rfWaitUntil k cond rest) := by
  intro s v hv
  unfold rfWaitUntil at hv ⊢
  simp only at hv ⊢
  split at hv
  · rename_i hc
    rw [if_pos hc]
    exact hr _ v hv
  · simp at hv

theorem ensures_callAny {α β : Type} {post : α → St → Prop} (k : Nat) (callee : RF β)
    {rest : β → RF α} (hr : ∀ v, Ensures post (rest v)) :
    Ensures post (rfCall k callee rest) := by
  intro s v hv
  unfold rfCall at hv ⊢
  simp only at hv ⊢
  split at hv
  · rename_i w hw
    exact hr w _ v hv
  · simp at hv
  · simp at hv
  · simp at hv

theorem ensures_begin {α : Type} {post : α → St → Prop} {body : Nat → RF α}
    (h : ∀ m, Ensures post (body m)) : Ensures post (rfBegin body) := by
  intro s v hv
  unfold rfBegin at hv ⊢
  split at hv
  · rename_i hlt
    rw [if_pos hlt]
    exact h _ _ v hv
  · simp at hv

/-! ## Rules for progress -/

theorem stepAtLeast_mono {α : Type} {k k' : Nat} {g : RF α} (h : StepAtLeast k' g)
    (hk : k ≤ k') : StepAtLeast k g :=
  fun s hs hr => le_trans hk (h s hs hr)

theorem stepAtLeast_ret {α : Type} (k : Nat) (v : α) : StepAtLeast k (rfReturn v) := by
  intro s _ hr
  simp [rfReturn] at hr

theorem stepAtLeast_wrong {α : Type} (k : Nat) : StepAtLeast k (rfWrongState : RF α) := by
  intro s _ hr
  simp [rfWrongState] at hr

theorem stepAtLeast_ite {α : Type} {k : Nat} (c : St → Prop) [DecidablePred c] {g1 g2 : RF α}
    (h1 : StepAtLeast k g1) (h2 : StepAtLeast k g2) :
    StepAtLeast k (fun s => if c s then g1 s else g2 s) := by
  intro s hs
  by_cases h : c s
  · simp only [h, if_true]; exact h1 s hs
  · simp only [h, if_false]; exact h2 s hs

theorem stepAtLeast_prim {α : Type} {k : Nat} {p : St → St} {g : RF α} (hp : PrimOK p)
    (hg : StepAtLeast k g) : StepAtLeast k (fun s => g (p s)) := by
  intro s hs hr
  obtain ⟨a1, _, _, _⟩ := hp s
  have := hg (p s) (by omega) hr
  rw [a1] at this
  exact this

theorem stepAtLeast_wait {α : Type} (k : Nat) {cond : St → Bool × St} {rest : RF α}
    (hc : PrimOK (fun s => (cond s).2)) (hr : StepAtLeast k rest) :
    StepAtLeast k (rfWaitUntil k cond rest) := by
  intro s hs hrun
  obtain ⟨a1, _, _, a4⟩ := hc (setRf k s)
  simp only at a1 a4
  have b1 : (setRf k s).dev.rfLevel = s.dev.rfLevel := by simp [setRf]
  unfold rfWaitUntil at hrun ⊢
  simp only at hrun ⊢
  split at hrun
  · rename_i hc1
    rw [if_pos hc1]
    have := hr _ (by rw [a1, b1]; exact hs) hrun
    rw [a1, b1] at this
    exact this
  · rename_i hc1
    rw [if_neg hc1]
    simp only [popRf]
    rw [a4]
    simp [setRf]

theorem stepAtLeast_call {α β : Type} {e : Nat} (k : Nat) {callee : RF β} {rest : β → RF α}
    (hf : FuncOK e callee) (hr : ∀ v, StepAtLeast k (rest v)) :
    StepAtLeast k (rfCall k callee rest) := by
  intro s hs hrun
  obtain ⟨a1, _, _, a4, _⟩ := hf (setRf k s)
  have b1 : (setRf k s).dev.rfLevel = s.dev.rfLevel := by simp [setRf]
  have b4 : (setRf k s).dev.rfState (s.dev.rfLevel - 1) = k := by simp [setRf]
  rw [b1] at a1 a4
  have m1 : (callee (setRf k s)).2.dev.rfState (s.dev.rfLevel - 1) = k := by
    rw [a4 _ (by omega)]; exact b4
  unfold rfCall at hrun ⊢
  simp only at hrun ⊢
  split at hrun
  · rename_i w hw
    have := hr w _ (by rw [a1]; exact hs) hrun
    rw [a1] at this
    exact this
  · simp only [popRf]
    omega
  · simp at hrun
  · simp at hrun

namespace Paa5100je

/-! ### The result of the public operations -/

/-- What the sensor initialisation returns, in terms of the two bytes it compares. -/
theorem ensures_initializeSensor :
    Ensures (fun v s => v = true ↔ (s.dev.scratch 0 = ExpectedProductID ∧
      s.dev.scratch 0 = 255 - s.dev.scratch 1 % 256)) initializeSensor := by
  have hc : Ensures (fun v s => v = true ↔ (s.dev.scratch 0 = ExpectedProductID ∧
      s.dev.scratch 0 = 255 - s.dev.scratch 1 % 256)) initializeSensor_check := by
    intro s v hv
    unfold initializeSensor_check at hv ⊢
    by_cases h1 : s.dev.scratch 0 ≠ ExpectedProductID
    · rw [if_pos h1] at hv ⊢
      simp only [rfReturn, Res.done.injEq] at hv
      simp [rfReturn, popRf, setRf, ← hv, h1]
    · rw [if_neg h1] at hv ⊢
      by_cases h2 : s.dev.scratch 0 ≠ 255 - s.dev.scratch 1 % 256
      · rw [if_pos h2] at hv ⊢
        simp only [rfReturn, Res.done.injEq] at hv
        simp [rfReturn, popRf, setRf, ← hv, h2]
      · rw [if_neg h2] at hv ⊢
        simp only [rfReturn, Res.done.injEq] at hv
        simp only [ne_eq, not_not] at h1 h2
        simp [rfReturn, popRf, setRf, ← hv, h1, ← h2]
  have h6 := ensures_callAny 6 (read regInverseProductID 1 1) (fun _ => hc)
  have h5 := ensures_callAny 5 (read regProductID 0 1) (fun _ => h6)
  have h4 := ensures_callAny 4 writeMagic (fun _ => h5)
  have h3 := ensures_wait 3 waitExecute h4
  have h2 := ensures_callAny 2 (write regPowerUpReset 0x5a)
    (fun _ => ensures_prim (waitRestart 20) h3)
  have h1 := ensures_wait 1 waitExecute h2
  exact ensures_begin fun _ =>
    ensures_pick (ensures_prim (waitRestart 50) h1) <| ensures_pick h1 <| ensures_pick h2 <|
    ensures_pick h3 <| ensures_pick h4 <| ensures_pick h5 <| ensures_pick h6 <|
    ensures_wrong _

/-- What `getMotionData` returns, in terms of the bytes in `scratch`. -/
theorem ensures_getMotionData :
    Ensures (fun m s => m.valid = motionValid s.dev.scratch ∧
      m.x = toInt16 (s.dev.scratch 2) (s.dev.scratch 3) ∧
      m.y = toInt16 (s.dev.scratch 4) (s.dev.scratch 5)) getMotionData := by
  have h1 : Ensures (fun m s => m.valid = motionValid s.dev.scratch ∧
      m.x = toInt16 (s.dev.scratch 2) (s.dev.scratch 3) ∧
      m.y = toInt16 (s.dev.scratch 4) (s.dev.scratch 5)) getMotionData_1 := by
    apply ensures_callAny
    intro _ s v hv
    simp only [rfReturn, Res.done.injEq] at hv
    simp [rfReturn, popRf, setRf, ← hv]
  exact ensures_begin fun _ => ensures_pick h1 <| ensures_pick h1 <| ensures_wrong _

end Paa5100je

end Modm

namespace Modm

namespace Paa5100je

/-! ### Polling the sensor initialisation while it waits on `wait` -/

theorem stepAtLeast_initializeSensor_4 : StepAtLeast 4 initializeSensor_4 :=
  have hc : StepAtLeast 6 initializeSensor_check :=
    stepAtLeast_ite (fun s => s.dev.scratch 0 ≠ ExpectedProductID) (stepAtLeast_ret 6 false)
      (stepAtLeast_ite (fun s => s.dev.scratch 0 ≠ 255 - s.dev.scratch 1 % 256)
        (stepAtLeast_ret 6 false) (stepAtLeast_ret 6 true))
  have h6 : StepAtLeast 6 initializeSensor_6 :=
    stepAtLeast_call 6 (funcOK_read _ _ _) (fun _ => hc)
  have h5 : StepAtLeast 5 initializeSensor_5 :=
    stepAtLeast_call 5 (funcOK_read _ _ _) (fun _ => (stepAtLeast_mono h6) (by decide))
  stepAtLeast_call 4 funcOK_writeMagic (fun _ => (stepAtLeast_mono h5) (by decide))

theorem stepAtLeast_initializeSensor_2 : StepAtLeast 2 initializeSensor_2 :=
  have h3 : StepAtLeast 3 initializeSensor_3 :=
    stepAtLeast_wait 3 primOK_waitExecute ((stepAtLeast_mono stepAtLeast_initializeSensor_4) (by decide))
  stepAtLeast_call 2 (funcOK_write _ _)
    (fun _ => stepAtLeast_prim (primOK_waitRestart 20) ((stepAtLeast_mono h3) (by decide)))

theorem initializeSensor_at_wait (s : St) (h0 : s.dev.rfLevel = 0) (hl : 0 < s.dev.levels)
    (k : Nat) (hk : k = 1 ∨ k = 3) (hm : s.dev.rfState 0 = k) :
    initializeSensor s =
      rfWaitUntil k waitExecute (if k = 1 then initializeSensor_2 else initializeSensor_4)
        { s with dev := { s.dev with rfLevel := s.dev.rfLevel + 1 } } := by
  unfold initializeSensor rfBegin
  rw [if_pos (by omega)]
  have e : s.dev.rfState s.dev.rfLevel = k := by rw [h0]; exact hm
  rw [e]
  rcases hk with hk | hk
  · subst hk
    rfl
  · subst hk
    rfl

/-- A poll at a wait whose timeout has not expired changes nothing but the input
queue, from which it has read the clock. -/
theorem initializeSensor_idle (s : St) (h0 : s.dev.rfLevel = 0) (hl : 0 < s.dev.levels)
    (k : Nat) (hk : k = 1 ∨ k = 3) (hm : s.dev.rfState 0 = k)
    (hx : s.dev.wait.expired s.peek = false) :
    initializeSensor s = (Res.running, s.advance) := by
  rw [initializeSensor_at_wait s h0 hl k hk hm]
  have hp : (setRf k { s with dev := { s.dev with rfLevel := s.dev.rfLevel + 1 } }).peek
      = s.peek := rfl
  have hw : (setRf k { s with dev := { s.dev with rfLevel := s.dev.rfLevel + 1 } }).dev.wait
      = s.dev.wait := rfl
  unfold rfWaitUntil waitExecute Timeout.execute
  simp only [hp, hw, hx, Bool.false_eq_true, if_false]
  congr 1
  obtain ⟨d, b⟩ := s
  obtain ⟨ctx, levels, rfLevel, rfState, scratch, wait, cs_timeout, cs⟩ := d
  simp only at h0 hm
  subst h0
  simp only [popRf, setRf, St.advance, St.mk.injEq, Dev.mk.injEq, and_true, true_and]
  funext l
  by_cases hl0 : l = 0
  · subst hl0
    simp [hm]
  · simp [hl0]

/-- A poll at a wait whose timeout has expired continues with the next step. -/
theorem initializeSensor_resume (s : St) (h0 : s.dev.rfLevel = 0) (hl : 0 < s.dev.levels)
    (k : Nat) (hk : k = 1 ∨ k = 3) (hm : s.dev.rfState 0 = k)
    (hx : s.dev.wait.expired s.peek = true) :
    initializeSensor s =
      (if k = 1 then initializeSensor_2 else initializeSensor_4) (afterWait k s) := by
  rw [initializeSensor_at_wait s h0 hl k hk hm]
  have hp : (setRf k { s with dev := { s.dev with rfLevel := s.dev.rfLevel + 1 } }).peek
      = s.peek := rfl
  have hw : (setRf k { s with dev := { s.dev with rfLevel := s.dev.rfLevel + 1 } }).dev.wait
      = s.dev.wait := rfl
  have h1 : (waitExecute
      (setRf k { s with dev := { s.dev with rfLevel := s.dev.rfLevel + 1 } })).1 = true := by
    simp [waitExecute, Timeout.execute, hp, hw, hx]
  unfold rfWaitUntil afterWait
  simp only [h1, if_true]

theorem initializeSensor_idle_polls (n : Nat) (s : St) (h0 : s.dev.rfLevel = 0)
    (hl : 0 < s.dev.levels) (k : Nat) (hk : k = 1 ∨ k = 3) (hm : s.dev.rfState 0 = k)
    (hx : ∀ j, j < n → s.dev.wait.expired (s.bus.input.getD j 0) = false) :
    (∀ j, j < n → (initializeSensor (pollN initializeSensor j s)).1 = Res.running) ∧
    (pollN initializeSensor n s).dev = s.dev ∧
    (pollN initializeSensor n s).bus.trace = s.bus.trace ∧
    (pollN initializeSensor n s).bus.token = s.bus.token ∧
    (pollN initializeSensor n s).bus.input = s.bus.input.drop n := by
  induction n generalizing s with
  | zero => exact ⟨fun j hj => absurd hj (Nat.not_lt_zero j), rfl, rfl, rfl, by simp [pollN]⟩
  | succ n ih =>
    have hx0 : s.dev.wait.expired s.peek = false := by
      have := hx 0 (Nat.succ_pos n)
      simpa [St.peek, List.getD_eq_getElem?_getD, List.head?_eq_getElem?] using this
    have hstep := initializeSensor_idle s h0 hl k hk hm hx0
    have hx' : ∀ j, j < n → s.advance.dev.wait.expired (s.advance.bus.input.getD j 0) = false := by
      intro j hj
      have := hx (j + 1) (by omega)
      simpa [St.advance, List.getD_eq_getElem?_getD] using this
    obtain ⟨i1, i2, i3, i4, i5⟩ := ih s.advance h0 hl hm hx'
    have hpoll : ∀ m, pollN initializeSensor (m + 1) s = pollN initializeSensor m s.advance := by
      intro m
      simp [pollN, hstep]
    refine ⟨?_, ?_, ?_, ?_, ?_⟩
    · intro j hj
      cases j with
      | zero => simp [pollN, hstep]
      | succ j =>
        rw [hpoll]
        exact i1 j (by omega)
    · rw [hpoll, i2]; rfl
    · rw [hpoll, i3]; rfl
    · rw [hpoll, i4]; rfl
    · rw [hpoll, i5]; simp [St.advance]

end Paa5100je

end Modm

namespace Modm

/-! ## The view of the log under the primitive operations -/

theorem busView_log (c : Nat) (s : St) (e : Event) :
    busView c (s.log e).bus.trace = viewStep c (busView c s.bus.trace) e := by
  simp [busView, St.log, List.foldl_append]

theorem viewStep_other (c : Nat) (v : Option Nat × List (Nat × List Nat)) (e : Event)
    (h : e.ctx ≠ c) : viewStep c v e = v := by
  cases e with
  | acquired c' => rfl
  | released c' => rfl
  | chipSelect c' l => rfl
  | transfer c' tx n rx fin =>
    cases fin with
    | false => rfl
    | true =>
      have : ¬ c' = c := h
      simp [viewStep, this]

theorem busView_append_others (c : Nat) (t others : List Event)
    (h : ∀ e ∈ others, e.ctx ≠ c) : busView c (t ++ others) = busView c t := by
  induction others generalizing t with
  | nil => simp
  | cons e es ih =>
    have h1 : busView c (t ++ [e]) = busView c t := by
      simp only [busView, List.foldl_append, List.foldl_cons, List.foldl_nil]
      exact viewStep_other c _ e (h e (List.mem_cons_self e es))
    have h2 := ih (t ++ [e]) (fun e' he' => h e' (List.mem_cons_of_mem e he'))
    rw [List.append_assoc] at h2
    rw [show e :: es = [e] ++ es from rfl, h2, h1]

theorem quietPrim_of_eq {p : St → St}
    (h : ∀ s, (p s).bus.trace = s.bus.trace ∧ (p s).dev.scratch = s.dev.scratch) :
    QuietPrim p :=
  fun c s => ⟨by rw [(h s).1], (h s).2⟩

theorem quietPrim_csRestart (d : Nat) : QuietPrim (csRestart d) :=
  quietPrim_of_eq (by intro s; simp [csRestart, St.advance])

theorem quietPrim_csExecute : QuietPrim (fun s => (csExecute s).2) :=
  quietPrim_of_eq (by intro s; simp [csExecute, St.advance])

theorem quietPrim_csSetOutput (v : Bool) : QuietPrim (csSetOutput v) := by
  intro c s
  constructor
  · unfold csSetOutput
    rw [busView_log]
    rfl
  · simp [csSetOutput, St.log]

theorem quietPrim_releaseMaster : QuietPrim releaseMaster := by
  intro c s
  constructor
  · unfold releaseMaster
    rw [busView_log]
    rfl
  · simp [releaseMaster, St.log]

theorem quietPrim_acquireMaster : QuietPrim (fun s => (acquireMaster s).2) := by
  intro c s
  simp only [acquireMaster]
  split
  · constructor
    · rw [busView_log]
      rfl
    · simp [St.log]
  · exact ⟨rfl, rfl⟩

theorem quietPrim_setRf (k : Nat) : QuietPrim (setRf k) :=
  quietPrim_of_eq (by intro s; simp [setRf])

theorem quietPrim_popRf : QuietPrim popRf :=
  quietPrim_of_eq (by intro s; simp [popRf])

theorem quietPrim_comp {p q : St → St} (hp : QuietPrim p) (hq : QuietPrim q) :
    QuietPrim (fun s => q (p s)) :=
  fun c s => ⟨((hq c (p s)).1).trans (hp c s).1, ((hq c (p s)).2).trans (hp c s).2⟩

theorem quiet_ret {α : Type} (v : α) : Quiet (rfReturn v) :=
  fun c s => quietPrim_comp (quietPrim_setRf 0) quietPrim_popRf c s

theorem quiet_wrong {α : Type} : Quiet (rfWrongState : RF α) :=
  fun c s => quietPrim_popRf c s

theorem quiet_prim {α : Type} {p : St → St} {g : RF α} (hp : QuietPrim p) (hg : Quiet g) :
    Quiet (fun s => g (p s)) :=
  fun c s => ⟨((hg c (p s)).1).trans (hp c s).1, ((hg c (p s)).2).trans (hp c s).2⟩

theorem quiet_ite {α : Type} (cnd : St → Prop) [DecidablePred cnd] {g1 g2 : RF α}
    (h1 : Quiet g1) (h2 : Quiet g2) : Quiet (fun s => if cnd s then g1 s else g2 s) := by
  intro c s
  by_cases h : cnd s
  · simp only [h, if_true]; exact h1 c s
  · simp only [h, if_false]; exact h2 c s

theorem quiet_pick {α : Type} {cnd : Prop} [Decidable cnd] {g1 g2 : RF α}
    (h1 : Quiet g1) (h2 : Quiet g2) : Quiet (if cnd then g1 else g2) := by
  split
  · exact h1
  · exact h2

theorem quiet_wait {α : Type} (k : Nat) {cond : St → Bool × St} {rest : RF α}
    (hc : QuietPrim (fun s => (cond s).2)) (hr : Quiet rest) :
    Quiet (rfWaitUntil k cond rest) := by
  intro c s
  have h1 := quietPrim_comp (quietPrim_setRf k) hc c s
  unfold rfWaitUntil
  simp only
  split
  · exact ⟨((hr c _).1).trans h1.1, ((hr c _).2).trans h1.2⟩
  · exact ⟨((quietPrim_popRf c _).1).trans h1.1, ((quietPrim_popRf c _).2).trans h1.2⟩

theorem quiet_begin {α : Type} {body : Nat → RF α} (h : ∀ m, Quiet (body m)) :
    Quiet (rfBegin body) := by
  intro c s
  unfold rfBegin
  split
  · exact h (s.dev.rfState s.dev.rfLevel) c
      { s with dev := { s.dev with rfLevel := s.dev.rfLevel + 1 } }
  · exact ⟨rfl, rfl⟩

namespace Paa5100je

theorem quiet_setChipSelect (value : Bool) : Quiet (setChipSelect value) :=
  have h2 : Quiet setChipSelect_wait2 := quiet_wait 2 quietPrim_csExecute (quiet_ret ())
  have h1 : Quiet setChipSelect_wait1 :=
    quiet_wait 1 quietPrim_csExecute
      (quiet_prim (quietPrim_comp (quietPrim_csSetOutput true) (quietPrim_csRestart 1)) h2)
  quiet_begin fun _ =>
    quiet_pick
      (quiet_ite (fun _ => (!value) = true)
        (quiet_prim (quietPrim_csSetOutput false) (quiet_ret ()))
        (quiet_prim (quietPrim_csRestart 1) h1)) <|
    quiet_pick h1 <| quiet_pick h2 <| quiet_wrong

end Paa5100je

end Modm

namespace Modm

/-! ## What a `read` does to the log and to `scratch` -/

theorem rfCall_done {α β : Type} (k : Nat) (callee : RF β) (rest : β → RF α) (s : St) (w : β)
    (h : (callee (setRf k s)).1 = Res.done w) :
    rfCall k callee rest s = rest w (callee (setRf k s)).2 := by
  unfold rfCall
  simp only [h]

theorem rfCall_running {α β : Type} (k : Nat) (callee : RF β) (rest : β → RF α) (s : St)
    (h : (callee (setRf k s)).1 = Res.running) :
    rfCall k callee rest s = (Res.running, popRf (callee (setRf k s)).2) := by
  unfold rfCall
  simp only [h]

theorem rfCall_nestingError {α β : Type} (k : Nat) (callee : RF β) (rest : β → RF α) (s : St)
    (h : (callee (setRf k s)).1 = Res.nestingError) :
    rfCall k callee rest s = (Res.nestingError, popRf (callee (setRf k s)).2) := by
  unfold rfCall
  simp only [h]

theorem rfCall_wrongState {α β : Type} (k : Nat) (callee : RF β) (rest : β → RF α) (s : St)
    (h : (callee (setRf k s)).1 = Res.wrongState) :
    rfCall k callee rest s = (Res.wrongState, popRf (callee (setRf k s)).2) := by
  unfold rfCall
  simp only [h]

theorem peekBytes_length (s : St) (n : Nat) : (s.peekBytes n).length = n := by
  simp [St.peekBytes]

/-- One poll of a transfer: either it has not finished and only the log grows by
an unfinished entry, or it has finished and the received bytes are in `scratch`. -/
theorem spiTransfer_spec (tx : List Nat) (dst n : Nat) (s : St) (c : Nat) :
    ((spiTransfer tx dst n s).1 = Res.running ∧
      busView c (spiTransfer tx dst n s).2.bus.trace = busView c s.bus.trace ∧
      (spiTransfer tx dst n s).2.dev = s.dev) ∨
    ((spiTransfer tx dst n s).1 = Res.done () ∧ ∃ rx, rx.length = n ∧ (∀ x ∈ rx, x < 256) ∧
      busView c (spiTransfer tx dst n s).2.bus.trace =
        viewStep c (busView c s.bus.trace) (Event.transfer s.dev.ctx tx n rx true) ∧
      (spiTransfer tx dst n s).2.dev =
        { s.dev with scratch := storeBytes s.dev.scratch dst rx }) := by
  unfold spiTransfer
  split
  · left
    refine ⟨rfl, ?_, ?_⟩
    · simp only []
      rw [busView_log]
      rfl
    · simp [St.log, St.advance]
  · right
    refine ⟨rfl, s.advance.peekBytes n, peekBytes_length _ _, ?_, ?_, ?_⟩
    · intro x hx
      simp only [St.peekBytes, List.mem_map] at hx
      obtain ⟨k, _, hk⟩ := hx
      rw [← hk]
      exact Nat.mod_lt _ (by decide)
    · simp only []
      rw [busView_log]
      simp [St.advance, St.advanceBy]
    · simp [St.log, St.advance, St.advanceBy]

theorem scratchBytes_congr (s t : St) (dst len : Nat) (h : t.dev.scratch = s.dev.scratch) :
    scratchBytes t dst len = scratchBytes s dst len := by
  simp [scratchBytes, h]

theorem scratchBytes_stored (s t : St) (dst : Nat) (rx : List Nat)
    (h : t.dev.scratch = storeBytes s.dev.scratch dst rx) :
    scratchBytes t dst rx.length = rx := by
  apply List.ext_getElem
  · simp [scratchBytes]
  · intro i h1 h2
    have hi : i < rx.length := by simpa [scratchBytes] using h1
    simp [scratchBytes, h, storeBytes, hi, List.getD_eq_getElem?_getD]

theorem storeBytes_outside (scratch : Nat → Nat) (dst : Nat) (rx : List Nat) (j : Nat)
    (h : j < dst ∨ dst + rx.length ≤ j) : storeBytes scratch dst rx j = scratch j := by
  unfold storeBytes
  rw [if_neg (by omega)]

namespace Paa5100je

theorem read_csHigh_step (c lvl reg dst len : Nat) (base : List (Nat × List Nat)) (s : St)
    (hl : s.dev.rfLevel = lvl + 1)
    (hv : readsOf c s.bus.trace = (reg, scratchBytes s dst len) :: base)
    (hb : ∀ x ∈ scratchBytes s dst len, x < 256) :
    ReadStep c lvl reg dst len base s (read_csHigh s).1 (read_csHigh s).2 := by
  obtain ⟨q1, q2⟩ := quiet_setChipSelect true c (setRf 5 s)
  obtain ⟨a1, _, _, a4, _⟩ := funcOK_setChipSelect true (setRf 5 s)
  have e1 : (setRf 5 s).bus = s.bus := rfl
  have e2 : (setRf 5 s).dev.scratch = s.dev.scratch := rfl
  have e3 : (setRf 5 s).dev.rfLevel = lvl + 1 := hl
  have e4 : (setRf 5 s).dev.rfState lvl = 5 := by simp [setRf, hl]
  rw [e1] at q1
  rw [e2] at q2
  rw [e3] at a1 a4
  have m1 := (a4 lvl (by omega)).trans e4
  have hsb : scratchBytes (setChipSelect true (setRf 5 s)).2 dst len = scratchBytes s dst len :=
    scratchBytes_congr _ _ _ _ q2
  unfold read_csHigh
  rcases hres : (setChipSelect true (setRf 5 s)).1 with _ | w | _ | _
  · rw [rfCall_running _ _ _ _ hres]
    refine ⟨fun _ => ⟨?_, ?_, ?_⟩, fun v hv' => by simp at hv', fun j _ => ?_⟩
    · intro h; simp only [popRf, m1] at h; omega
    · intro h; simp only [popRf, m1] at h; omega
    · intro _
      rw [show scratchBytes (popRf (setChipSelect true (setRf 5 s)).2) dst len =
        scratchBytes s dst len from hsb]
      refine ⟨?_, hb⟩
      show readsOf c (setChipSelect true (setRf 5 s)).2.bus.trace = _
      unfold readsOf
      rw [q1]
      exact hv
    · show (setChipSelect true (setRf 5 s)).2.dev.scratch j = _
      rw [q2]
  · rw [rfCall_done _ _ _ _ w hres]
    refine ⟨fun h => by simp [rfReturn] at h, fun _ _ => ?_, fun j _ => ?_⟩
    · unfold ReadDone readsOf
      have ht := (quiet_prim quietPrim_releaseMaster (quiet_ret ()) c
        (setChipSelect true (setRf 5 s)).2)
      rw [ht.1, q1]
      rw [scratchBytes_congr _ _ _ _ (ht.2.trans q2)]
      exact ⟨hv, hb⟩
    · have ht := (quiet_prim quietPrim_releaseMaster (quiet_ret ()) c
        (setChipSelect true (setRf 5 s)).2)
      rw [ht.2, q2]
  · rw [rfCall_nestingError _ _ _ _ hres]
    refine ⟨fun h => by simp at h, fun v hv' => by simp at hv', fun j _ => ?_⟩
    show (setChipSelect true (setRf 5 s)).2.dev.scratch j = _
    rw [q2]
  · rw [rfCall_wrongState _ _ _ _ hres]
    refine ⟨fun h => by simp at h, fun v hv' => by simp at hv', fun j _ => ?_⟩
    show (setChipSelect true (setRf 5 s)).2.dev.scratch j = _
    rw [q2]

theorem readStep_trans (c lvl reg dst len : Nat) (base : List (Nat × List Nat)) (s s1 s2 : St)
    (r : Res Unit) (h : ReadStep c lvl reg dst len base s1 r s2)
    (hs : ∀ j, j < dst ∨ dst + len ≤ j → s1.dev.scratch j = s.dev.scratch j) :
    ReadStep c lvl reg dst len base s r s2 :=
  ⟨h.1, h.2.1, fun j hj => (h.2.2 j hj).trans (hs j hj)⟩

theorem read_data_step (c lvl reg dst len : Nat) (base : List (Nat × List Nat)) (s : St)
    (hl : s.dev.rfLevel = lvl + 1) (hc : s.dev.ctx = c) (hlen : 0 < len)
    (hv : readsOf c s.bus.trace = base) (hp : (busView c s.bus.trace).1 = some reg) :
    ReadStep c lvl reg dst len base s (read_data dst len s).1 (read_data dst len s).2 := by
  have e1 : (setRf 4 s).bus = s.bus := rfl
  have e3 : (setRf 4 s).dev.rfLevel = lvl + 1 := hl
  have e4 : (setRf 4 s).dev.rfState lvl = 4 := by simp [setRf, hl]
  have e5 : (setRf 4 s).dev.ctx = c := hc
  have e6 : (setRf 4 s).dev.scratch = s.dev.scratch := rfl
  unfold read_data
  rcases spiTransfer_spec [] dst len (setRf 4 s) c with ⟨hres, hview, hdev⟩ |
    ⟨hres, rx, hrx, hrange, hview, hdev⟩
  · rw [rfCall_running _ _ _ _ hres]
    rw [e1] at hview
    refine ⟨fun _ => ⟨?_, ?_, ?_⟩, fun v hv' => by simp at hv', fun j _ => ?_⟩
    · intro _
      show readsOf c (spiTransfer [] dst len (setRf 4 s)).2.bus.trace = base
      unfold readsOf
      rw [hview]
      exact hv
    · intro _
      show (busView c (spiTransfer [] dst len (setRf 4 s)).2.bus.trace).1 = some reg
      rw [hview]
      exact hp
    · intro h
      simp only [popRf, hdev, e4] at h
      omega
    · show (spiTransfer [] dst len (setRf 4 s)).2.dev.scratch j = _
      rw [hdev]
      rfl
  · rw [rfCall_done _ _ _ _ () hres]
    rw [e1, e5] at hview
    have hne : ¬ len = 0 := by omega
    have hview' : busView c (spiTransfer [] dst len (setRf 4 s)).2.bus.trace =
        (none, (reg, rx) :: base) := by
      rw [hview]
      unfold readsOf at hv
      simp only [viewStep, if_true, hne, if_false, hp, hv]
    have hsc : (spiTransfer [] dst len (setRf 4 s)).2.dev.scratch =
        storeBytes s.dev.scratch dst rx := by
      rw [hdev]
      rfl
    have hbytes : scratchBytes (spiTransfer [] dst len (setRf 4 s)).2 dst len = rx := by
      have := scratchBytes_stored s _ dst rx hsc
      rw [hrx] at this
      exact this
    have hstep := read_csHigh_step c lvl reg dst len base (spiTransfer [] dst len (setRf 4 s)).2
      (by rw [hdev]; exact hl)
      (by unfold readsOf; rw [hview', hbytes]) (by rw [hbytes]; exact hrange)
    apply readStep_trans c lvl reg dst len base s _ _ _ hstep
    intro j hj
    rw [hsc]
    exact storeBytes_outside _ _ _ _ (by rw [hrx]; exact hj)

theorem read_addr_step (c lvl reg dst len : Nat) (base : List (Nat × List Nat)) (s : St)
    (hl : s.dev.rfLevel = lvl + 1) (hc : s.dev.ctx = c) (hlen : 0 < len)
    (hv : readsOf c s.bus.trace = base) :
    ReadStep c lvl reg dst len base s (read_addr reg dst len s).1 (read_addr reg dst len s).2 := by
  have e1 : (setRf 3 s).bus = s.bus := rfl
  have e4 : (setRf 3 s).dev.rfState lvl = 3 := by simp [setRf, hl]
  have e5 : (setRf 3 s).dev.ctx = c := hc
  unfold read_addr
  rcases spiTransfer_spec [reg] 0 0 (setRf 3 s) c with ⟨hres, hview, hdev⟩ |
    ⟨hres, rx, hrx, _, hview, hdev⟩
  · rw [rfCall_running _ _ _ _ hres]
    rw [e1] at hview
    refine ⟨fun _ => ⟨?_, ?_, ?_⟩, fun v hv' => by simp at hv', fun j _ => ?_⟩
    · intro _
      show readsOf c (spiTransfer [reg] 0 0 (setRf 3 s)).2.bus.trace = base
      unfold readsOf
      rw [hview]
      exact hv
    · intro h
      simp only [popRf, hdev, e4] at h
      omega
    · intro h
      simp only [popRf, hdev, e4] at h
      omega
    · show (spiTransfer [reg] 0 0 (setRf 3 s)).2.dev.scratch j = _
      rw [hdev]
      rfl
  · rw [rfCall_done _ _ _ _ () hres]
    rw [e1, e5] at hview
    have hrx0 : rx = [] := List.length_eq_zero.mp hrx
    have hview' : busView c (spiTransfer [reg] 0 0 (setRf 3 s)).2.bus.trace =
        (some reg, base) := by
      rw [hview]
      unfold readsOf at hv
      simp [viewStep, hv]
    have hsc : (spiTransfer [reg] 0 0 (setRf 3 s)).2.dev.scratch = s.dev.scratch := by
      rw [hdev, hrx0]
      funext j
      simp [storeBytes, setRf]
    have hstep := read_data_step c lvl reg dst len base (spiTransfer [reg] 0 0 (setRf 3 s)).2
      (by rw [hdev]; exact hl) (by rw [hdev]; exact hc) hlen
      (by unfold readsOf; rw [hview']) (by rw [hview'])
    apply readStep_trans c lvl reg dst len base s _ _ _ hstep
    intro j _
    rw [hsc]

theorem read_csLow_step (c lvl reg dst len : Nat) (base : List (Nat × List Nat)) (s : St)
    (hl : s.dev.rfLevel = lvl + 1) (hc : s.dev.ctx = c) (hlen : 0 < len)
    (hv : readsOf c s.bus.trace = base) :
    ReadStep c lvl reg dst len base s (read_csLow reg dst len s).1
      (read_csLow reg dst len s).2 := by
  obtain ⟨q1, q2⟩ := quiet_setChipSelect false c (setRf 2 s)
  obtain ⟨a1, _, a3, a4, _⟩ := funcOK_setChipSelect false (setRf 2 s)
  have e1 : (setRf 2 s).bus = s.bus := rfl
  have e2 : (setRf 2 s).dev.scratch = s.dev.scratch := rfl
  have e3 : (setRf 2 s).dev.rfLevel = lvl + 1 := hl
  have e4 : (setRf 2 s).dev.rfState lvl = 2 := by simp [setRf, hl]
  have e5 : (setRf 2 s).dev.ctx = c := hc
  rw [e1] at q1
  rw [e2] at q2
  rw [e3] at a1 a4
  rw [e5] at a3
  have m1 := (a4 lvl (by omega)).trans e4
  have hv1 : readsOf c (setChipSelect false (setRf 2 s)).2.bus.trace = base := by
    unfold readsOf; rw [q1]; exact hv
  unfold read_csLow
  rcases hres : (setChipSelect false (setRf 2 s)).1 with _ | w | _ | _
  · rw [rfCall_running _ _ _ _ hres]
    refine ⟨fun _ => ⟨fun _ => hv1, ?_, ?_⟩, fun v hv' => by simp at hv', fun j _ => ?_⟩
    · intro h; simp only [popRf, m1] at h; omega
    · intro h; simp only [popRf, m1] at h; omega
    · show (setChipSelect false (setRf 2 s)).2.dev.scratch j = _
      rw [q2]
  · rw [rfCall_done _ _ _ _ w hres]
    have hstep := read_addr_step c lvl reg dst len base (setChipSelect false (setRf 2 s)).2
      a1 a3 hlen hv1
    apply readStep_trans c lvl reg dst len base s _ _ _ hstep
    intro j _
    rw [q2]
  · rw [rfCall_nestingError _ _ _ _ hres]
    refine ⟨fun h => by simp at h, fun v hv' => by simp at hv', fun j _ => ?_⟩
    show (setChipSelect false (setRf 2 s)).2.dev.scratch j = _
    rw [q2]
  · rw [rfCall_wrongState _ _ _ _ hres]
    refine ⟨fun h => by simp at h, fun v hv' => by simp at hv', fun j _ => ?_⟩
    show (setChipSelect false (setRf 2 s)).2.dev.scratch j = _
    rw [q2]

theorem read_acquire_step (c lvl reg dst len : Nat) (base : List (Nat × List Nat)) (s : St)
    (hl : s.dev.rfLevel = lvl + 1) (hc : s.dev.ctx = c) (hlen : 0 < len) (hreg : reg < 128)
    (hv : readsOf c s.bus.trace = base) :
    ReadStep c lvl reg dst len base s (read_acquire reg dst len s).1
      (read_acquire reg dst len s).2 := by
  obtain ⟨q1, q2⟩ := quietPrim_acquireMaster c (setRf 1 s)
  obtain ⟨a1, _, a3, a4⟩ := primOK_acquireMaster (setRf 1 s)
  simp only at q1 q2 a1 a3 a4
  have e1 : (setRf 1 s).bus = s.bus := rfl
  have e2 : (setRf 1 s).dev.scratch = s.dev.scratch := rfl
  have e3 : (setRf 1 s).dev.rfLevel = lvl + 1 := hl
  have e4 : (setRf 1 s).dev.rfState lvl = 1 := by simp [setRf, hl]
  have e5 : (setRf 1 s).dev.ctx = c := hc
  rw [e1] at q1
  rw [e2] at q2
  rw [e3] at a1
  rw [e5] at a3
  have hv1 : readsOf c (acquireMaster (setRf 1 s)).2.bus.trace = base := by
    unfold readsOf; rw [q1]; exact hv
  have hmask : reg &&& 0x7F = reg := by
    have : reg &&& 127 = reg % 2 ^ 7 := Nat.and_pow_two_sub_one_eq_mod reg 7
    rw [show (0x7F : Nat) = 127 from rfl, this]
    exact Nat.mod_eq_of_lt (by simpa using hreg)
  unfold read_acquire rfWaitUntil
  simp only
  split
  · rw [hmask]
    have hstep := read_csLow_step c lvl reg dst len base (acquireMaster (setRf 1 s)).2
      a1 a3 hlen hv1
    apply readStep_trans c lvl reg dst len base s _ _ _ hstep
    intro j _
    rw [q2]
  · refine ⟨fun _ => ⟨fun _ => hv1, ?_, ?_⟩, fun v hv' => by simp at hv', fun j _ => ?_⟩
    · intro h; simp only [popRf, a4, e4] at h; omega
    · intro h; simp only [popRf, a4, e4] at h; omega
    · show (acquireMaster (setRf 1 s)).2.dev.scratch j = _
      rw [q2]

/-- One poll of `read(reg, &scratch[dst], len)` for a register address below 0x80
and a nonempty buffer. -/
theorem read_step (c lvl reg dst len : Nat) (base : List (Nat × List Nat)) (s : St)
    (hl : s.dev.rfLevel = lvl) (hc : s.dev.ctx = c) (hlen : 0 < len) (hreg : reg < 128)
    (h : ReadAt c lvl reg dst len base s) :
    ReadStep c lvl reg dst len base s (read reg dst len s).1 (read reg dst len s).2 := by
  obtain ⟨h1, h2, h3⟩ := h
  unfold read rfBegin
  split
  swap
  · exact ⟨fun h => by simp at h, fun v hv' => by simp at hv', fun j _ => rfl⟩
  generalize hs1 : ({ s with dev := { s.dev with rfLevel := s.dev.rfLevel + 1 } } : St) = s1
  have l1 : s1.dev.rfLevel = lvl + 1 := by rw [← hs1]; simp [hl]
  have c1 : s1.dev.ctx = c := by rw [← hs1]; exact hc
  have u1 : s1.bus = s.bus := by rw [← hs1]
  have d1 : s1.dev.scratch = s.dev.scratch := by rw [← hs1]
  have key : ∀ g : RF Unit, ReadStep c lvl reg dst len base s1 (g s1).1 (g s1).2 →
      ReadStep c lvl reg dst len base s (g s1).1 (g s1).2 :=
    fun g hg => readStep_trans c lvl reg dst len base s s1 _ _ hg (fun j _ => by rw [d1])
  rw [hl]
  beta_reduce
  by_cases m0 : s.dev.rfState lvl = 0
  · rw [if_pos m0]
    exact key _ (read_acquire_step c lvl reg dst len base s1 l1 c1 hlen hreg
      (by rw [u1]; exact h1 (by omega)))
  rw [if_neg m0]
  by_cases m1 : s.dev.rfState lvl = 1
  · rw [if_pos m1]
    exact key _ (read_acquire_step c lvl reg dst len base s1 l1 c1 hlen hreg
      (by rw [u1]; exact h1 (by omega)))
  rw [if_neg m1]
  by_cases m2 : s.dev.rfState lvl = 2
  · rw [if_pos m2]
    exact key _ (read_csLow_step c lvl reg dst len base s1 l1 c1 hlen
      (by rw [u1]; exact h1 (by omega)))
  rw [if_neg m2]
  by_cases m3 : s.dev.rfState lvl = 3
  · rw [if_pos m3]
    exact key _ (read_addr_step c lvl reg dst len base s1 l1 c1 hlen
      (by rw [u1]; exact h1 (by omega)))
  rw [if_neg m3]
  by_cases m4 : s.dev.rfState lvl = 4
  · rw [if_pos m4]
    exact key _ (read_data_step c lvl reg dst len base s1 l1 c1 hlen
      (by rw [u1]; exact h1 (by omega)) (by rw [u1]; exact h2 m4))
  rw [if_neg m4]
  by_cases m5 : s.dev.rfState lvl = 5
  · rw [if_pos m5]
    exact key _ (read_csHigh_step c lvl reg dst len base s1 l1
      (by rw [u1, scratchBytes_congr s s1 dst len d1]; exact (h3 m5).1)
      (by rw [scratchBytes_congr s s1 dst len d1]; exact (h3 m5).2))
  rw [if_neg m5]
  exact ⟨fun h => by simp [rfWrongState] at h, fun v hv' => by simp [rfWrongState] at hv',
    fun j _ => by simp [rfWrongState, popRf, d1]⟩

end Paa5100je

end Modm

namespace Modm

theorem readAt_congr (c lvl reg dst len : Nat) (base : List (Nat × List Nat)) (s t : St)
    (h1 : t.dev.rfState lvl = s.dev.rfState lvl) (h2 : busView c t.bus.trace = busView c s.bus.trace)
    (h3 : t.dev.scratch = s.dev.scratch) (h : ReadAt c lvl reg dst len base s) :
    ReadAt c lvl reg dst len base t := by
  unfold ReadAt readsOf at h ⊢
  rw [h1, h2, scratchBytes_congr s t dst len h3]
  exact h

theorem readDone_congr (c reg dst len : Nat) (base : List (Nat × List Nat)) (s t : St)
    (h2 : busView c t.bus.trace = busView c s.bus.trace)
    (h3 : t.dev.scratch = s.dev.scratch) (h : ReadDone c reg dst len base s) :
    ReadDone c reg dst len base t := by
  unfold ReadDone readsOf at h ⊢
  rw [h2, scratchBytes_congr s t dst len h3]
  exact h

namespace Paa5100je

/-- A `read` called as step `k` of a function that runs at level 0. -/
theorem read_called (c k reg dst len : Nat) (base : List (Nat × List Nat)) (s : St)
    (hl : s.dev.rfLevel = 1) (hc : s.dev.ctx = c) (hlen : 0 < len) (hreg : reg < 128)
    (h : ReadAt c 1 reg dst len base s) :
    ReadStep c 1 reg dst len base s (read reg dst len (setRf k s)).1
      (read reg dst len (setRf k s)).2 ∧
    (read reg dst len (setRf k s)).2.dev.rfLevel = 1 ∧
    (read reg dst len (setRf k s)).2.dev.ctx = c ∧
    (read reg dst len (setRf k s)).2.dev.rfState 0 = k ∧
    (∀ v, (read reg dst len (setRf k s)).1 = Res.done v →
      (read reg dst len (setRf k s)).2.dev.rfState 1 = 0) := by
  have e0 : (setRf k s).dev.rfState 0 = k := by simp [setRf, hl]
  have e1 : (setRf k s).dev.rfState 1 = s.dev.rfState 1 := by simp [setRf, hl]
  have e3 : (setRf k s).dev.rfLevel = 1 := hl
  have e5 : (setRf k s).dev.ctx = c := hc
  have hat : ReadAt c 1 reg dst len base (setRf k s) :=
    readAt_congr c 1 reg dst len base s _ e1 rfl rfl h
  have hstep := read_step c 1 reg dst len base (setRf k s) e3 e5 hlen hreg hat
  obtain ⟨a1, _, a3, a4, _⟩ := funcOK_read reg dst len (setRf k s)
  rw [e3] at a1 a4
  rw [e5] at a3
  refine ⟨⟨hstep.1, hstep.2.1, hstep.2.2⟩, a1, a3, (a4 0 (by omega)).trans e0, ?_⟩
  intro v hv
  have := zeroFunc_read reg dst len (setRf k s) v hv 1 (by rw [e3]) (by rw [e3]; omega)
  exact this

/-- One poll of `getMotionData` at level 0. -/
theorem getMotionData_step (c : Nat) (base : List (Nat × List Nat)) (s : St)
    (hl : s.dev.rfLevel = 0) (hc : s.dev.ctx = c)
    (h : ReadAt c 1 regMotionBurst 0 12 base s) :
    ((getMotionData s).1 = Res.running →
      ReadAt c 1 regMotionBurst 0 12 base (getMotionData s).2) ∧
    (∀ m, (getMotionData s).1 = Res.done m →
      ReadDone c regMotionBurst 0 12 base (getMotionData s).2) := by
  unfold getMotionData rfBegin
  split
  swap
  · exact ⟨fun h => by simp at h, fun v hv' => by simp at hv'⟩
  generalize hs1 : ({ s with dev := { s.dev with rfLevel := s.dev.rfLevel + 1 } } : St) = s1
  have l1 : s1.dev.rfLevel = 1 := by rw [← hs1]; simp [hl]
  have c1 : s1.dev.ctx = c := by rw [← hs1]; exact hc
  have hat1 : ReadAt c 1 regMotionBurst 0 12 base s1 := by
    rw [← hs1]
    exact readAt_congr c 1 _ 0 12 base s _ rfl rfl rfl h
  have hfrag : ((getMotionData_1 s1).1 = Res.running →
        ReadAt c 1 regMotionBurst 0 12 base (getMotionData_1 s1).2) ∧
      (∀ m, (getMotionData_1 s1).1 = Res.done m →
        ReadDone c regMotionBurst 0 12 base (getMotionData_1 s1).2) := by
    obtain ⟨hstep, b1, _, _, _⟩ := read_called c 1 regMotionBurst 0 12 base s1 l1 c1
      (by decide) (by decide) hat1
    unfold getMotionData_1
    rcases hres : (read regMotionBurst 0 12 (setRf 1 s1)).1 with _ | w | _ | _
    · rw [rfCall_running _ _ _ _ hres]
      exact ⟨fun _ => readAt_congr c 1 _ 0 12 base _ _ rfl rfl rfl (hstep.1 hres),
        fun v hv' => by simp at hv'⟩
    · rw [rfCall_done _ _ _ _ w hres]
      refine ⟨fun h => by simp [rfReturn] at h, fun _ _ => ?_⟩
      exact readDone_congr c _ 0 12 base _ _ rfl rfl (hstep.2.1 w hres)
    · rw [rfCall_nestingError _ _ _ _ hres]
      exact ⟨fun h => by simp at h, fun v hv' => by simp at hv'⟩
    · rw [rfCall_wrongState _ _ _ _ hres]
      exact ⟨fun h => by simp at h, fun v hv' => by simp at hv'⟩
  beta_reduce
  split_ifs
  · exact hfrag
  · exact hfrag
  · exact ⟨fun h => by simp [rfWrongState] at h, fun v hv' => by simp [rfWrongState] at hv'⟩

/-- Along a run of `getMotionData` the read of MotionBurst stands as the log says. -/
theorem polling_getMotionData {s : St} (h : Polling getMotionData s) :
    s.dev.rfLevel = 0 ∧ ∃ base, ReadAt s.dev.ctx 1 regMotionBurst 0 12 base s := by
  induction h with
  | start s hq =>
    refine ⟨hq.1, readsOf s.dev.ctx s.bus.trace, fun _ => rfl, ?_, ?_⟩
    · intro h; rw [hq.2 1] at h; cases h
    · intro h; rw [hq.2 1] at h; cases h
  | again s s1 others hp hrun hdev htr hoth ih =>
    obtain ⟨h0, base, hat⟩ := ih
    obtain ⟨a1, _, a3, _, _⟩ := funcOK_getMotionData s
    have hstep := (getMotionData_step s.dev.ctx base s h0 rfl hat).1 hrun
    have hctx : s1.dev.ctx = s.dev.ctx := by rw [hdev]; exact a3
    refine ⟨by rw [hdev]; exact a1.trans h0, base, ?_⟩
    rw [hctx]
    refine readAt_congr _ 1 _ 0 12 base (getMotionData s).2 s1 (by rw [hdev]) ?_ (by rw [hdev])
      hstep
    rw [htr]
    exact busView_append_others _ _ _ hoth

end Paa5100je

end Modm

namespace Modm

namespace SoftwareGpioPort

/-! ### Bits of the software port -/

theorem width_eq {α : Type} (ps : List α) : width ps = ps.length := by
  induction ps with
  | nil => rfl
  | cons p ps ih => simp [width, ih, Nat.add_comm]

theorem le_portBits (w : Nat) (h : w ≤ 16) : w ≤ portBits w := by
  unfold portBits; split <;> omega

theorem read_lt (pins : List Bool) (h : pins.length ≤ 16) : read pins < 2 ^ pins.length := by
  induction pins with
  | nil => simp [read]
  | cons p ps ih =>
    have hl : ps.length ≤ 16 := by simp at h; omega
    have ih := ih hl
    have h2 : read ps < 2 ^ (ps.length + 1) := by
      rw [pow_succ]; omega
    simp only [read, width_eq, List.length_cons, Nat.add_sub_cancel]
    split
    · apply lt_of_le_of_lt (Nat.mod_le _ _)
      apply Nat.or_lt_two_pow h2
      rw [Nat.one_shiftLeft]
      exact Nat.pow_lt_pow_right (by norm_num) (by omega)
    · exact h2

theorem read_bits (pins : List Bool) (h : pins.length ≤ 16) (k : Nat) (hk : k < pins.length) :
    (read pins).testBit (pins.length - 1 - k) = pins[k] := by
  induction pins generalizing k with
  | nil => simp at hk
  | cons p ps ih =>
    have hl : ps.length ≤ 16 := by simp at h; omega
    have hlt := read_lt ps hl
    have hmod : ∀ x, x < 2 ^ (ps.length + 1) → x % 2 ^ portBits (ps.length + 1) = x := by
      intro x hx
      apply Nat.mod_eq_of_lt
      apply lt_of_lt_of_le hx
      apply Nat.pow_le_pow_right (by norm_num)
      apply le_portBits; simpa using h
    have hor : read ps ||| 1 <<< ps.length < 2 ^ (ps.length + 1) := by
      apply Nat.or_lt_two_pow
      · rw [pow_succ]; omega
      · rw [Nat.one_shiftLeft]
        exact Nat.pow_lt_pow_right (by norm_num) (by omega)
    simp only [read, width_eq, List.length_cons, Nat.add_sub_cancel]
    cases k with
    | zero =>
      simp only [Nat.sub_zero, List.getElem_cons_zero]
      cases p with
      | true =>
        simp only [if_true]
        rw [hmod _ hor, Nat.testBit_or, Nat.one_shiftLeft, Nat.testBit_two_pow_self]
        simp
      | false =>
        simp only [Bool.false_eq_true, if_false]
        exact Nat.testBit_lt_two_pow hlt
    | succ k =>
      have hk' : k < ps.length := by simpa using hk
      have ihk := ih hl k hk'
      simp only [List.getElem_cons_succ]
      have e : ps.length - (k + 1) = ps.length - 1 - k := by omega
      rw [e]
      cases p with
      | true =>
        simp only [if_true]
        rw [hmod _ hor, Nat.testBit_or, ihk, Nat.one_shiftLeft, Nat.testBit_two_pow]
        have : ¬ ps.length = ps.length - 1 - k := by omega
        simp [this]
      | false =>
        simp only [Bool.false_eq_true, if_false]
        exact ihk


theorem and_bit_ne_zero (data i : Nat) : decide (data &&& (1 <<< i) ≠ 0) = data.testBit i := by
  rw [Nat.one_shiftLeft]
  cases hb : data.testBit i with
  | true =>
    simp only [decide_eq_true_eq]
    intro h0
    have := congrArg (fun x => Nat.testBit x i) h0
    simp [Nat.testBit_and, hb, Nat.testBit_two_pow_self] at this
  | false =>
    simp only [decide_eq_false_iff_not, not_not]
    apply Nat.eq_of_testBit_eq
    intro j
    simp only [Nat.testBit_and, Nat.testBit_two_pow, Nat.zero_testBit]
    by_cases hj : i = j
    · subst hj; simp [hb]
    · simp [hj]

theorem write_get (α : Type) (pins : List α) (h : pins.length ≤ 16) (data k : Nat) :
    (write pins data)[k]? =
      pins[k]?.map (fun p => (p, data.testBit (pins.length - 1 - k))) := by
  induction pins generalizing data k with
  | nil => simp [write]
  | cons p ps ih =>
    have hl : ps.length ≤ 16 := by simp at h; omega
    simp only [write, width_eq, List.length_cons, Nat.add_sub_cancel, and_bit_ne_zero]
    cases k with
    | zero => simp
    | succ k =>
      simp only [List.getElem?_cons_succ]
      rw [ih hl]
      by_cases hk : k < ps.length
      · have e : ps.length - (k + 1) = ps.length - 1 - k := by omega
        have hb : ps.length - 1 - k < portBits ps.length := by
          have := le_portBits ps.length hl
          omega
        rw [e, Nat.testBit_mod_two_pow]
        simp [hb]
      · have : ps[k]? = none := by
          apply List.getElem?_eq_none; omega
        simp [this]

end SoftwareGpioPort

end Modm

namespace Modm

namespace Paa5100je

/-- What a completing poll of a run of `getMotionData` has read, by the log. -/
theorem getMotionData_log {s : St} (hp : Polling getMotionData s) (m : Motion)
    (h : (getMotionData s).1 = Res.done m) :
    ∃ base, ReadDone s.dev.ctx regMotionBurst 0 12 base (getMotionData s).2 := by
  obtain ⟨h0, base, hat⟩ := polling_getMotionData hp
  exact ⟨base, (getMotionData_step s.dev.ctx base s h0 rfl hat).2 m h⟩

/-- The returned flag as a condition on the bytes. -/
theorem motionValid_iff (sc : Nat → Nat) :
    motionValid sc = true ↔ ((sc 0).testBit 7 = true ∧ ¬ (sc 10 = 0x1F ∧ sc 6 < 0x19)) := by
  have hbit : ∀ x : Nat, (x &&& 0x80 != 0) = x.testBit 7 := by
    intro x
    have h7 := SoftwareGpioPort.and_bit_ne_zero x 7
    rw [← h7]
    by_cases hz : x &&& 0x80 = 0
    · have hz' : x &&& 1 <<< 7 = 0 := hz
      simp [hz, hz']
    · have hz' : ¬ x &&& 1 <<< 7 = 0 := hz
      simp [bne, hz, hz']
  unfold motionValid
  rw [hbit]
  simp only [Bool.and_eq_true, Bool.not_eq_true', Bool.and_eq_false_imp, beq_iff_eq,
    decide_eq_false_iff_not, decide_eq_true_eq, not_and]

/-- The bytes a transfer receives from an input that starts with them. -/
theorem map_getD_append (b r : List Nat) (hr : ∀ x ∈ b, x < 256) :
    List.map (fun k => (b ++ r)[k]?.getD 0 % 256) (List.range b.length) = b := by
  apply List.ext_getElem
  · simp
  · intro i h1 h2
    simp only [List.getElem_map, List.getElem_range]
    rw [List.getElem?_append_left h2, List.getElem?_eq_getElem h2]
    simp only [Option.getD_some]
    exact Nat.mod_eq_of_lt (hr _ (List.getElem_mem h2))

/-- On an input whose transfers have finished and whose clock readings pass the
deadlines, `getMotionData` completes in its first poll, and the log holds the one
read of MotionBurst with the bytes received. -/
theorem getMotionData_oneshot (f0 f1 c0 c1 c2 c3 : Nat) (b : List Nat) (hb : b.length = 12)
    (hr : ∀ x ∈ b, x < 256) (h0 : f0 ≠ 0) (h1 : f1 ≠ 0) (hc1 : c0 + 1 ≤ c1)
    (hc3 : c2 + 1 ≤ c3) :
    (∃ m, (getMotionData (bootState (f0 :: f1 :: (b ++ [c0, c1, c2, c3])))).1 = Res.done m) ∧
    readsOf 1 (getMotionData (bootState (f0 :: f1 :: (b ++ [c0, c1, c2, c3])))).2.bus.trace =
      [(regMotionBurst, b)] := by
  have hm := map_getD_append b [c0, c1, c2, c3] hr
  rw [hb] at hm
  constructor
  · simp [getMotionData, getMotionData_1, rfBegin, rfCall, rfWaitUntil, rfReturn,
      Paa5100je.read, read_acquire, read_csLow, read_addr, read_data, read_csHigh,
      setChipSelect, setChipSelect_wait1, setChipSelect_wait2, bootState, bootDev, setRf, popRf,
      acquireMaster, releaseMaster, csSetOutput, csRestart, csExecute, spiTransfer, St.peek,
      St.advance, St.log, St.advanceBy, St.peekBytes, Timeout.restart, Timeout.execute,
      Timeout.expired, hb, h0, h1, hc1, hc3]
  · simp [getMotionData, getMotionData_1, rfBegin, rfCall, rfWaitUntil, rfReturn,
      Paa5100je.read, read_acquire, read_csLow, read_addr, read_data, read_csHigh,
      setChipSelect, setChipSelect_wait1, setChipSelect_wait2, bootState, bootDev, setRf, popRf,
      acquireMaster, releaseMaster, csSetOutput, csRestart, csExecute, spiTransfer, St.peek,
      St.advance, St.log, St.advanceBy, St.peekBytes, Timeout.restart, Timeout.execute,
      Timeout.expired, hb, h0, h1, hc1, hc3, hm, readsOf, busView, viewStep, regMotionBurst]
    decide

/-- On a response input, `getMotionData` completes in its first poll, and the log
holds the one read of MotionBurst with the bytes of the response. -/
theorem getMotionData_prompt (b : List Nat) (hb : b.length = 12) (hr : ∀ x ∈ b, x < 256) :
    (∃ m, (getMotionData (bootState (responseInput b))).1 = Res.done m) ∧
    readsOf 1 (getMotionData (bootState (responseInput b))).2.bus.trace =
      [(regMotionBurst, b)] := by
  unfold responseInput
  exact getMotionData_oneshot 1 1 0 1 1 2 b hb hr (by decide) (by decide) (by decide)
    (by decide)

end Paa5100je

end Modm

namespace Modm

theorem initAt_congr (c : Nat) (s t : St) (h1 : t.dev.rfState = s.dev.rfState)
    (h2 : t.dev.scratch = s.dev.scratch)
    (hview : busView c t.bus.trace = busView c s.bus.trace) (h : InitAt c s) : InitAt c t := by
  unfold InitAt ReadAt readsOf scratchBytes at *
  rw [h1, h2, hview]
  exact h

theorem rfWaitUntil_pass {α : Type} (k : Nat) (cond : St → Bool × St) (rest : RF α) (s : St)
    (h : (cond (setRf k s)).1 = true) :
    rfWaitUntil k cond rest s = rest (cond (setRf k s)).2 := by
  simp [rfWaitUntil, h]

theorem rfWaitUntil_hold {α : Type} (k : Nat) (cond : St → Bool × St) (rest : RF α) (s : St)
    (h : (cond (setRf k s)).1 = false) :
    rfWaitUntil k cond rest s = (Res.running, popRf (cond (setRf k s)).2) := by
  simp [rfWaitUntil, h]

theorem initStep_stopped (c : Nat) (r : Res Bool) (s : St) (h1 : r ≠ Res.running)
    (h2 : ∀ v, r ≠ Res.done v) : InitStep c r s :=
  ⟨fun h => absurd h h1, fun v h => absurd h (h2 v)⟩

namespace Paa5100je

theorem initializeSensor_check_step (c : Nat) (s : St) (h : InitDone c s) :
    InitStep c (initializeSensor_check s).1 (initializeSensor_check s).2 := by
  unfold initializeSensor_check
  split_ifs <;>
  · refine ⟨fun hr => by simp [rfReturn] at hr, fun _ _ => ?_⟩
    exact h

theorem initializeSensor_6_step (c : Nat) (base : List (Nat × List Nat)) (s : St)
    (hl : s.dev.rfLevel = 1) (hc : s.dev.ctx = c)
    (hat : ReadAt c 1 regInverseProductID 1 1 ((regProductID, [s.dev.scratch 0]) :: base) s)
    (h0 : s.dev.scratch 0 < 256) :
    InitStep c (initializeSensor_6 s).1 (initializeSensor_6 s).2 := by
  obtain ⟨hstep, _, _, b3, _⟩ := read_called c 6 regInverseProductID 1 1 _ s hl hc
    (by decide) (by decide) hat
  have frame : (read regInverseProductID 1 1 (setRf 6 s)).2.dev.scratch 0 = s.dev.scratch 0 :=
    hstep.2.2 0 (Or.inl (by decide))
  unfold initializeSensor_6
  rcases hres : (read regInverseProductID 1 1 (setRf 6 s)).1 with _ | w | _ | _
  · rw [rfCall_running _ _ _ _ hres]
    refine ⟨fun _ => ⟨fun h5 => absurd (b3.symm.trans h5) (by decide), fun _ => ?_⟩,
      fun v hv => by simp at hv⟩
    have hA := hstep.1 hres
    rw [← frame] at hA
    exact ⟨base, readAt_congr c 1 _ 1 1 _ _ _ rfl rfl rfl hA, by
      show (read regInverseProductID 1 1 (setRf 6 s)).2.dev.scratch 0 < 256
      rw [frame]; exact h0⟩
  · rw [rfCall_done _ _ _ _ w hres]
    apply initializeSensor_check_step
    obtain ⟨hd1, hd2⟩ := hstep.2.1 w hres
    refine ⟨base, ?_, by rw [frame]; exact h0, hd2 _ (List.mem_singleton_self _)⟩
    rw [frame]
    exact hd1
  · rw [rfCall_nestingError _ _ _ _ hres]
    exact initStep_stopped _ _ _ (by simp) (by simp)
  · rw [rfCall_wrongState _ _ _ _ hres]
    exact initStep_stopped _ _ _ (by simp) (by simp)

theorem initializeSensor_5_step (c : Nat) (base : List (Nat × List Nat)) (s : St)
    (hl : s.dev.rfLevel = 1) (hc : s.dev.ctx = c)
    (hat : ReadAt c 1 regProductID 0 1 base s) :
    InitStep c (initializeSensor_5 s).1 (initializeSensor_5 s).2 := by
  obtain ⟨hstep, b1, b2, b3, b4⟩ := read_called c 5 regProductID 0 1 _ s hl hc
    (by decide) (by decide) hat
  unfold initializeSensor_5
  rcases hres : (read regProductID 0 1 (setRf 5 s)).1 with _ | w | _ | _
  · rw [rfCall_running _ _ _ _ hres]
    refine ⟨fun _ => ⟨fun _ => ⟨base, readAt_congr c 1 _ 0 1 _ _ _ rfl rfl rfl (hstep.1 hres)⟩,
      fun h6 => absurd (b3.symm.trans h6) (by decide)⟩, fun v hv => by simp at hv⟩
  · rw [rfCall_done _ _ _ _ w hres]
    obtain ⟨hd1, hd2⟩ := hstep.2.1 w hres
    have hz := b4 w hres
    refine initializeSensor_6_step c base _ b1 b2 ⟨fun _ => hd1, fun h => ?_, fun h => ?_⟩
      (hd2 _ (List.mem_singleton_self _))
    · rw [hz] at h; cases h
    · rw [hz] at h; cases h
  · rw [rfCall_nestingError _ _ _ _ hres]
    exact initStep_stopped _ _ _ (by simp) (by simp)
  · rw [rfCall_wrongState _ _ _ _ hres]
    exact initStep_stopped _ _ _ (by simp) (by simp)

theorem initializeSensor_4_step (c : Nat) (s : St) (hl : s.dev.rfLevel = 1)
    (hc : s.dev.ctx = c) : InitStep c (initializeSensor_4 s).1 (initializeSensor_4 s).2 := by
  have e3 : (setRf 4 s).dev.rfLevel = 1 := hl
  obtain ⟨a1, _, a3, a4, _⟩ := funcOK_writeMagic (setRf 4 s)
  rw [e3] at a1 a4
  have m0 : (writeMagic (setRf 4 s)).2.dev.rfState 0 = 4 := by
    rw [a4 0 (Or.inl (by decide))]
    simp [setRf, hl]
  unfold initializeSensor_4
  rcases hres : (writeMagic (setRf 4 s)).1 with _ | w | _ | _
  · rw [rfCall_running _ _ _ _ hres]
    exact ⟨fun _ => ⟨fun h5 => absurd (m0.symm.trans h5) (by decide),
      fun h6 => absurd (m0.symm.trans h6) (by decide)⟩, fun v hv => by simp at hv⟩
  · rw [rfCall_done _ _ _ _ w hres]
    have hz : (writeMagic (setRf 4 s)).2.dev.rfState 1 = 0 :=
      zeroFunc_writeMagic (setRf 4 s) w hres 1 (by rw [e3]) (by rw [e3]; omega)
    refine initializeSensor_5_step c (readsOf c (writeMagic (setRf 4 s)).2.bus.trace) _ a1
      (a3.trans hc) ⟨fun _ => rfl, fun h => ?_, fun h => ?_⟩
    · rw [hz] at h; cases h
    · rw [hz] at h; cases h
  · rw [rfCall_nestingError _ _ _ _ hres]
    exact initStep_stopped _ _ _ (by simp) (by simp)
  · rw [rfCall_wrongState _ _ _ _ hres]
    exact initStep_stopped _ _ _ (by simp) (by simp)

theorem initializeSensor_3_step (c : Nat) (s : St) (hl : s.dev.rfLevel = 1)
    (hc : s.dev.ctx = c) : InitStep c (initializeSensor_3 s).1 (initializeSensor_3 s).2 := by
  unfold initializeSensor_3
  by_cases hx : (waitExecute (setRf 3 s)).1 = true
  · rw [rfWaitUntil_pass _ _ _ _ hx]
    exact initializeSensor_4_step c _ hl hc
  · rw [rfWaitUntil_hold _ _ _ _ (by simpa using hx)]
    refine ⟨fun _ => ⟨fun h5 => ?_, fun h6 => ?_⟩, fun v hv => by simp at hv⟩
    · simp [popRf, waitExecute, setRf, St.advance, hl] at h5
    · simp [popRf, waitExecute, setRf, St.advance, hl] at h6

theorem initializeSensor_2_step (c : Nat) (s : St) (hl : s.dev.rfLevel = 1)
    (hc : s.dev.ctx = c) : InitStep c (initializeSensor_2 s).1 (initializeSensor_2 s).2 := by
  have e3 : (setRf 2 s).dev.rfLevel = 1 := hl
  obtain ⟨a1, _, a3, a4, _⟩ := funcOK_write regPowerUpReset 0x5a (setRf 2 s)
  rw [e3] at a1 a4
  have m0 : (write regPowerUpReset 0x5a (setRf 2 s)).2.dev.rfState 0 = 2 := by
    rw [a4 0 (Or.inl (by decide))]
    simp [setRf, hl]
  unfold initializeSensor_2
  rcases hres : (write regPowerUpReset 0x5a (setRf 2 s)).1 with _ | w | _ | _
  · rw [rfCall_running _ _ _ _ hres]
    exact ⟨fun _ => ⟨fun h5 => absurd (m0.symm.trans h5) (by decide),
      fun h6 => absurd (m0.symm.trans h6) (by decide)⟩, fun v hv => by simp at hv⟩
  · rw [rfCall_done _ _ _ _ w hres]
    exact initializeSensor_3_step c _ a1 (a3.trans hc)
  · rw [rfCall_nestingError _ _ _ _ hres]
    exact initStep_stopped _ _ _ (by simp) (by simp)
  · rw [rfCall_wrongState _ _ _ _ hres]
    exact initStep_stopped _ _ _ (by simp) (by simp)

theorem initializeSensor_1_step (c : Nat) (s : St) (hl : s.dev.rfLevel = 1)
    (hc : s.dev.ctx = c) : InitStep c (initializeSensor_1 s).1 (initializeSensor_1 s).2 := by
  unfold initializeSensor_1
  by_cases hx : (waitExecute (setRf 1 s)).1 = true
  · rw [rfWaitUntil_pass _ _ _ _ hx]
    exact initializeSensor_2_step c _ hl hc
  · rw [rfWaitUntil_hold _ _ _ _ (by simpa using hx)]
    refine ⟨fun _ => ⟨fun h5 => ?_, fun h6 => ?_⟩, fun v hv => by simp at hv⟩
    · simp [popRf, waitExecute, setRf, St.advance, hl] at h5
    · simp [popRf, waitExecute, setRf, St.advance, hl] at h6

/-- One poll of the sensor initialisation at level 0. -/
theorem initializeSensor_step (c : Nat) (s : St) (hl : s.dev.rfLevel = 0) (hc : s.dev.ctx = c)
    (h : InitAt c s) : InitStep c (initializeSensor s).1 (initializeSensor s).2 := by
  unfold initializeSensor rfBegin
  split
  swap
  · exact initStep_stopped _ _ _ (by simp) (by simp)
  generalize hs1 : ({ s with dev := { s.dev with rfLevel := s.dev.rfLevel + 1 } } : St) = s1
  have l1 : s1.dev.rfLevel = 1 := by rw [← hs1]; simp [hl]
  have c1 : s1.dev.ctx = c := by rw [← hs1]; exact hc
  have hA : InitAt c s1 := by rw [← hs1]; exact initAt_congr c s _ rfl rfl rfl h
  have hm : s1.dev.rfState 0 = s.dev.rfState s.dev.rfLevel := by rw [← hs1, hl]
  beta_reduce
  split_ifs with m0 m1 m2 m3 m4 m5 m6
  · exact initializeSensor_1_step c _ l1 c1
  · exact initializeSensor_1_step c _ l1 c1
  · exact initializeSensor_2_step c _ l1 c1
  · exact initializeSensor_3_step c _ l1 c1
  · exact initializeSensor_4_step c _ l1 c1
  · obtain ⟨base, hat⟩ := hA.1 (hm.trans m5)
    exact initializeSensor_5_step c base _ l1 c1 hat
  · obtain ⟨base, hat, hlt⟩ := hA.2 (hm.trans m6)
    exact initializeSensor_6_step c base _ l1 c1 hat hlt
  · exact initStep_stopped _ _ _ (by simp [rfWrongState]) (by simp [rfWrongState])

/-- Along a run of the sensor initialisation the identity reads stand as the log
says. -/
theorem polling_initializeSensor_log {s : St} (h : Polling initializeSensor s) :
    s.dev.rfLevel = 0 ∧ InitAt s.dev.ctx s := by
  induction h with
  | start s hq =>
    refine ⟨hq.1, fun h => ?_, fun h => ?_⟩
    · rw [hq.2 0] at h; cases h
    · rw [hq.2 0] at h; cases h
  | again s s1 others hp hrun hdev htr hoth ih =>
    obtain ⟨h0, hat⟩ := ih
    obtain ⟨a1, _, a3, _, _⟩ := funcOK_initializeSensor s
    have hstep := (initializeSensor_step s.dev.ctx s h0 rfl hat).1 hrun
    have hctx : s1.dev.ctx = s.dev.ctx := by rw [hdev]; exact a3
    refine ⟨by rw [hdev]; exact a1.trans h0, ?_⟩
    rw [hctx]
    refine initAt_congr _ (initializeSensor s).2 s1 (by rw [hdev]) (by rw [hdev]) ?_ hstep
    rw [htr]
    exact busView_append_others _ _ _ hoth

/-- What a completing poll of a run of the sensor initialisation has read, by the
log. -/
theorem initializeSensor_log {s : St} (hp : Polling initializeSensor s) (v : Bool)
    (h : (initializeSensor s).1 = Res.done v) :
    InitDone s.dev.ctx (initializeSensor s).2 := by
  obtain ⟨h0, hat⟩ := polling_initializeSensor_log hp
  exact (initializeSensor_step s.dev.ctx s h0 rfl hat).2 v h

/-- The two identity reads run in one poll when the environment answers at once:
the poll completes, and the log gains the read of ProductID with `a` and then the
read of InverseProductID with `b`. -/
theorem initializeSensor_identity_explicit (ctx : Nat) (m sc : Nat → Nat) (w ct : Timeout)
    (cs : Bool) (token : Option Nat) (tr : List Event)
    (a b f0 f1 c0 c1 c2 c3 g0 g1 d0 d1 d2 d3 : Nat)
    (hm0 : m 0 = 5) (hm1 : m 1 = 3) (hm2 : m 2 = 0)
    (ha : a < 256) (hb : b < 256) (hf0 : f0 ≠ 0) (hf1 : f1 ≠ 0) (hg0 : g0 ≠ 0) (hg1 : g1 ≠ 0)
    (hc1 : c0 + 1 ≤ c1) (hc3 : c2 + 1 ≤ c3) (hd1 : d0 + 1 ≤ d1) (hd3 : d2 + 1 ≤ d3) :
    (∃ v, (initializeSensor
      { dev := { ctx := ctx, levels := 4, rfLevel := 0, rfState := m, scratch := sc, wait := w,
                 cs_timeout := ct, cs := cs },
        bus := { token := token, input := [f0, f1, a, c0, c1, c2, c3, g0, g1, b, d0, d1, d2, d3],
                 trace := tr } }).1 = Res.done v) ∧
    readsOf ctx (initializeSensor
      { dev := { ctx := ctx, levels := 4, rfLevel := 0, rfState := m, scratch := sc, wait := w,
                 cs_timeout := ct, cs := cs },
        bus := { token := token, input := [f0, f1, a, c0, c1, c2, c3, g0, g1, b, d0, d1, d2, d3],
                 trace := tr } }).2.bus.trace =
      (regInverseProductID, [b]) :: (regProductID, [a]) :: readsOf ctx tr := by
  have h95 : (95 &&& 127 : Nat) = 95 := by decide
  have hr1 : List.range 1 = [0] := rfl
  have hma : a % 256 = a := Nat.mod_eq_of_lt ha
  have hmb : b % 256 = b := Nat.mod_eq_of_lt hb
  simp [initializeSensor, initializeSensor_5, initializeSensor_6, initializeSensor_check,
    rfBegin, rfCall, rfWaitUntil, rfReturn,
    Paa5100je.read, read_acquire, read_csLow, read_addr, read_data, read_csHigh,
    setChipSelect, setChipSelect_wait1, setChipSelect_wait2, setRf, popRf,
    acquireMaster, releaseMaster, csSetOutput, csRestart, csExecute, spiTransfer, St.peek,
    St.advance, St.log, St.advanceBy, St.peekBytes, Timeout.restart, Timeout.execute,
    Timeout.expired, hm0, hm1, hm2, hf0, hf1, hg0, hg1, hc1, hc3, hd1, hd3]
  split_ifs <;>
  simp [readsOf, busView, viewStep, List.foldl_append, regInverseProductID, regProductID,
    h95, hr1, hma, hmb]

/-- The same for any state that stands at the address transfer of the read of
ProductID. -/
theorem initializeSensor_identity (s : St) (a b f0 f1 c0 c1 c2 c3 g0 g1 d0 d1 d2 d3 : Nat)
    (hlev : s.dev.rfLevel = 0) (hlv : s.dev.levels = 4)
    (hm0 : s.dev.rfState 0 = 5) (hm1 : s.dev.rfState 1 = 3) (hm2 : s.dev.rfState 2 = 0)
    (hin : s.bus.input = [f0, f1, a, c0, c1, c2, c3, g0, g1, b, d0, d1, d2, d3])
    (ha : a < 256) (hb : b < 256) (hf0 : f0 ≠ 0) (hf1 : f1 ≠ 0) (hg0 : g0 ≠ 0) (hg1 : g1 ≠ 0)
    (hc1 : c0 + 1 ≤ c1) (hc3 : c2 + 1 ≤ c3) (hd1 : d0 + 1 ≤ d1) (hd3 : d2 + 1 ≤ d3) :
    (∃ v, (initializeSensor s).1 = Res.done v) ∧
    readsOf s.dev.ctx (initializeSensor s).2.bus.trace =
      (regInverseProductID, [b]) :: (regProductID, [a]) :: readsOf s.dev.ctx s.bus.trace := by
  obtain ⟨⟨ctx, levels, rfLevel, m, sc, w, ct, cs⟩, ⟨token, input, tr⟩⟩ := s
  simp only at hlev hlv hm0 hm1 hm2 hin
  subst hlev hlv hin
  exact initializeSensor_identity_explicit ctx m sc w ct cs token tr a b f0 f1 c0 c1 c2 c3
    g0 g1 d0 d1 d2 d3 hm0 hm1 hm2 ha hb hf0 hf1 hg0 hg1 hc1 hc3 hd1 hd3

set_option maxRecDepth 1000000 in
/-- The first poll of the sensor initialisation on `warmupInput` suspends at
the address transfer of the read of ProductID. -/
theorem warmupInput_poll :
    (initializeSensor (bootState warmupInput)).1 = Res.running ∧
    (initializeSensor (bootState warmupInput)).2.dev.rfState 0 = 5 ∧
    (initializeSensor (bootState warmupInput)).2.dev.rfState 1 = 3 ∧
    (initializeSensor (bootState warmupInput)).2.dev.rfState 2 = 0 := by
  decide

/-- The value the sensor initialisation returns, by the two bytes in `scratch`. -/
theorem initializeSensor_value (s : St) (v : Bool) (h : (initializeSensor s).1 = Res.done v)
    (h1 : (initializeSensor s).2.dev.scratch 1 < 256) :
    (v = true ↔ ((initializeSensor s).2.dev.scratch 0 = 0x49 ∧
      (initializeSensor s).2.dev.scratch 1 = 0xB6)) ∧
    (v = false ↔ ¬ ((initializeSensor s).2.dev.scratch 0 = 0x49 ∧
      (initializeSensor s).2.dev.scratch 1 = 0xB6)) := by
  have hr := ensures_initializeSensor s v h
  simp only [ExpectedProductID] at hr
  have hiff : v = true ↔ ((initializeSensor s).2.dev.scratch 0 = 0x49 ∧
      (initializeSensor s).2.dev.scratch 1 = 0xB6) := by
    rw [hr]
    constructor
    · rintro ⟨e1, e2⟩
      exact ⟨e1, by omega⟩
    · rintro ⟨e1, e2⟩
      exact ⟨e1, by omega⟩
  refine ⟨hiff, ?_⟩
  rw [← hiff]
  cases v <;> simp

/-- The run through `identityState a b`: the state is one of a run, its poll
completes with the value the bytes `a` and `b` decide, and the log gains the two
identity reads with these bytes. -/
theorem identityState_run (a b : Nat) (ha : a < 256) (hb : b < 256) :
    Polling initializeSensor (identityState a b) ∧
    ∃ v, (initializeSensor (identityState a b)).1 = Res.done v ∧
      (v = true ↔ (a = 0x49 ∧ b = 0xB6)) ∧
      readsOf 1 (initializeSensor (identityState a b)).2.bus.trace =
        (regInverseProductID, [b]) :: (regProductID, [a]) ::
          readsOf 1 (identityState a b).bus.trace := by
  obtain ⟨p1, p2, p3, p4⟩ := warmupInput_poll
  obtain ⟨a1, a2, a3, _, _⟩ := funcOK_initializeSensor (bootState warmupInput)
  have hdev : (identityState a b).dev = (initializeSensor (bootState warmupInput)).2.dev := by
    simp only [identityState, resumeWith]
  have hin : (identityState a b).bus.input = identityInput a b := by
    simp only [identityState, resumeWith]
  have htr : (identityState a b).bus.trace =
      (initializeSensor (bootState warmupInput)).2.bus.trace ++ [] := by
    simp only [identityState, resumeWith, List.append_nil]
  have b1 : (bootState warmupInput).dev.rfLevel = 0 := rfl
  have b2 : (bootState warmupInput).dev.levels = 4 := rfl
  have b3 : (bootState warmupInput).dev.ctx = 1 := rfl
  have hp : Polling initializeSensor (identityState a b) :=
    Polling.again (bootState warmupInput) (identityState a b) []
      (Polling.start _ ⟨b1, fun _ => rfl⟩) p1 hdev htr (by simp)
  have hctx : (identityState a b).dev.ctx = 1 := by rw [hdev]; exact a3.trans b3
  obtain ⟨⟨v, hv⟩, hlog⟩ := initializeSensor_identity (identityState a b) a b
    1 1 129100000 129100001 129100002 129100003 1 1 129100004 129100005 129100006 129100007
    (by rw [hdev]; exact a1.trans b1) (by rw [hdev]; exact a2.trans b2)
    (by rw [hdev]; exact p2) (by rw [hdev]; exact p3) (by rw [hdev]; exact p4) hin ha hb
    (by decide) (by decide) (by decide) (by decide)
    (by decide) (by decide) (by decide) (by decide)
  rw [hctx] at hlog
  refine ⟨hp, v, hv, ?_, hlog⟩
  obtain ⟨base, hd, _, h1⟩ := initializeSensor_log hp v hv
  rw [hctx, hlog] at hd
  have e1 : b = (initializeSensor (identityState a b)).2.dev.scratch 1 := by
    have := (List.cons.inj hd).1
    simpa using this
  have e0 : a = (initializeSensor (identityState a b)).2.dev.scratch 0 := by
    have := (List.cons.inj (List.cons.inj hd).2).1
    simpa using this
  have hval := (initializeSensor_value _ v hv h1).1
  rw [← e0, ← e1] at hval
  exact hval

end Paa5100je

end Modm

namespace Modm

namespace Paa5100je

/-! ## The round bound of `writeRaw` is never used up -/

/-- One more round of bound changes nothing once the bound covers the rounds that
are left: after the body the counter is `(i + 2) % 65536`, and from there it
grows by 2 per round up to `Len`. -/
theorem writeRaw_loop_succ (Val : List Nat) (hL : Val.length ≤ 65534) (f : Nat) :
    ∀ label i, Val.length ≤ (i + 2) % 65536 + 2 * f →
      writeRaw_loop Val (f + 1) label i = writeRaw_loop Val (f + 2) label i := by
  induction f with
  | zero =>
    intro label i h
    have hn : (fun s => if (i + 2) % 65536 < Val.length then
          writeRaw_loop Val 0 2 ((i + 2) % 65536) s else writeRaw_finish s) =
        (fun s => if (i + 2) % 65536 < Val.length then
          writeRaw_loop Val 1 2 ((i + 2) % 65536) s else writeRaw_finish s) := by
      funext s
      have hge : ¬ (i + 2) % 65536 < Val.length := by omega
      rw [if_neg hge, if_neg hge]
    show writeRaw_body Val label i _ = writeRaw_body Val label i _
    rw [hn]
  | succ f ih =>
    intro label i h
    have hn : (fun s => if (i + 2) % 65536 < Val.length then
          writeRaw_loop Val (f + 1) 2 ((i + 2) % 65536) s else writeRaw_finish s) =
        (fun s => if (i + 2) % 65536 < Val.length then
          writeRaw_loop Val (f + 2) 2 ((i + 2) % 65536) s else writeRaw_finish s) := by
      funext s
      by_cases hlt : (i + 2) % 65536 < Val.length
      · rw [if_pos hlt, if_pos hlt]
        have hj : ((i + 2) % 65536 + 2) % 65536 = (i + 2) % 65536 + 2 :=
          Nat.mod_eq_of_lt (by omega)
        rw [ih 2 ((i + 2) % 65536) (by rw [hj]; omega)]
      · rw [if_neg hlt, if_neg hlt]
    show writeRaw_body Val label i _ = writeRaw_body Val label i _
    rw [hn]

/-- The bound `Len + 1` that `writeRaw` passes is never used up: any larger bound
gives the same function, whatever the step and the counter it is entered with. -/
theorem writeRaw_loop_bound (Val : List Nat) (hL : Val.length ≤ 65534) (k label i : Nat) :
    writeRaw_loop Val (Val.length + 1 + k) label i =
      writeRaw_loop Val (Val.length + 1) label i := by
  induction k with
  | zero => rfl
  | succ k ih =>
    rw [← ih]
    have e1 : Val.length + 1 + (k + 1) = Val.length + k + 2 := by omega
    have e2 : Val.length + 1 + k = Val.length + k + 1 := by omega
    rw [e1, e2]
    exact (writeRaw_loop_succ Val hL (Val.length + k) label i (by omega)).symm

end Paa5100je

end Modm

namespace Modm

namespace Scheduler

/-! ## Sleeping fibers under the run-loop -/

theorem visit_visits (r : Sched) (v : Visit) :
    (r.visit v).visits = r.visits ++ [(r.next, v.now)] := by
  unfold Sched.visit
  split <;> rfl

theorem visit_other (r : Sched) (v : Visit) (j : Nat) (hj : r.next ≠ j) :
    (r.visit v).roster[j]? = r.roster[j]? := by
  unfold Sched.visit
  split <;> exact List.getElem?_set_ne hj

theorem visit_ready (r : Sched) (v : Visit)
    (h : wake v.now (r.roster.getD r.next FiberState.finished) = FiberState.ready) :
    (r.visit v).turns = r.turns ++ [(r.next, v.now)] := by
  unfold Sched.visit
  rw [h]

theorem visit_asleep (r : Sched) (v : Visit) (d : Nat)
    (h : wake v.now (r.roster.getD r.next FiberState.finished) = FiberState.sleeping d) :
    (r.visit v).turns = r.turns ∧
    (r.visit v).roster = r.roster.set r.next (FiberState.sleeping d) := by
  unfold Sched.visit
  rw [h]
  exact ⟨rfl, rfl⟩

theorem visit_turns (r : Sched) (v : Visit) :
    (r.visit v).turns = r.turns ∨ (r.visit v).turns = r.turns ++ [(r.next, v.now)] := by
  unfold Sched.visit
  split
  · right; rfl
  · left; rfl

theorem wake_sleeping (now d : Nat) :
    (now < d → wake now (FiberState.sleeping d) = FiberState.sleeping d) ∧
    (d ≤ now → wake now (FiberState.sleeping d) = FiberState.ready) := by
  constructor
  · intro h
    simp [wake, Nat.not_le.mpr h]
  · intro h
    simp [wake, h]

theorem sleepInv_visit (a b dA dB : Nat) (hab : dA < dB) (r : Sched) (v : Visit)
    (hv : v.now < dB) (h : SleepInv a b dA dB r) : SleepInv a b dA dB (r.visit v) := by
  obtain ⟨hb, hbt, ha⟩ := h
  have hne : a ≠ b := by
    rintro rfl
    rcases ha with ⟨ha1, _, _⟩ | ⟨⟨t, ht, _⟩, _⟩
    · rw [hb] at ha1
      have := FiberState.sleeping.inj (Option.some.inj ha1)
      omega
    · exact hbt t ht
  have hvis := visit_visits r v
  by_cases hnb : r.next = b
  · -- the scan is at `b`, which stays asleep
    have hget : r.roster.getD r.next FiberState.finished = FiberState.sleeping dB := by
      rw [List.getD_eq_getElem?_getD, hnb, hb]
      rfl
    have hw : wake v.now (r.roster.getD r.next FiberState.finished) =
        FiberState.sleeping dB := by
      rw [hget]; exact (wake_sleeping v.now dB).1 hv
    obtain ⟨ht, hr⟩ := visit_asleep r v dB hw
    have hblen : b < r.roster.length := by
      rcases Nat.lt_or_ge b r.roster.length with h | h
      · exact h
      · rw [List.getElem?_eq_none h] at hb; cases hb
    refine ⟨?_, ?_, ?_⟩
    · rw [hr, hnb, List.getElem?_set_self hblen]
    · rw [ht]; exact hbt
    · have hao : (r.visit v).roster[a]? = r.roster[a]? :=
        visit_other r v a (by rw [hnb]; exact fun h => hne h.symm)
      rcases ha with ⟨ha1, ha2, ha3⟩ | ⟨⟨t, ht1, ht2⟩, ⟨t', ht3, ht4⟩⟩
      · left
        refine ⟨hao.trans ha1, by rw [ht]; exact ha2, ?_⟩
        intro t hmem
        rw [hvis, List.mem_append] at hmem
        rcases hmem with hmem | hmem
        · exact ha3 t hmem
        · simp only [List.mem_singleton, Prod.mk.injEq] at hmem
          exact absurd (hmem.1.trans hnb) hne
      · right
        exact ⟨⟨t, by rw [ht]; exact ht1, ht2⟩, ⟨t', by rw [hvis]; simp [ht3], ht4⟩⟩
  · -- the scan is at another fiber: `b` is untouched
    have hbo : (r.visit v).roster[b]? = some (FiberState.sleeping dB) :=
      (visit_other r v b hnb).trans hb
    have hbt' : ∀ t, (b, t) ∉ (r.visit v).turns := by
      intro t hmem
      rcases visit_turns r v with hh | hh
      · rw [hh] at hmem; exact hbt t hmem
      · rw [hh, List.mem_append] at hmem
        rcases hmem with hmem | hmem
        · exact hbt t hmem
        · simp only [List.mem_singleton, Prod.mk.injEq] at hmem
          exact hnb hmem.1.symm
    refine ⟨hbo, hbt', ?_⟩
    rcases ha with ⟨ha1, ha2, ha3⟩ | ⟨⟨t, ht1, ht2⟩, ⟨t', ht3, ht4⟩⟩
    · by_cases hna : r.next = a
      · have hget : r.roster.getD r.next FiberState.finished = FiberState.sleeping dA := by
          rw [List.getD_eq_getElem?_getD, hna, ha1]
          rfl
        rcases Nat.lt_or_ge v.now dA with hlt | hge
        · have hw : wake v.now (r.roster.getD r.next FiberState.finished) =
              FiberState.sleeping dA := by
            rw [hget]; exact (wake_sleeping v.now dA).1 hlt
          obtain ⟨ht, hr⟩ := visit_asleep r v dA hw
          have halen : a < r.roster.length := by
            rcases Nat.lt_or_ge a r.roster.length with h | h
            · exact h
            · rw [List.getElem?_eq_none h] at ha1; cases ha1
          left
          refine ⟨by rw [hr, hna, List.getElem?_set_self halen], by rw [ht]; exact ha2, ?_⟩
          intro t hmem
          rw [hvis, List.mem_append] at hmem
          rcases hmem with hmem | hmem
          · exact ha3 t hmem
          · simp only [List.mem_singleton, Prod.mk.injEq] at hmem
            rw [hmem.2]; exact hlt
        · have hw : wake v.now (r.roster.getD r.next FiberState.finished) =
              FiberState.ready := by
            rw [hget]; exact (wake_sleeping v.now dA).2 hge
          have ht := visit_ready r v hw
          right
          exact ⟨⟨v.now, by rw [ht, hna]; simp, hge, hv⟩,
            ⟨v.now, by rw [hvis, hna]; simp, hge⟩⟩
      · left
        refine ⟨(visit_other r v a hna).trans ha1, ?_, ?_⟩
        · intro t hmem
          rcases visit_turns r v with hh | hh
          · rw [hh] at hmem; exact ha2 t hmem
          · rw [hh, List.mem_append] at hmem
            rcases hmem with hmem | hmem
            · exact ha2 t hmem
            · simp only [List.mem_singleton, Prod.mk.injEq] at hmem
              exact hna hmem.1.symm
        · intro t hmem
          rw [hvis, List.mem_append] at hmem
          rcases hmem with hmem | hmem
          · exact ha3 t hmem
          · simp only [List.mem_singleton, Prod.mk.injEq] at hmem
            exact absurd hmem.1.symm hna
    · right
      refine ⟨⟨t, ?_, ht2⟩, ⟨t', by rw [hvis]; simp [ht3], ht4⟩⟩
      rcases visit_turns r v with hh | hh
      · rw [hh]; exact ht1
      · rw [hh]; simp [ht1]

theorem sleepInv_run (a b dA dB : Nat) (hab : dA < dB) (vs : List Visit) :
    ∀ r : Sched, (∀ v ∈ vs, v.now < dB) → SleepInv a b dA dB r →
      SleepInv a b dA dB (r.run vs) := by
  induction vs with
  | nil => exact fun r _ h => h
  | cons v vs ih =>
    intro r hv h
    exact ih (r.visit v) (fun w hw => hv w (List.mem_cons_of_mem _ hw))
      (sleepInv_visit a b dA dB hab r v (hv v (List.mem_cons_self _ _)) h)

end Scheduler

end Modm
namespace Modm

/-! ## The log of one instance -/

namespace Paa5100je

end Paa5100je

end Modm
namespace Modm

/-! ## One register transaction in the log of its instance -/

namespace Paa5100je

theorem storeBytes_nil (scratch : Nat → Nat) (dst : Nat) : storeBytes scratch dst [] = scratch := by
  funext j
  simp [storeBytes]

end Paa5100je

end Modm
namespace Modm

/-! ## Invocations that keep the frame -/

theorem rfWaitUntilK_pass {α φ : Type} (k : Nat) (cond : St → Bool × St) (rest : RFK φ α)
    (loc : φ) (s : St) (h : (cond (setRf k s)).1 = true) :
    rfWaitUntilK k cond rest loc s = rest loc (cond (setRf k s)).2 := by
  simp [rfWaitUntilK, h]

theorem rfWaitUntilK_hold {α φ : Type} (k : Nat) (cond : St → Bool × St) (rest : RFK φ α)
    (loc : φ) (s : St) (h : (cond (setRf k s)).1 = false) :
    rfWaitUntilK k cond rest loc s = ((Res.running, loc), popRf (cond (setRf k s)).2) := by
  simp [rfWaitUntilK, h]

namespace Paa5100je

end Paa5100je

end Modm
namespace Modm

/-! ## The rounds of `writeRaw` in the log of its instance -/

namespace Paa5100je

theorem writeRawK_loop_done (Val : List Nat) (fuel label i : Nat) (s : St) (v : Unit)
    (h : (writeRaw_body Val label i bodyEnd s).1 = Res.done v) :
    writeRawK_loop Val (fuel + 1) label i s =
      if (i + 2) % 65536 < Val.length then
        writeRawK_loop Val fuel 2 ((i + 2) % 65536) (writeRaw_body Val label i bodyEnd s).2
      else liftK writeRaw_finish ((i + 2) % 65536) (writeRaw_body Val label i bodyEnd s).2 := by
  rw [writeRawK_loop]
  simp only [h]

theorem writeRawK_loop_running (Val : List Nat) (fuel label i : Nat) (s : St)
    (h : (writeRaw_body Val label i bodyEnd s).1 = Res.running) :
    writeRawK_loop Val (fuel + 1) label i s =
      ((Res.running, i), (writeRaw_body Val label i bodyEnd s).2) := by
  rw [writeRawK_loop]
  simp only [h]

theorem writeRawK_loop_nestingError (Val : List Nat) (fuel label i : Nat) (s : St)
    (h : (writeRaw_body Val label i bodyEnd s).1 = Res.nestingError) :
    writeRawK_loop Val (fuel + 1) label i s =
      ((Res.nestingError, i), (writeRaw_body Val label i bodyEnd s).2) := by
  rw [writeRawK_loop]
  simp only [h]

theorem writeRawK_loop_wrongState (Val : List Nat) (fuel label i : Nat) (s : St)
    (h : (writeRaw_body Val label i bodyEnd s).1 = Res.wrongState) :
    writeRawK_loop Val (fuel + 1) label i s =
      ((Res.wrongState, i), (writeRaw_body Val label i bodyEnd s).2) := by
  rw [writeRawK_loop]
  simp only [h]

end Paa5100je

end Modm
namespace Modm

/-! ## The three writes of `setLed` in the log of its instance -/

namespace Paa5100je

end Paa5100je

end Modm
namespace Modm

/-! ## The frame of `writeRaw` and the counter read from the input -/

namespace Paa5100je

/-- What follows the loop body runs when the body has completed, and only then. -/
theorem writeRaw_body_split (Val : List Nat) (label i : Nat) (next : RF Unit) (s : St) :
    writeRaw_body Val label i next s =
      match (writeRaw_body Val label i bodyEnd s).1 with
      | Res.done _ => next (writeRaw_body Val label i bodyEnd s).2
      | Res.running => (Res.running, (writeRaw_body Val label i bodyEnd s).2)
      | Res.nestingError => (Res.nestingError, (writeRaw_body Val label i bodyEnd s).2)
      | Res.wrongState => (Res.wrongState, (writeRaw_body Val label i bodyEnd s).2) := by
  have h4 : ∀ t, writeRaw_csHigh next t =
      match (writeRaw_csHigh bodyEnd t).1 with
      | Res.done _ => next (writeRaw_csHigh bodyEnd t).2
      | Res.running => (Res.running, (writeRaw_csHigh bodyEnd t).2)
      | Res.nestingError => (Res.nestingError, (writeRaw_csHigh bodyEnd t).2)
      | Res.wrongState => (Res.wrongState, (writeRaw_csHigh bodyEnd t).2) := by
    intro t
    unfold writeRaw_csHigh
    rcases hres : (setChipSelect true (setRf 4 t)).1 with _ | w | _ | _
    · rw [rfCall_running _ _ _ _ hres, rfCall_running _ _ _ _ hres]
    · rw [rfCall_done _ _ _ _ w hres, rfCall_done _ _ _ _ w hres]
      rfl
    · rw [rfCall_nestingError _ _ _ _ hres, rfCall_nestingError _ _ _ _ hres]
    · rw [rfCall_wrongState _ _ _ _ hres, rfCall_wrongState _ _ _ _ hres]
  have h3 : ∀ t, writeRaw_xfer Val i next t =
      match (writeRaw_xfer Val i bodyEnd t).1 with
      | Res.done _ => next (writeRaw_xfer Val i bodyEnd t).2
      | Res.running => (Res.running, (writeRaw_xfer Val i bodyEnd t).2)
      | Res.nestingError => (Res.nestingError, (writeRaw_xfer Val i bodyEnd t).2)
      | Res.wrongState => (Res.wrongState, (writeRaw_xfer Val i bodyEnd t).2) := by
    intro t
    unfold writeRaw_xfer
    rcases hres : (spiTransfer [Val.getD i 0, Val.getD (i + 1) 0] 0 0 (setRf 3 t)).1 with
      _ | w | _ | _
    · rw [rfCall_running _ _ _ _ hres, rfCall_running _ _ _ _ hres]
    · rw [rfCall_done _ _ _ _ w hres, rfCall_done _ _ _ _ w hres]
      exact h4 _
    · rw [rfCall_nestingError _ _ _ _ hres, rfCall_nestingError _ _ _ _ hres]
    · rw [rfCall_wrongState _ _ _ _ hres, rfCall_wrongState _ _ _ _ hres]
  have h2 : ∀ t, writeRaw_csLow Val i next t =
      match (writeRaw_csLow Val i bodyEnd t).1 with
      | Res.done _ => next (writeRaw_csLow Val i bodyEnd t).2
      | Res.running => (Res.running, (writeRaw_csLow Val i bodyEnd t).2)
      | Res.nestingError => (Res.nestingError, (writeRaw_csLow Val i bodyEnd t).2)
      | Res.wrongState => (Res.wrongState, (writeRaw_csLow Val i bodyEnd t).2) := by
    intro t
    unfold writeRaw_csLow
    rcases hres : (setChipSelect false (setRf 2 t)).1 with _ | w | _ | _
    · rw [rfCall_running _ _ _ _ hres, rfCall_running _ _ _ _ hres]
    · rw [rfCall_done _ _ _ _ w hres, rfCall_done _ _ _ _ w hres]
      exact h3 _
    · rw [rfCall_nestingError _ _ _ _ hres, rfCall_nestingError _ _ _ _ hres]
    · rw [rfCall_wrongState _ _ _ _ hres, rfCall_wrongState _ _ _ _ hres]
  unfold writeRaw_body
  split_ifs
  · exact h2 s
  · exact h3 s
  · exact h4 s

/-- The loop with its frame takes the steps of the loop of `writeRaw`. -/
theorem writeRawK_loop_agrees (Val : List Nat) (fuel label i : Nat) (s : St) :
    ((writeRawK_loop Val fuel label i s).1.1, (writeRawK_loop Val fuel label i s).2) =
      writeRaw_loop Val fuel label i s := by
  induction fuel generalizing label i s with
  | zero => rfl
  | succ fuel ih =>
    rw [writeRaw_loop, writeRaw_body_split]
    rcases hres : (writeRaw_body Val label i bodyEnd s).1 with _ | w | _ | _
    · rw [writeRawK_loop_running _ _ _ _ _ hres]
    · rw [writeRawK_loop_done _ _ _ _ _ w hres]
      simp only []
      split_ifs
      · exact ih _ _ _
      · rfl
    · rw [writeRawK_loop_nestingError _ _ _ _ _ hres]
    · rw [writeRawK_loop_wrongState _ _ _ _ _ hres]

/-- An invocation of `writeRaw` with its frame is an invocation of `writeRaw`: as
it is when the call starts or waits for the bus, and, when the call is resumed
inside the loop, with the counter read from the input being the one the frame
holds. -/
theorem writeRawK_poll (Val : List Nat) (i : Nat) (s : St) :
    (s.dev.rfState s.dev.rfLevel ≤ 1 →
      ((writeRawK Val i s).1.1, (writeRawK Val i s).2) = writeRaw Val s) ∧
    ((s.dev.rfState s.dev.rfLevel = 2 ∨ s.dev.rfState s.dev.rfLevel = 3 ∨
        s.dev.rfState s.dev.rfLevel = 4) → s.dev.rfLevel < s.dev.levels → i < 65536 →
      ((writeRawK Val i s).1.1, (writeRawK Val i s).2) =
        writeRaw Val (resumeWith s (i :: s.bus.input))) := by
  constructor
  · intro hm
    unfold writeRawK writeRaw rfBeginK rfBegin
    split
    swap
    · rfl
    generalize ({ s with dev := { s.dev with rfLevel := s.dev.rfLevel + 1 } } : St) = s1
    have hacq : ((writeRawK_acquire Val i s1).1.1, (writeRawK_acquire Val i s1).2) =
        writeRaw_acquire Val s1 := by
      unfold writeRawK_acquire writeRaw_acquire
      by_cases hx : (acquireMaster (setRf 1 s1)).1 = true
      · rw [rfWaitUntilK_pass _ _ _ _ _ hx, rfWaitUntil_pass _ _ _ _ hx]
        split_ifs
        · exact writeRawK_loop_agrees _ _ _ _ _
        · rfl
      · have hx' : (acquireMaster (setRf 1 s1)).1 = false := by simpa using hx
        rw [rfWaitUntilK_hold _ _ _ _ _ hx', rfWaitUntil_hold _ _ _ _ hx']
    beta_reduce
    by_cases m0 : s.dev.rfState s.dev.rfLevel = 0
    · rw [if_pos m0, if_pos m0]
      exact hacq
    · have m1 : s.dev.rfState s.dev.rfLevel = 1 := by omega
      rw [if_neg m0, if_neg m0, if_pos m1, if_pos m1]
      exact hacq
  · intro hm hlv hi
    unfold writeRawK writeRaw rfBeginK rfBegin
    have e1 : (resumeWith s (i :: s.bus.input)).dev = s.dev := rfl
    rw [e1, if_pos hlv, if_pos hlv]
    beta_reduce
    rw [if_neg (by omega), if_neg (by omega), if_pos hm, if_neg (by omega), if_neg (by omega),
      if_pos hm]
    rw [← writeRawK_loop_agrees]
    have e2 : i % 65536 = i := Nat.mod_eq_of_lt hi
    show _ = ((writeRawK_loop Val (Val.length + 1) (s.dev.rfState s.dev.rfLevel) (i % 65536)
        { s with dev := { s.dev with rfLevel := s.dev.rfLevel + 1 } }).1.1,
      (writeRawK_loop Val (Val.length + 1) (s.dev.rfState s.dev.rfLevel) (i % 65536)
        { s with dev := { s.dev with rfLevel := s.dev.rfLevel + 1 } }).2)
    rw [e2]

end Paa5100je

end Modm
namespace Modm

namespace Scheduler

/-! ## The round-robin scan -/

theorem run_append (r : Sched) (xs ys : List Visit) :
    r.run (xs ++ ys) = (r.run xs).run ys := by
  simp [Sched.run, List.foldl_append]

theorem visit_roster_length (r : Sched) (v : Visit) :
    (r.visit v).roster.length = r.roster.length := by
  unfold Sched.visit
  split <;> simp

theorem visit_next (r : Sched) (v : Visit) (h : r.next < r.roster.length) :
    (r.visit v).next = (r.next + 1) % r.roster.length := by
  have : (r.visit v).next = r.advance := by
    unfold Sched.visit
    split <;> rfl
  rw [this]
  unfold Sched.advance
  split
  · rw [Nat.mod_eq_of_lt (by assumption)]
  · have : r.next + 1 = r.roster.length := by omega
    rw [this, Nat.mod_self]

/-- The scan is round-robin: after `ws.length` steps it stands `ws.length`
positions further, counted around the roster. -/
theorem run_next (ws : List Visit) :
    ∀ r : Sched, r.next < r.roster.length →
      (r.run ws).roster.length = r.roster.length ∧
      (r.run ws).next = (r.next + ws.length) % r.roster.length := by
  induction ws with
  | nil =>
    intro r h
    exact ⟨rfl, (Nat.mod_eq_of_lt h).symm⟩
  | cons v ws ih =>
    intro r h
    have hl := visit_roster_length r v
    have hn := visit_next r v h
    have hlt : (r.visit v).next < (r.visit v).roster.length := by
      rw [hn, hl]
      exact Nat.mod_lt _ (by omega)
    obtain ⟨i1, i2⟩ := ih (r.visit v) hlt
    refine ⟨i1.trans hl, ?_⟩
    show ((r.visit v).run ws).next = _
    rw [i2, hl, hn, Nat.mod_add_mod, List.length_cons]
    congr 1
    omega

theorem run_turns_origin (ws : List Visit) :
    ∀ (r : Sched) (e : Nat × Nat), e ∈ (r.run ws).turns →
      e ∈ r.turns ∨ ∃ w ∈ ws, e.2 = w.now := by
  induction ws with
  | nil => exact fun r e h => Or.inl h
  | cons v ws ih =>
    intro r e h
    rcases ih (r.visit v) e h with h1 | ⟨w, hw, he⟩
    · rcases visit_turns r v with hh | hh
      · rw [hh] at h1; exact Or.inl h1
      · rw [hh, List.mem_append] at h1
        rcases h1 with h1 | h1
        · exact Or.inl h1
        · simp only [List.mem_singleton] at h1
          exact Or.inr ⟨v, List.mem_cons_self _ _, by rw [h1]⟩
    · exact Or.inr ⟨w, List.mem_cons_of_mem _ hw, he⟩

theorem run_visits_origin (ws : List Visit) :
    ∀ (r : Sched) (e : Nat × Nat), e ∈ (r.run ws).visits →
      e ∈ r.visits ∨ ∃ w ∈ ws, e.2 = w.now := by
  induction ws with
  | nil => exact fun r e h => Or.inl h
  | cons v ws ih =>
    intro r e h
    rcases ih (r.visit v) e h with h1 | ⟨w, hw, he⟩
    · rw [visit_visits, List.mem_append] at h1
      rcases h1 with h1 | h1
      · exact Or.inl h1
      · simp only [List.mem_singleton] at h1
        exact Or.inr ⟨v, List.mem_cons_self _ _, by rw [h1]⟩
    · exact Or.inr ⟨w, List.mem_cons_of_mem _ hw, he⟩

theorem run_turns_mono (ws : List Visit) :
    ∀ (r : Sched) (e : Nat × Nat), e ∈ r.turns → e ∈ (r.run ws).turns := by
  induction ws with
  | nil => exact fun r e h => h
  | cons v ws ih =>
    intro r e h
    refine ih (r.visit v) e ?_
    rcases visit_turns r v with hh | hh
    · rw [hh]; exact h
    · rw [hh]; exact List.mem_append_left _ h

theorem clockAt_eq (vs : List Visit) (k : Nat) (h : k < vs.length) :
    clockAt vs k = (vs.get ⟨k, h⟩).now := by
  simp [clockAt, List.getD_eq_getElem?_getD, h]

theorem mem_take_clock (vs : List Visit) (p : Nat) (w : Visit) (h : w ∈ vs.take p) :
    ∃ k, k < p ∧ k < vs.length ∧ w.now = clockAt vs k := by
  rw [List.mem_iff_getElem] at h
  obtain ⟨k, hk, rfl⟩ := h
  rw [List.length_take] at hk
  refine ⟨k, by omega, by omega, ?_⟩
  rw [clockAt_eq vs k (by omega), List.getElem_take]
  rfl

theorem mem_drop_clock (vs : List Visit) (p : Nat) (w : Visit) (h : w ∈ vs.drop p) :
    ∃ k, p ≤ k ∧ k < vs.length ∧ w.now = clockAt vs k := by
  rw [List.mem_iff_getElem] at h
  obtain ⟨k, hk, rfl⟩ := h
  rw [List.length_drop] at hk
  refine ⟨p + k, by omega, by omega, ?_⟩
  rw [clockAt_eq vs (p + k) (by omega), List.getElem_drop]
  rfl

/-- Some step among any `n` successive steps of the scan visits position `a`. -/
theorem position_reached (n x a : Nat) (ha : a < n) : ∃ d, d < n ∧ (x + d) % n = a := by
  refine ⟨(a + (n - x % n)) % n, Nat.mod_lt _ (by omega), ?_⟩
  rw [Nat.add_mod_mod]
  have hx : x % n < n := Nat.mod_lt _ (by omega)
  have h1 : x + (a + (n - x % n)) = a + n * (x / n + 1) := by
    have := Nat.div_add_mod x n
    rw [Nat.mul_add, Nat.mul_one]
    omega
  rw [h1, Nat.add_mul_mod_self_left, Nat.mod_eq_of_lt ha]

theorem first_step_at (vs : List Visit) (d : Nat)
    (h : ∃ k, k < vs.length ∧ d ≤ clockAt vs k) :
    ∃ m, m < vs.length ∧ d ≤ clockAt vs m ∧ ∀ k, k < m → clockAt vs k < d := by
  classical
  refine ⟨Nat.find h, (Nat.find_spec h).1, (Nat.find_spec h).2, fun k hk => ?_⟩
  have hmin := Nat.find_min h hk
  have hk' : k < vs.length := lt_trans hk (Nat.find_spec h).1
  by_contra hc
  exact hmin ⟨hk', by omega⟩

theorem run_singleton (r : Sched) (v : Visit) : r.run [v] = r.visit v := rfl

theorem take_succ_get (vs : List Visit) (q : Nat) (h : q < vs.length) :
    vs.take (q + 1) = vs.take q ++ [vs.get ⟨q, h⟩] := by
  rw [List.take_succ]
  simp [List.getElem?_eq_getElem h]

/-- A fiber `a` asleep until `dA` and a fiber `b` asleep until `dB`, under a paced
round-robin scan that starts no later than `dA` and goes on until `dB`: within one
round after `dA` the scan reaches `a` and hands it control, before `dB`. -/
theorem paced_scan_reaches_sleeper (sch : Sched) (a b dA dB : Nat) (vs : List Visit)
    (hD : dA < dB)
    (ha : sch.roster[a]? = some (FiberState.sleeping dA))
    (hb : sch.roster[b]? = some (FiberState.sleeping dB))
    (hlog : sch.visits = [] ∧ sch.turns = [])
    (hnext : sch.next < sch.roster.length)
    (hpace : Paced sch.roster.length (dB - dA) vs)
    (hstart : clockAt vs 0 ≤ dA)
    (hlong : ∃ k, k < vs.length ∧ dB ≤ clockAt vs k) :
    (∃ t, (a, t) ∈ (sch.run vs).turns ∧ dA ≤ t ∧ t < dB) ∧
    (∀ t, (a, t) ∈ (sch.run vs).turns → dA ≤ t) ∧
    (∀ t, (b, t) ∈ (sch.run vs).turns → dB ≤ t) := by
  have halen : a < sch.roster.length := by
    rcases Nat.lt_or_ge a sch.roster.length with h | h
    · exact h
    · rw [List.getElem?_eq_none h] at ha; cases ha
  have h0 : SleepInv a b dA dB sch := by
    refine ⟨hb, fun t h => ?_, Or.inl ⟨ha, fun t h => ?_, fun t h => ?_⟩⟩
    · rw [hlog.2] at h; cases h
    · rw [hlog.2] at h; cases h
    · rw [hlog.1] at h; cases h
  obtain ⟨m, hm1, hm2, hmmin⟩ := first_step_at vs dB hlong
  obtain ⟨p, hp1, hp2, hpmin⟩ := first_step_at vs dA ⟨m, hm1, by omega⟩
  have hpm : p ≤ m := by
    by_contra hc
    have := hpmin m (by omega)
    omega
  have hround : p + sch.roster.length ≤ m := by
    by_contra hc
    rcases Nat.eq_zero_or_pos p with hp0 | hppos
    · have := (hpace m hm1 0 (Nat.zero_le _)).2 (by omega)
      omega
    · have h1 := hpmin (p - 1) (by omega)
      have := (hpace m hm1 (p - 1) (by omega)).2 (by omega)
      omega
  obtain ⟨d, hd, hpos⟩ := position_reached sch.roster.length (sch.next + p) a halen
  have hqlen : p + d < vs.length := by omega
  -- the round after `dA` reaches `a`
  have hinv := sleepInv_run a b dA dB hD (vs.take (p + d + 1)) sch
    (fun v hv => by
      obtain ⟨j, hj1, _, hj3⟩ := mem_take_clock vs (p + d + 1) v hv
      rw [hj3]
      exact hmmin j (by omega)) h0
  have hnextq : (sch.run (vs.take (p + d))).next = a := by
    rw [(run_next (vs.take (p + d)) sch hnext).2, List.length_take,
      min_eq_left (le_of_lt hqlen), ← hpos, Nat.add_assoc]
  have hvis : (a, clockAt vs (p + d)) ∈ (sch.run (vs.take (p + d + 1))).visits := by
    rw [take_succ_get vs (p + d) hqlen, run_append, run_singleton, visit_visits, hnextq,
      clockAt_eq vs (p + d) hqlen]
    simp
  have hclock : dA ≤ clockAt vs (p + d) :=
    le_trans hp2 (hpace (p + d) hqlen p (by omega)).1
  have hsplit : ∀ k, sch.run vs = (sch.run (vs.take k)).run (vs.drop k) := by
    intro k
    rw [← run_append, List.take_append_drop]
  refine ⟨?_, ?_, ?_⟩
  · obtain ⟨_, _, hdisj⟩ := hinv
    have hturn : ∃ t, (a, t) ∈ (sch.run (vs.take (p + d + 1))).turns ∧ dA ≤ t ∧ t < dB := by
      rcases hdisj with ⟨_, _, h3⟩ | ⟨h, _⟩
      · have := h3 _ hvis
        omega
      · exact h
    obtain ⟨t, ht, h1, h2⟩ := hturn
    refine ⟨t, ?_, h1, h2⟩
    rw [hsplit (p + d + 1)]
    exact run_turns_mono _ _ _ ht
  · intro t ht
    have hinvp := sleepInv_run a b dA dB hD (vs.take p) sch
      (fun v hv => by
        obtain ⟨j, hj1, _, hj3⟩ := mem_take_clock vs p v hv
        rw [hj3]
        have := hpmin j hj1
        omega) h0
    obtain ⟨_, _, hdisj⟩ := hinvp
    have hnone : ∀ t, (a, t) ∉ (sch.run (vs.take p)).turns := by
      rcases hdisj with ⟨_, h2, _⟩ | ⟨_, ⟨u, hu, hge⟩⟩
      · exact h2
      · exfalso
        rcases run_visits_origin (vs.take p) sch _ hu with h | ⟨w, hw, he⟩
        · rw [hlog.1] at h; cases h
        · obtain ⟨j, hj1, _, hj3⟩ := mem_take_clock vs p w hw
          have := hpmin j hj1
          simp only at he
          omega
    rw [hsplit p] at ht
    rcases run_turns_origin (vs.drop p) _ _ ht with h | ⟨w, hw, he⟩
    · exact absurd h (hnone t)
    · obtain ⟨j, hj1, hj2, hj3⟩ := mem_drop_clock vs p w hw
      have := (hpace j hj2 p hj1).1
      simp only at he
      omega
  · intro t ht
    have hinvm := sleepInv_run a b dA dB hD (vs.take m) sch
      (fun v hv => by
        obtain ⟨j, hj1, _, hj3⟩ := mem_take_clock vs m v hv
        rw [hj3]
        exact hmmin j hj1) h0
    obtain ⟨_, hnone, _⟩ := hinvm
    rw [hsplit m] at ht
    rcases run_turns_origin (vs.drop m) _ _ ht with h | ⟨w, hw, he⟩
    · exact absurd h (hnone t)
    · obtain ⟨j, hj1, hj2, hj3⟩ := mem_drop_clock vs m w hw
      have := (hpace j hj2 m hj1).1
      simp only at he
      omega

end Scheduler

end Modm
namespace Modm

/-! ## Runs in which nothing suspends -/

namespace Paa5100je

end Paa5100je

end Modm

namespace Modm

open Paa5100je

/-! ## The claims -/

/-- C1: whenever a poll of `Paa5100je::initialize()` reports completion, with
`true` or with the early `false` of a failed identity check, the arbitration
token of the SPI master is free: every acquisition made during the run has been
released and the driver does not hold the bus. -/
theorem initialize_releases_token (s : St) (v : Bool)
    (h : (initializeSensor s).1 = Res.done v) :
    (initializeSensor s).2.bus.token = none ∧
    (initializeSensor s).2.bus.token ≠ some s.dev.ctx := by
  have := frees_initializeSensor s v h
  exact ⟨this, by rw [this]; exact fun h => Option.noConfusion h⟩

set_option maxRecDepth 1000000 in
/-- Witness for C1: complete runs of the initialisation from the constructed
driver, one ending with `true` and one with the early `false`. -/
theorem initialize_releases_token_witness :
    ((initializeSensor (bootState (sensorInput 0x49 0xB6))).1 = Res.done true ∧
      (initializeSensor (bootState (sensorInput 0x49 0xB6))).2.bus.token = none ∧
      (initializeSensor (bootState (sensorInput 0x49 0xB6))).2.bus.token ≠
        some (bootState (sensorInput 0x49 0xB6)).dev.ctx) ∧
    ((initializeSensor (bootState (sensorInput 0x48 0xB7))).1 = Res.done false ∧
      (initializeSensor (bootState (sensorInput 0x48 0xB7))).2.bus.token = none ∧
      (initializeSensor (bootState (sensorInput 0x48 0xB7))).2.bus.token ≠
        some (bootState (sensorInput 0x48 0xB7)).dev.ctx) :=
  ⟨⟨by decide, initialize_releases_token _ true (by decide)⟩,
   ⟨by decide, initialize_releases_token _ false (by decide)⟩⟩

/-- C2: each poll of `read`, `write` and `writeRaw`, in every state and under
every input (every suspension pattern of the chip-select waits and transfers),
is a poll of a transaction: chip-select changes and SPI transfers are logged only
after the acquisition and before the release, and the release is logged once, as
the last entry of the poll that reports completion, and by no other poll. -/
theorem bus_access_inside_critical_section (reg dst len val : Nat) (Val : List Nat) :
    Transaction (read reg dst len) ∧ Transaction (write reg val) ∧ Transaction (writeRaw Val) :=
  ⟨transaction_read reg dst len, transaction_write reg val, transaction_writeRaw Val⟩

/-- C3: two instances on one SPI master, polled with `read` and `write` requests
in any interleaving `sched`, starting from a state in which an instance inside
its critical section holds the token.  After the interleaving: the same holds
again, so the two are never both inside their critical sections; while `a` is
inside, a poll of `b` reports not complete, logs nothing and leaves the token
with `a`; and after the poll in which `a` completes (and releases), the next poll
of `b` logs its acquisition before anything else and, if not complete, leaves `b`
inside its section holding the token. -/
theorem mutual_exclusion (p : Pair) (h : Exclusive p) (sched : List (Bool × Request))
    (ra rb : Request) (hlev : 0 < (p.run sched).b.levels) :
    Exclusive (p.run sched) ∧
    ¬ (InSection (p.run sched).a ∧ InSection (p.run sched).b) ∧
    (InSection (p.run sched).a →
      ((p.run sched).pollB rb.op).1 = Res.running ∧
      ((p.run sched).pollB rb.op).2.bus.trace = (p.run sched).bus.trace ∧
      ((p.run sched).pollB rb.op).2.bus.token = some (p.run sched).a.ctx) ∧
    (((p.run sched).pollA ra.op).1 = Res.done () →
      ((p.run sched).pollA ra.op).2.bus.token = none ∧
      ∃ evs, ((((p.run sched).pollA ra.op).2).pollB rb.op).2.bus.trace =
          ((p.run sched).pollA ra.op).2.bus.trace ++
            Event.acquired (p.run sched).b.ctx :: evs ∧
        (((((p.run sched).pollA ra.op).2).pollB rb.op).1 = Res.running →
          InSection ((((p.run sched).pollA ra.op).2).pollB rb.op).2.b ∧
          ((((p.run sched).pollA ra.op).2).pollB rb.op).2.bus.token =
            some (p.run sched).b.ctx)) := by
  have hq := exclusive_run sched p h
  refine ⟨hq, ?_, ?_, ?_⟩
  · rintro ⟨ha, hb⟩
    obtain ⟨hne, _, _, hta, htb⟩ := hq
    have := hta ha
    rw [htb hb] at this
    exact hne (Option.some.inj this).symm
  · intro ha
    exact exclusive_waits rb _ hq ha hlev
  · intro hdone
    have hq1 := exclusive_pollA ra _ hq
    have hfree : ((p.run sched).pollA ra.op).2.bus.token = none := by
      obtain ⟨_, _, _, hdn⟩ := (request_transaction ra) { dev := (p.run sched).a, bus := (p.run sched).bus }
      exact (hdn () hdone).2.1
    exact ⟨hfree, exclusive_acquires rb _ hq1 hfree hlev⟩

/-- Witness for C3: instance `a` is polled once with a read whose address transfer
does not finish; it is then inside its critical section, and the theorem applies. -/
theorem mutual_exclusion_witness :
    Exclusive (bootPair [0]) ∧
    0 < ((bootPair [0]).run [(true, Request.read 0 0 1)]).b.levels ∧
    2 ≤ ((bootPair [0]).run [(true, Request.read 0 0 1)]).a.rfState 0 ∧
    Exclusive ((bootPair [0]).run [(true, Request.read 0 0 1)]) ∧
    (((bootPair [0]).run [(true, Request.read 0 0 1)]).pollB
      (Request.write 0x3A 0x5A).op).1 = Res.running :=
  have h0 : Exclusive (bootPair [0]) :=
    ⟨by decide, rfl, rfl, fun h => absurd h (by unfold InSection; decide),
      fun h => absurd h (by unfold InSection; decide)⟩
  have hin : 2 ≤ ((bootPair [0]).run [(true, Request.read 0 0 1)]).a.rfState 0 := by decide
  have hm := mutual_exclusion (bootPair [0]) h0 [(true, Request.read 0 0 1)]
    (Request.read 0 0 1) (Request.write 0x3A 0x5A) (by decide)
  ⟨h0, by decide, hin, hm.1, (hm.2.2.1 hin).1⟩

/-- C4: for every pair of bytes `a`, `b` there is a run of `Paa5100je::initialize()`
in which the sensor answers `a` for ProductID and `b` for InverseProductID, and its
completing poll returns `true` if and only if `a` is 0x49 and `b` is 0xB6; and
whenever a poll of any run of `initialize()` (started on an idle instance, polled
while it reports not complete, other instances using the bus in between) reports
completion, the two most recent register reads of the instance in the bus log are
that of ProductID with one byte `a` and then that of InverseProductID with one byte
`b`, the poll returns `true` if and only if `a` is 0x49 and `b` is its complement
0xB6, and `false` for every other pair.  With either value the call has completed
as any other: no call is left active, every step marker is at not started and the
bus token is free, so that the mismatch shows in the returned boolean only. -/
theorem initialize_result :
    (∀ a b, a < 256 → b < 256 →
      Polling initializeSensor (identityState a b) ∧
      ∃ v, (initializeSensor (identityState a b)).1 = Res.done v ∧
        (v = true ↔ (a = 0x49 ∧ b = 0xB6)) ∧
        readsOf 1 (initializeSensor (identityState a b)).2.bus.trace =
          (regInverseProductID, [b]) :: (regProductID, [a]) ::
            readsOf 1 (identityState a b).bus.trace) ∧
    (∀ s v, Polling initializeSensor s → (initializeSensor s).1 = Res.done v →
      (∃ a b base,
        readsOf s.dev.ctx (initializeSensor s).2.bus.trace =
          (regInverseProductID, [b]) :: (regProductID, [a]) :: base ∧
        a < 256 ∧ b < 256 ∧
        (v = true ↔ (a = 0x49 ∧ b = 0xB6)) ∧
        (v = false ↔ ¬ (a = 0x49 ∧ b = 0xB6))) ∧
      Quiescent (initializeSensor s).2.dev ∧
      (initializeSensor s).2.bus.token = none) := by
  refine ⟨fun a b ha hb => identityState_run a b ha hb, ?_⟩
  intro s v hp h
  obtain ⟨base, hlog, h0, h1⟩ := initializeSensor_log hp v h
  obtain ⟨hv1, hv2⟩ := initializeSensor_value s v h h1
  exact ⟨⟨_, _, base, hlog, h0, h1, hv1, hv2⟩, polling_initializeSensor_done hp v h,
    frees_initializeSensor s v h⟩

set_option maxRecDepth 1000000 in
/-- Witness for C4: the run through `identityState` with the bytes 0x49, 0xB6
completes with `true`; a complete initialisation in one poll of the constructed
driver with the bytes 0x49, 0xB7 completes with `false`, and the log holds the two
reads with these bytes. -/
theorem initialize_result_witness :
    ((initializeSensor (identityState 0x49 0xB6)).1 = Res.done true ∧
      Polling initializeSensor (identityState 0x49 0xB6)) ∧
    ((initializeSensor (bootState (sensorInput 0x49 0xB7))).1 = Res.done false ∧
      ((∃ a b base,
        readsOf (bootState (sensorInput 0x49 0xB7)).dev.ctx
            (initializeSensor (bootState (sensorInput 0x49 0xB7))).2.bus.trace =
          (regInverseProductID, [b]) :: (regProductID, [a]) :: base ∧
        a < 256 ∧ b < 256 ∧
        (false = true ↔ (a = 0x49 ∧ b = 0xB6)) ∧
        (false = false ↔ ¬ (a = 0x49 ∧ b = 0xB6))) ∧
      Quiescent (initializeSensor (bootState (sensorInput 0x49 0xB7))).2.dev ∧
      (initializeSensor (bootState (sensorInput 0x49 0xB7))).2.bus.token = none)) :=
  ⟨⟨by decide, (initialize_result.1 0x49 0xB6 (by decide) (by decide)).1⟩,
   ⟨by decide, initialize_result.2 (bootState (sensorInput 0x49 0xB7)) false
      (Polling.start _ ⟨rfl, fun _ => rfl⟩) (by decide)⟩⟩

/-- C5: while the sensor initialisation waits at step `k` (1: the 50 ms after the
start, 3: the 20 ms after the PowerUpReset write), any number `n` of polls whose
clock readings lie before the deadline all report not complete and leave the
driver (markers, timeout, chip select, scratch), the bus log and the token as they
were; a poll whose clock reading has reached the deadline is the next step run in
the same invocation, and if it reports not complete the recorded step is a later
one. -/
theorem wait_is_idempotent (s : St) (k : Nat) (hk : k = 1 ∨ k = 3)
    (h0 : s.dev.rfLevel = 0) (hl : 0 < s.dev.levels) (hm : s.dev.rfState 0 = k) :
    (∀ n, (∀ j, j < n → s.dev.wait.expired (s.bus.input.getD j 0) = false) →
      (∀ j, j < n → (initializeSensor (pollN initializeSensor j s)).1 = Res.running) ∧
      (pollN initializeSensor n s).dev = s.dev ∧
      (pollN initializeSensor n s).bus.trace = s.bus.trace ∧
      (pollN initializeSensor n s).bus.token = s.bus.token) ∧
    (s.dev.wait.expired s.peek = true →
      initializeSensor s =
        (if k = 1 then initializeSensor_2 else initializeSensor_4) (afterWait k s) ∧
      ((initializeSensor s).1 = Res.running → k < (initializeSensor s).2.dev.rfState 0)) := by
  constructor
  · intro n hx
    obtain ⟨i1, i2, i3, i4, _⟩ := initializeSensor_idle_polls n s h0 hl k hk hm hx
    exact ⟨i1, i2, i3, i4⟩
  · intro hx
    have he := initializeSensor_resume s h0 hl k hk hm hx
    refine ⟨he, ?_⟩
    intro hrun
    rw [he] at hrun ⊢
    have hlev : (afterWait k s).dev.rfLevel = 1 := by
      simp [afterWait, waitExecute, St.advance, setRf, h0]
    rcases hk with hk | hk
    · subst hk
      simp only [if_true] at hrun ⊢
      have := stepAtLeast_initializeSensor_2 (afterWait 1 s) (by omega) hrun
      rw [hlev] at this
      exact this
    · subst hk
      simp only [show ¬ (3 = 1) by decide, if_false] at hrun ⊢
      have := stepAtLeast_initializeSensor_4 (afterWait 3 s) (by omega) hrun
      rw [hlev] at this
      exact this

/-- Witness for C5: three polls at step 1 with clock readings 10, 20 and 49 before
the deadline 50. -/
theorem wait_is_idempotent_witness :
    (waitingState [10, 20, 49, 50]).dev.rfLevel = 0 ∧
    0 < (waitingState [10, 20, 49, 50]).dev.levels ∧
    (waitingState [10, 20, 49, 50]).dev.rfState 0 = 1 ∧
    (pollN initializeSensor 3 (waitingState [10, 20, 49, 50])).dev =
      (waitingState [10, 20, 49, 50]).dev ∧
    (pollN initializeSensor 3 (waitingState [10, 20, 49, 50])).bus.trace = [] :=
  have hw := (wait_is_idempotent (waitingState [10, 20, 49, 50]) 1 (Or.inl rfl) rfl
    (by decide) rfl).1 3 (by decide)
  ⟨rfl, by decide, rfl, hw.2.1, hw.2.2.1⟩

/-- C6: when a public operation that was started on a quiescent instance and
polled until completion reports completion (for the initialisation also with the
early `false`), the instance is quiescent again: no call is active and the step
marker of every nesting level is at not started, so whatever is invoked next
starts at its first step. -/
theorem completion_resets_markers (s : St) :
    (∀ v, Polling initializeSensor s → (initializeSensor s).1 = Res.done v →
      Quiescent (initializeSensor s).2.dev) ∧
    (∀ v, Polling getProductId s → (getProductId s).1 = Res.done v →
      Quiescent (getProductId s).2.dev) ∧
    (∀ v, Polling getRevision s → (getRevision s).1 = Res.done v →
      Quiescent (getRevision s).2.dev) ∧
    (∀ enable v, Polling (setLed enable) s → (setLed enable s).1 = Res.done v →
      Quiescent (setLed enable s).2.dev) ∧
    (∀ v, Polling getMotionData s → (getMotionData s).1 = Res.done v →
      Quiescent (getMotionData s).2.dev) :=
  ⟨fun v hp hv => polling_initializeSensor_done hp v hv,
   fun v hp hv => polling_done_quiescent funcOK_getProductId zeroFunc_getProductId hp v hv,
   fun v hp hv => polling_done_quiescent funcOK_getRevision zeroFunc_getRevision hp v hv,
   fun enable v hp hv =>
     polling_done_quiescent (funcOK_setLed enable) (zeroFunc_setLed enable) hp v hv,
   fun v hp hv => polling_done_quiescent funcOK_getMotionData zeroFunc_getMotionData hp v hv⟩

set_option maxRecDepth 1000000 in
/-- Witness for C6: the early exit of the initialisation, reached in a second poll
after a first poll that was suspended at the wait of 50 ms. -/
theorem completion_resets_markers_witness :
    (initializeSensor (bootState (0 :: 0 :: sensorInput 0x48 0xB7))).1 = Res.running ∧
    (initializeSensor (initializeSensor (bootState (0 :: 0 :: sensorInput 0x48 0xB7))).2).1 =
      Res.done false ∧
    Quiescent
      (initializeSensor (initializeSensor (bootState (0 :: 0 :: sensorInput 0x48 0xB7))).2).2.dev :=
  have h1 : (initializeSensor (bootState (0 :: 0 :: sensorInput 0x48 0xB7))).1 = Res.running := by
    decide
  have h2 : (initializeSensor
      (initializeSensor (bootState (0 :: 0 :: sensorInput 0x48 0xB7))).2).1 = Res.done false := by
    decide
  ⟨h1, h2, (completion_resets_markers _).1 false
    (Polling.again _ _ [] (Polling.start _ ⟨rfl, fun _ => rfl⟩) h1 rfl (by simp)
      (by simp)) h2⟩

/-- C7: with the four nesting levels of `NestedResumable<4>` (or more), no poll of
a public operation made while no call is active on the instance is ever rejected
for exceeding the nesting depth, in any state of the step markers and under any
input, and the poll leaves no call active. -/
theorem nesting_depth_suffices (s : St) (h4 : 4 ≤ s.dev.levels) (h0 : s.dev.rfLevel = 0) :
    ((initializeSensor s).1 ≠ Res.nestingError ∧ (initializeSensor s).2.dev.rfLevel = 0) ∧
    ((getProductId s).1 ≠ Res.nestingError ∧ (getProductId s).2.dev.rfLevel = 0) ∧
    ((getRevision s).1 ≠ Res.nestingError ∧ (getRevision s).2.dev.rfLevel = 0) ∧
    (∀ enable, (setLed enable s).1 ≠ Res.nestingError ∧ (setLed enable s).2.dev.rfLevel = 0) ∧
    ((getMotionData s).1 ≠ Res.nestingError ∧ (getMotionData s).2.dev.rfLevel = 0) := by
  have key : ∀ {α : Type} {d : Nat} {op : RF α}, FuncOK d op → d ≤ 4 →
      (op s).1 ≠ Res.nestingError ∧ (op s).2.dev.rfLevel = 0 := by
    intro α d op hf hd
    obtain ⟨a1, _, _, _, a5⟩ := hf s
    exact ⟨a5 (by omega), a1.trans h0⟩
  exact ⟨key funcOK_initializeSensor (by decide), key funcOK_getProductId (by decide),
    key funcOK_getRevision (by decide), fun enable => key (funcOK_setLed enable) (by decide),
    key funcOK_getMotionData (by decide)⟩

/-- Witness for C7: the constructed driver. -/
theorem nesting_depth_suffices_witness :
    4 ≤ (bootState []).dev.levels ∧ (bootState []).dev.rfLevel = 0 ∧
    (initializeSensor (bootState [])).1 ≠ Res.nestingError :=
  ⟨by decide, rfl, (nesting_depth_suffices (bootState []) (by decide) rfl).1.1⟩

/-- The chain `initialize -> writeMagic -> writeRaw -> setChipSelect` does use four
levels: with three levels the call of `setChipSelect` is rejected. -/
theorem three_levels_are_too_few :
    (initializeSensor
      { dev := { bootDev 1 3 with rfState := fun l => if l = 0 then 4 else if l = 1 then 1 else 2 },
        bus := { token := some 1, input := [], trace := [] } }).1 = Res.nestingError := by
  decide

/-- C8: for every 12-byte MotionBurst response `b[0..11]` there is a run of
`getMotionData` that receives it and completes; and whenever a poll of any run of
`getMotionData` (started on an idle instance, polled while it reports not
complete, other instances using the bus in between) reports completion, the most
recent register read of the instance in the bus log is that of MotionBurst with 12
received bytes `b`, and the poll returns `true` if and only if bit 7 of `b[0]` is
set and it is not the case that `b[10] == 0x1F` and `b[6] < 0x19`; otherwise it
returns `false`. -/
theorem getMotionData_result :
    (∀ b : List Nat, b.length = 12 → (∀ x ∈ b, x < 256) →
      (∃ m, (getMotionData (bootState (responseInput b))).1 = Res.done m) ∧
      readsOf 1 (getMotionData (bootState (responseInput b))).2.bus.trace =
        [(regMotionBurst, b)]) ∧
    (∀ s m, Polling getMotionData s → (getMotionData s).1 = Res.done m →
      ∃ b base,
        readsOf s.dev.ctx (getMotionData s).2.bus.trace = (regMotionBurst, b) :: base ∧
        b.length = 12 ∧ (∀ x ∈ b, x < 256) ∧
        (m.valid = true ↔
          ((b.getD 0 0).testBit 7 = true ∧ ¬ (b.getD 10 0 = 0x1F ∧ b.getD 6 0 < 0x19))) ∧
        (m.valid = false ↔
          ¬ ((b.getD 0 0).testBit 7 = true ∧ ¬ (b.getD 10 0 = 0x1F ∧ b.getD 6 0 < 0x19)))) := by
  refine ⟨fun b hb hr => getMotionData_prompt b hb hr, ?_⟩
  intro s m hp h
  obtain ⟨base, hlog, hrange⟩ := getMotionData_log hp m h
  have hr := (ensures_getMotionData s m h).1
  have hiff := motionValid_iff (getMotionData s).2.dev.scratch
  rw [← hr] at hiff
  have e0 : (scratchBytes (getMotionData s).2 0 12).getD 0 0 =
      (getMotionData s).2.dev.scratch 0 := rfl
  have e6 : (scratchBytes (getMotionData s).2 0 12).getD 6 0 =
      (getMotionData s).2.dev.scratch 6 := rfl
  have e10 : (scratchBytes (getMotionData s).2 0 12).getD 10 0 =
      (getMotionData s).2.dev.scratch 10 := rfl
  refine ⟨scratchBytes (getMotionData s).2 0 12, base, hlog, by simp [scratchBytes], hrange, ?_, ?_⟩
  · rw [e0, e6, e10]
    exact hiff
  · rw [e0, e6, e10, ← hiff]
    cases m.valid <;> simp

/-- Witness for C8: the response with bit 7 of the first byte set and all other
bits clear, received by a freshly constructed instance: the poll completes with
`true`, and the log holds the read of MotionBurst with these bytes. -/
theorem getMotionData_result_witness :
    (getMotionData (bootState (responseInput [0x80, 0, 0, 0, 0, 0, 0, 0, 0, 0, 0, 0]))).1 =
      Res.done { valid := true, x := 0, y := 0 } ∧
    readsOf 1
      (getMotionData (bootState (responseInput [0x80, 0, 0, 0, 0, 0, 0, 0, 0, 0, 0, 0]))).2.bus.trace
      = [(regMotionBurst, [0x80, 0, 0, 0, 0, 0, 0, 0, 0, 0, 0, 0])] ∧
    ∃ b base,
      readsOf 1
        (getMotionData
          (bootState (responseInput [0x80, 0, 0, 0, 0, 0, 0, 0, 0, 0, 0, 0]))).2.bus.trace =
        (regMotionBurst, b) :: base ∧
      b.length = 12 ∧ (∀ x ∈ b, x < 256) ∧
      (true = true ↔
        ((b.getD 0 0).testBit 7 = true ∧ ¬ (b.getD 10 0 = 0x1F ∧ b.getD 6 0 < 0x19))) ∧
      (true = false ↔
        ¬ ((b.getD 0 0).testBit 7 = true ∧ ¬ (b.getD 10 0 = 0x1F ∧ b.getD 6 0 < 0x19))) :=
  ⟨by decide,
   (getMotionData_result.1 [0x80, 0, 0, 0, 0, 0, 0, 0, 0, 0, 0, 0] rfl (by decide)).2,
   getMotionData_result.2 (bootState (responseInput [0x80, 0, 0, 0, 0, 0, 0, 0, 0, 0, 0, 0]))
     { valid := true, x := 0, y := 0 } (Polling.start _ ⟨rfl, fun _ => rfl⟩) (by decide)⟩

/-- C9: for a port of `n ≤ 16` pins, bit `n-1-k` of what
`SoftwareGpioPort<P0, ..., P(n-1)>::read()` returns is what `Pk::read()` returns,
for every `k < n`, and the bits at the positions `n` and above are zero: the
first template argument is the most significant bit, the last is bit 0. -/
theorem port_read_bits (pins : List Bool) (h : pins.length ≤ 16) :
    (∀ k (hk : k < pins.length),
      (SoftwareGpioPort.read pins).testBit (pins.length - 1 - k) = pins[k]) ∧
    (∀ j, pins.length ≤ j → (SoftwareGpioPort.read pins).testBit j = false) := by
  refine ⟨fun k hk => SoftwareGpioPort.read_bits pins h k hk, fun j hj => ?_⟩
  apply Nat.testBit_lt_two_pow
  exact lt_of_lt_of_le (SoftwareGpioPort.read_lt pins h)
    (Nat.pow_le_pow_right (by decide) hj)

/-- Witness for C9: a port of three pins reading high, low, high gives 5. -/
theorem port_read_bits_witness :
    [true, false, true].length ≤ 16 ∧ SoftwareGpioPort.read [true, false, true] = 5 ∧
    (SoftwareGpioPort.read [true, false, true]).testBit 3 = false :=
  ⟨by decide, by decide, (port_read_bits [true, false, true] (by decide)).2 3 (by decide)⟩

/-- C10: for a port of `n ≤ 16` pins and any `data`,
`SoftwareGpioPort<P0, ..., P(n-1)>::write(data)` makes exactly the calls
`P0::set(v0), ..., P(n-1)::set(v(n-1))` in this order, where `vk` is bit `n-1-k` of
`data` (the `k`-th call is the one of pin `Pk`, and there is no call beyond the
`n`-th); two values that agree in the bits below `n` give the same calls. -/
theorem port_write_calls (α : Type) (pins : List α) (h : pins.length ≤ 16) (data : Nat) :
    (∀ k, (SoftwareGpioPort.write pins data)[k]? =
      pins[k]?.map (fun p => (p, data.testBit (pins.length - 1 - k)))) ∧
    (SoftwareGpioPort.write pins data).length = pins.length ∧
    (∀ data', data' % 2 ^ pins.length = data % 2 ^ pins.length →
      SoftwareGpioPort.write pins data' = SoftwareGpioPort.write pins data) := by
  have hget := SoftwareGpioPort.write_get α pins h
  have hlen : ∀ d, (SoftwareGpioPort.write pins d).length = pins.length := by
    intro d
    by_contra hne
    rcases Nat.lt_or_gt_of_ne hne with hlt | hgt
    · have h1 := hget d (SoftwareGpioPort.write pins d).length
      rw [List.getElem?_eq_none (le_refl _), List.getElem?_eq_getElem hlt] at h1
      simp at h1
    · have h1 := hget d pins.length
      rw [List.getElem?_eq_none (le_refl _), List.getElem?_eq_getElem hgt] at h1
      simp at h1
  refine ⟨hget data, hlen data, ?_⟩
  intro data' hmod
  apply List.ext_getElem?
  intro k
  rw [hget data' k, hget data k]
  by_cases hk : k < pins.length
  · have hb : data'.testBit (pins.length - 1 - k) = data.testBit (pins.length - 1 - k) := by
      have h1 := congrArg (fun x => Nat.testBit x (pins.length - 1 - k)) hmod
      simp only [Nat.testBit_mod_two_pow] at h1
      have hlt : pins.length - 1 - k < pins.length := by omega
      simpa [hlt] using h1
    rw [hb]
  · rw [List.getElem?_eq_none (by omega)]
    rfl

/-- Witness for C10: writing 0b101 (plus a bit above the port) to three pins. -/
theorem port_write_calls_witness :
    ["P0", "P1", "P2"].length ≤ 16 ∧
    SoftwareGpioPort.write ["P0", "P1", "P2"] 13 = [("P0", true), ("P1", false), ("P2", true)] ∧
    (SoftwareGpioPort.write ["P0", "P1", "P2"] 13).length = ["P0", "P1", "P2"].length :=
  ⟨by decide, by decide, (port_write_calls String ["P0", "P1", "P2"] (by decide) 13).2.1⟩

end Modm

namespace Modm

/-- C11: `GpioInverted<Pin>` inverts the level on every function that carries one:
`read()` returns the negation of `Pin::read()`, `set()` is `Pin::reset()`,
`reset()` is `Pin::set()`, `set(v)` is `Pin::set(!v)`, `setOutput(v)` is
`Pin::setOutput(!v)`, and `setOutput()` without argument is `Pin::setOutput()`
unchanged.  Inverting twice gives the functions of `Pin` back; on a pin that reads
back its level, the inverted pin reads back what was set through it while the pin
itself holds the opposite level; and the inverted `GpioUnused` always reads `true`. -/
theorem gpioInverted_inverts {σ : Type} (Pin : GpioPin σ) (s : σ) (v : Bool)
    (l : Bool × Bool) :
    (GpioInverted Pin).read s = !Pin.read s ∧
    (GpioInverted Pin).set s = Pin.reset s ∧
    (GpioInverted Pin).reset s = Pin.set s ∧
    (GpioInverted Pin).setTo v s = Pin.setTo (!v) s ∧
    (GpioInverted Pin).setOutputTo v s = Pin.setOutputTo (!v) s ∧
    (GpioInverted Pin).setOutput s = Pin.setOutput s ∧
    ((GpioInverted (GpioInverted Pin)).read s = Pin.read s ∧
      (GpioInverted (GpioInverted Pin)).set s = Pin.set s ∧
      (GpioInverted (GpioInverted Pin)).reset s = Pin.reset s ∧
      (GpioInverted (GpioInverted Pin)).setTo v s = Pin.setTo v s ∧
      (GpioInverted (GpioInverted Pin)).setOutputTo v s = Pin.setOutputTo v s) ∧
    ((GpioInverted latchPin).read ((GpioInverted latchPin).setTo v l) = v ∧
      latchPin.read ((GpioInverted latchPin).setTo v l) = !v ∧
      (GpioInverted latchPin).read ((GpioInverted latchPin).set l) = true ∧
      latchPin.read ((GpioInverted latchPin).set l) = false ∧
      (GpioInverted latchPin).read ((GpioInverted latchPin).reset l) = false ∧
      latchPin.read ((GpioInverted latchPin).setOutputTo v l) = !v) ∧
    (GpioInverted (GpioUnused σ)).read s = true := by
  refine ⟨rfl, rfl, rfl, rfl, rfl, rfl, ⟨?_, rfl, rfl, ?_, ?_⟩, ⟨?_, rfl, rfl, rfl, rfl, rfl⟩, rfl⟩
  · simp [GpioInverted]
  · simp [GpioInverted]
  · simp [GpioInverted]
  · simp [GpioInverted, latchPin]

end Modm

namespace Modm

/-- C12: for a message that is not flexible-data and whose length is greater than
8, `SocketCan::sendMessage` returns `false` and leaves the socket as it was:
nothing is written and no result of `write` is used up.  For every other message
it hands exactly one frame to `write`, a `can_frame` (16 bytes) or, for a
flexible-data message, a `canfd_frame` (72 bytes). -/
theorem sendMessage_rejects_long_classic (frame : SocketCan.Frame)
    (message : SocketCan.Message) (skt : SocketCan.Socket) :
    (message.flags.fd = false ∧ 8 < message.length →
      (SocketCan.sendMessage frame message skt).1 = false ∧
      (SocketCan.sendMessage frame message skt).2 = skt) ∧
    (¬ (message.flags.fd = false ∧ 8 < message.length) →
      ∃ out, (SocketCan.sendMessage frame message skt).2.written =
          skt.written ++ [(out, if message.flags.fd then 72 else 16)] ∧
        out.len = message.length) := by
  constructor
  · rintro ⟨hfd, hlen⟩
    simp [SocketCan.sendMessage, hfd, hlen]
  · intro h
    have hc : (!message.flags.fd && decide (message.length > 8)) = false := by
      cases hfd : message.flags.fd
      · simp only [hfd, true_and, not_lt] at h
        simp [h]
      · simp
    simp only [SocketCan.sendMessage, hc, Bool.false_eq_true, if_false, SocketCan.write]
    exact ⟨_, rfl, rfl⟩

/-- Witness for C12: a classic message of length 9 is refused and the socket is
untouched; the same message with length 8 is written as a 16-byte frame. -/
theorem sendMessage_rejects_long_classic_witness :
    SocketCan.sendMessage
        { can_id := 0, len := 0, flags := 0, data := List.replicate 64 0 }
        { identifier := 0x123, length := 9,
          flags := { fd := false, brs := false, rtr := false, extended := false },
          data := List.replicate 64 7 }
        { incoming := [], writeResults := [16], written := [] } =
      (false, { incoming := [], writeResults := [16], written := [] }) ∧
    (SocketCan.sendMessage
        { can_id := 0, len := 0, flags := 0, data := List.replicate 64 0 }
        { identifier := 0x123, length := 8,
          flags := { fd := false, brs := false, rtr := false, extended := false },
          data := List.replicate 64 7 }
        { incoming := [], writeResults := [16], written := [] }).1 = true ∧
    ∃ out, (SocketCan.sendMessage
        { can_id := 0, len := 0, flags := 0, data := List.replicate 64 0 }
        { identifier := 0x123, length := 8,
          flags := { fd := false, brs := false, rtr := false, extended := false },
          data := List.replicate 64 7 }
        { incoming := [], writeResults := [16], written := [] }).2.written =
          [] ++ [(out, if false then 72 else 16)] ∧ out.len = 8 :=
  ⟨Prod.ext
      ((sendMessage_rejects_long_classic _ _ _).1 ⟨rfl, by decide⟩).1
      ((sendMessage_rejects_long_classic _ _ _).1 ⟨rfl, by decide⟩).2,
    by decide,
    (sendMessage_rejects_long_classic
      { can_id := 0, len := 0, flags := 0, data := List.replicate 64 0 }
      { identifier := 0x123, length := 8,
        flags := { fd := false, brs := false, rtr := false, extended := false },
        data := List.replicate 64 7 }
      { incoming := [], writeResults := [16], written := [] }).2 (by decide)⟩

/-- C13: `SocketCan::getMessage` returns `true` if and only if `recv` returned a
byte count greater than 0 and the `len` of the received frame is at most
`can::Message::capacity`.  Otherwise (nothing received, or a frame longer than the
capacity) it returns `false` and the caller's message is as it was.  When it
returns `true` the message has the length and, masked with `CAN_ERR_MASK`, the
identifier of the frame. -/
theorem getMessage_result (capacity : Nat) (frame : SocketCan.Frame)
    (message : SocketCan.Message) (skt : SocketCan.Socket) :
    ((SocketCan.getMessage capacity frame message skt).1 = true ↔
      (0 < (SocketCan.recv frame skt).1.1 ∧ (SocketCan.recv frame skt).1.2.len ≤ capacity)) ∧
    (¬ (0 < (SocketCan.recv frame skt).1.1 ∧ (SocketCan.recv frame skt).1.2.len ≤ capacity) →
      (SocketCan.getMessage capacity frame message skt).1 = false ∧
      (SocketCan.getMessage capacity frame message skt).2.1 = message) ∧
    (0 < (SocketCan.recv frame skt).1.1 ∧ (SocketCan.recv frame skt).1.2.len ≤ capacity →
      (SocketCan.getMessage capacity frame message skt).2.1.length =
        (SocketCan.recv frame skt).1.2.len ∧
      (SocketCan.getMessage capacity frame message skt).2.1.identifier =
        (SocketCan.recv frame skt).1.2.can_id &&& SocketCan.CAN_ERR_MASK) := by
  unfold SocketCan.getMessage
  by_cases hn : (SocketCan.recv frame skt).1.1 > 0
  · by_cases hl : (SocketCan.recv frame skt).1.2.len > capacity
    · simp only [hn, hl, if_true]
      have hl' : ¬ (SocketCan.recv frame skt).1.2.len ≤ capacity := by omega
      simp [hl']
    · simp only [hn, hl, if_true, if_false]
      have hl' : (SocketCan.recv frame skt).1.2.len ≤ capacity := by omega
      have hn' : 0 < (SocketCan.recv frame skt).1.1 := hn
      simp [hl', hn']
  · simp only [hn, if_false]
    have hn' : ¬ 0 < (SocketCan.recv frame skt).1.1 := hn
    simp [hn']

/-- Witness for C13, with a capacity of 8: an 8-byte frame is accepted, a 12-byte
frame and an empty queue leave the message as it was. -/
theorem getMessage_result_witness :
    (SocketCan.getMessage 8 { can_id := 0, len := 0, flags := 0, data := List.replicate 64 0 }
        { identifier := 1, length := 2,
          flags := { fd := false, brs := false, rtr := false, extended := false },
          data := List.replicate 8 7 }
        { incoming := [(16, { can_id := 0x80000123, len := 8, flags := 0,
                              data := List.replicate 64 5 })],
          writeResults := [], written := [] }).1 = true ∧
    (SocketCan.getMessage 8 { can_id := 0, len := 0, flags := 0, data := List.replicate 64 0 }
        { identifier := 1, length := 2,
          flags := { fd := false, brs := false, rtr := false, extended := false },
          data := List.replicate 8 7 }
        { incoming := [(72, { can_id := 0x123, len := 12, flags := 0,
                              data := List.replicate 64 5 })],
          writeResults := [], written := [] }).2.1 =
      { identifier := 1, length := 2,
        flags := { fd := false, brs := false, rtr := false, extended := false },
        data := List.replicate 8 7 } ∧
    (SocketCan.getMessage 8 { can_id := 0, len := 0, flags := 0, data := List.replicate 64 0 }
        { identifier := 1, length := 2,
          flags := { fd := false, brs := false, rtr := false, extended := false },
          data := List.replicate 8 7 }
        { incoming := [], writeResults := [], written := [] }).1 = false :=
  ⟨(getMessage_result 8 _ _ _).1.mpr ⟨by decide, by decide⟩,
   ((getMessage_result 8 _ _ _).2.1 (by decide)).2,
   ((getMessage_result 8 _ _ _).2.1 (by decide)).1⟩

open Paa5100je

open Scheduler

/-- C14, the claim as stated, at a concrete run: fiber 1 sleeps 500 ms and fiber 2
sleeps 1000 ms from time 0, and a third fiber, fiber 0, is handed control at 400
and yields at 1100.  Its turn ends, so it does not occupy the scheduler
indefinitely, the clock does not run backwards and the scan goes on to hand every
fiber a turn; but fiber 1 is first handed control at 1100, after the 1000 ms of
fiber 2 have elapsed.  What the run lacks is a bound: its first round takes 701 ms,
more than the 500 ms between the two deadlines. -/
theorem long_turn_delays_sleeper :
    (Sched.run
        { roster := [FiberState.ready, FiberState.sleeping 500, FiberState.sleeping 1000],
          next := 0, visits := [], turns := [] }
        [⟨400, 1100, TurnEnd.yields⟩, ⟨1100, 1101, fiber_blink⟩, ⟨1101, 1102, fiber_sensor⟩,
         ⟨1102, 1103, TurnEnd.yields⟩]).turns = [(0, 400), (1, 1100), (2, 1101), (0, 1102)] ∧
    (∀ e ∈ (Sched.run
        { roster := [FiberState.ready, FiberState.sleeping 500, FiberState.sleeping 1000],
          next := 0, visits := [], turns := [] }
        [⟨400, 1100, TurnEnd.yields⟩, ⟨1100, 1101, fiber_blink⟩, ⟨1101, 1102, fiber_sensor⟩,
         ⟨1102, 1103, TurnEnd.yields⟩]).turns,
      e.1 = 1 → ¬ (500 ≤ e.2 ∧ e.2 < 1000)) ∧
    ¬ Paced 3 (1000 - 500)
        [⟨400, 1100, TurnEnd.yields⟩, ⟨1100, 1101, fiber_blink⟩, ⟨1101, 1102, fiber_sensor⟩,
         ⟨1102, 1103, TurnEnd.yields⟩] := by
  unfold Paced
  decide

/-- C14, amended: fiber `a` sleeps `D1` and fiber `b` sleeps `D2` from time `t0`,
`D1 < D2`, the logs being empty at `t0`, under the round-robin scan of a roster of
`n` fibers.  Assume a bound on the rounds of the scan: the clock does not run
backwards and any `n` successive steps, the turns handed to whatever fibers
included, take less than `D2 - D1`.  Then, in a scan that starts no later than
`t0 + D1` and goes on until `t0 + D2`, fiber `a` is handed control at a time at
which `D1` has elapsed and `D2` has not; `a` is not handed control before `D1`
has elapsed, nor `b` before `D2` has elapsed. -/
theorem sleeper_scheduled_within_round (sch : Sched) (a b t0 D1 D2 : Nat) (vs : List Visit)
    (hD : D1 < D2)
    (ha : sch.roster[a]? = some (FiberState.sleeping (t0 + D1)))
    (hb : sch.roster[b]? = some (FiberState.sleeping (t0 + D2)))
    (hlog : sch.visits = [] ∧ sch.turns = [])
    (hnext : sch.next < sch.roster.length)
    (hpace : Paced sch.roster.length (D2 - D1) vs)
    (hstart : clockAt vs 0 ≤ t0 + D1)
    (hlong : ∃ k, k < vs.length ∧ t0 + D2 ≤ clockAt vs k) :
    (∃ t, (a, t) ∈ (sch.run vs).turns ∧ t0 + D1 ≤ t ∧ t < t0 + D2) ∧
    (∀ t, (a, t) ∈ (sch.run vs).turns → t0 + D1 ≤ t) ∧
    (∀ t, (b, t) ∈ (sch.run vs).turns → t0 + D2 ≤ t) :=
  paced_scan_reaches_sleeper sch a b (t0 + D1) (t0 + D2) vs (by omega) ha hb hlog hnext
    (by rw [show t0 + D2 - (t0 + D1) = D2 - D1 by omega]; exact hpace) hstart hlong

/-- Witness for C14: the two fibers of the LTC2984 example, both just gone to sleep
at time 0, `fiber_sensor` (position 0) for 1 s and `fiber_blink` (position 1) for
0.5 s, under a scan that takes 200 ms per step, so 400 ms per round.
`fiber_blink` is handed control at its first visit after 500 ms, at 600, and
nothing else is handed control up to 1000. -/
theorem sleeper_scheduled_within_round_witness :
    (Sched.run (exampleRoster 0)
        [⟨0, 0, fiber_sensor⟩, ⟨200, 200, fiber_blink⟩, ⟨400, 400, fiber_sensor⟩,
         ⟨600, 601, fiber_blink⟩, ⟨800, 800, fiber_sensor⟩,
         ⟨1000, 1000, fiber_blink⟩]).turns = [(1, 600)] ∧
    ((∃ t, (1, t) ∈ (Sched.run (exampleRoster 0)
        [⟨0, 0, fiber_sensor⟩, ⟨200, 200, fiber_blink⟩, ⟨400, 400, fiber_sensor⟩,
         ⟨600, 601, fiber_blink⟩, ⟨800, 800, fiber_sensor⟩,
         ⟨1000, 1000, fiber_blink⟩]).turns ∧ 0 + 500 ≤ t ∧ t < 0 + 1000) ∧
      (∀ t, (1, t) ∈ (Sched.run (exampleRoster 0)
        [⟨0, 0, fiber_sensor⟩, ⟨200, 200, fiber_blink⟩, ⟨400, 400, fiber_sensor⟩,
         ⟨600, 601, fiber_blink⟩, ⟨800, 800, fiber_sensor⟩,
         ⟨1000, 1000, fiber_blink⟩]).turns → 0 + 500 ≤ t) ∧
      (∀ t, (0, t) ∈ (Sched.run (exampleRoster 0)
        [⟨0, 0, fiber_sensor⟩, ⟨200, 200, fiber_blink⟩, ⟨400, 400, fiber_sensor⟩,
         ⟨600, 601, fiber_blink⟩, ⟨800, 800, fiber_sensor⟩,
         ⟨1000, 1000, fiber_blink⟩]).turns → 0 + 1000 ≤ t)) :=
  ⟨by decide,
   sleeper_scheduled_within_round (exampleRoster 0) 1 0 0 500 1000
      [⟨0, 0, fiber_sensor⟩, ⟨200, 200, fiber_blink⟩, ⟨400, 400, fiber_sensor⟩,
       ⟨600, 601, fiber_blink⟩, ⟨800, 800, fiber_sensor⟩, ⟨1000, 1000, fiber_blink⟩]
      (by decide) rfl rfl ⟨rfl, rfl⟩ (by decide) (by unfold Paced; decide) (by decide)
      ⟨5, by decide, by decide⟩⟩

end Modm
